import Mathlib

/-!
# The virtual-memory core of the kernel: `kern/vm/addrspace.c` and `kern/vm/vm.c`

A shallow embedding of the three-level page table, the region list, the
address-space operations and the page-fault handler, followed by theorems
about them.

Conventions of the embedding.

* `uint32_t`, `vaddr_t`, `paddr_t` and `size_t` values are natural numbers;
  every operation that can leave the 32-bit range in C (`<<`, `+`, `-`) is
  followed by an explicit `% 2 ^ 32`.
* `int` arguments that may be negative (`faulttype`, the permission flags)
  are integers; `int` return codes are natural numbers (`0` is success).
* A pointer to an owned object is the object itself, a nullable pointer is an
  `Option`, a C array is a `List` and the linked list of regions is a `List`
  of its nodes in link order.
* In the page table a read through `NULL` or past the end of an array yields
  `NULL`/`0` and such a write is dropped; on the well-formed address spaces
  (`addrspace.wf`) and 32-bit addresses the theorems are about neither ever
  happens. In `as_copy` the dereference of a `NULL` region pointer is an
  outcome of its own (`none`).
* The collaborators that are not part of these files (the heap, the frame
  allocator, kernel memory and the TLB) are the explicit state `Kernel`.
-/

namespace OS161

set_option maxRecDepth 20000

/-! ## Constants -/

/-- Number of Level-1 slots (`PAGE_L1_NUM`, `addrspace.h`). -/
def PAGE_L1_NUM : Nat := 256

/-- Number of Level-2 slots and of Level-3 entries (`PAGE_L2_L3_NUM`, `addrspace.h`). -/
def PAGE_L2_L3_NUM : Nat := 64

/-- Permission bit `READ` (`addrspace.h`). -/
def READ : Nat := 1 <<< 2

/-- Permission bit `WRITE` (`addrspace.h`). -/
def WRITE : Nat := 1 <<< 1

/-- Permission bit `EXE` (`addrspace.h`). -/
def EXE : Nat := 1 <<< 0

/-- Modelled from the spec: the macro `PAGE_SIZE` of the absent header
`machine/vm.h`; the spec fixes the page size at 4096 bytes. -/
def PAGE_SIZE : Nat := 4096

/-- Modelled from the spec: the macro `PAGE_FRAME` of the absent header
`machine/vm.h`, the mask of the 20 page-number bits above the 12-bit offset. -/
def PAGE_FRAME : Nat := 0xfffff000

/-- Modelled from the spec: the macro `TLBHI_VPAGE` of the absent header
`mips/tlb.h`, the virtual-page field of an EntryHi word (the top 20 bits). -/
def TLBHI_VPAGE : Nat := 0xfffff000

/-- Modelled from the spec: the macro `TLBLO_DIRTY` of the absent header
`mips/tlb.h`, the "dirty" (writable) bit of a translation entry. -/
def TLBLO_DIRTY : Nat := 0x00000400

/-- Modelled from the spec: the macro `TLBLO_VALID` of the absent header
`mips/tlb.h`, the "valid" bit of a translation entry. -/
def TLBLO_VALID : Nat := 0x00000200

/-- Modelled from the spec: the macro `MIPS_KSEG0` of the absent header
`machine/vm.h`; user space is everything below `0x80000000`, the direct-mapped
kernel segment starts there. -/
def MIPS_KSEG0 : Nat := 0x80000000

/-- Modelled from the spec: the macro `USERSTACK` of the absent header
`machine/vm.h`, the top of user space. -/
def USERSTACK : Nat := 0x80000000

/-- Modelled from the spec: the error code `ENOMEM` ("OutOfMemory") of the
absent header `kern/errno.h`. -/
def ENOMEM : Nat := 3

/-- Modelled from the spec: the error code `EFAULT` ("Fault") of the absent
header `kern/errno.h`. -/
def EFAULT : Nat := 6

/-- Modelled from the spec: the error code `EINVAL` ("InvalidArgument") of the
absent header `kern/errno.h`. -/
def EINVAL : Nat := 8

/-- Modelled from the spec: the error code `EADDRINUSE` ("AddressInUse") of the
absent header `kern/errno.h`. -/
def EADDRINUSE : Nat := 54

/-- Modelled from the spec: the fault type `VM_FAULT_READ` of the absent
header `vm.h` (a read was attempted). -/
def VM_FAULT_READ : Int := 0

/-- Modelled from the spec: the fault type `VM_FAULT_WRITE` of the absent
header `vm.h` (a write was attempted). -/
def VM_FAULT_WRITE : Int := 1

/-- Modelled from the spec: the fault type `VM_FAULT_READONLY` of the absent
header `vm.h` (a write to a page the hardware holds read-only). -/
def VM_FAULT_READONLY : Int := 2

/-- Modelled from the spec: the macro `PADDR_TO_KVADDR` of the absent header
`machine/vm.h`, the kernel alias of a physical address (32-bit addition of
`MIPS_KSEG0`). -/
def PADDR_TO_KVADDR (paddr : Nat) : Nat := (paddr + MIPS_KSEG0) % 2 ^ 32

/-- Modelled from the spec: the macro `KVADDR_TO_PADDR` of the absent header
`machine/vm.h`, the physical address behind a kernel alias (32-bit subtraction
of `MIPS_KSEG0`). -/
def KVADDR_TO_PADDR (kvaddr : Nat) : Nat := (kvaddr + 2 ^ 32 - MIPS_KSEG0) % 2 ^ 32

/-! ## Data model (`addrspace.h`) -/

/-- A node of the region list (`struct region`); the `next` link is the
position in the list. -/
structure region where
  size : Nat
  addr_start : Nat
  permission : Nat
deriving DecidableEq

/-- A Level-2 slot (`struct addrspace_l3`): the Level-3 array or `NULL`. -/
structure addrspace_l3 where
  entries : Option (List Nat)
deriving DecidableEq

/-- The per-process address space (`struct addrspace`, the non-dumbvm branch). -/
structure addrspace where
  page_table : List (Option (List addrspace_l3))
  regions : List region
  writable : Nat
deriving DecidableEq

/-- A Level-3 array, when present, has `PAGE_L2_L3_NUM` entries. -/
def l3_wf (s : addrspace_l3) : Bool :=
  match s.entries with
  | none => true
  | some ents => ents.length == PAGE_L2_L3_NUM

/-- A Level-2 array, when present, has `PAGE_L2_L3_NUM` well-formed slots. -/
def l2_wf (t : Option (List addrspace_l3)) : Bool :=
  match t with
  | none => true
  | some a => a.length == PAGE_L2_L3_NUM && a.all l3_wf

/-- The shape the C types and allocations give a page table: 256 Level-1
slots, every present Level-2 array 64 slots long, every present Level-3 array
64 entries long. -/
def addrspace.wf (as : addrspace) : Bool :=
  as.page_table.length == PAGE_L1_NUM && as.page_table.all l2_wf

/-! ## Bitwise operation (`addrspace.c`, lines 519-532) -/

/-- Source `get_l1_index`: `addr >> 24`. -/
def get_l1_index (addr : Nat) : Nat :=
  addr >>> 24

/-- Source `get_l2_index`: `(addr << 8) >> 26` on 32 bits. -/
def get_l2_index (addr : Nat) : Nat :=
  ((addr <<< 8) % 2 ^ 32) >>> 26

/-- Source `get_l3_index`: `(addr << 14) >> 26` on 32 bits. -/
def get_l3_index (addr : Nat) : Nat :=
  ((addr <<< 14) % 2 ^ 32) >>> 26

/-! ## The collaborators: heap, frame allocator, kernel memory, TLB -/

/-- The state of the collaborators the VM code calls into.

* `kmalloc_ok`: the outcomes of the coming `kmalloc` calls, in call order
  (`true`: a block is returned, `false`: `NULL`); once used up, `kmalloc` fails.
* `kfrees`: the number of `kfree` calls made so far.
* `kpages`: the results of the coming `alloc_kpages(1)` calls, in call order
  (a kernel virtual address, `0` for "out of memory"); once used up, the
  allocator fails.
* `freed`: the arguments of the `free_kpages` calls made so far, latest last.
* `mem`: the byte stored at each kernel virtual address.
* `tlb`: the `(entryhi, entrylo)` pairs handed to `tlb_random` so far, latest
  last. -/
structure Kernel where
  kmalloc_ok : List Bool
  kfrees : Nat
  kpages : List Nat
  freed : List Nat
  mem : Nat → Nat
  tlb : List (Nat × Nat)

/-- Modelled from the spec: the heap allocator `kmalloc` of the absent
`kern/lib/kmalloc.c`, reduced to whether it returns a block or `NULL`. -/
def kmalloc (k : Kernel) : Bool × Kernel :=
  match k.kmalloc_ok with
  | [] => (false, k)
  | ok :: rest => (ok, { k with kmalloc_ok := rest })

/-- Modelled from the spec: `kfree` of the absent `kern/lib/kmalloc.c`; the
call is counted. -/
def kfree (k : Kernel) : Kernel :=
  { k with kfrees := k.kfrees + 1 }

/-- Modelled from the spec: the frame allocator `alloc_kpages(1)` of the absent
frame-table code: "allocate(n_pages) -> kernel_virtual_address | 0 on
failure". -/
def alloc_kpages (k : Kernel) : Nat × Kernel :=
  match k.kpages with
  | [] => (0, k)
  | p :: rest => (p, { k with kpages := rest })

/-- Modelled from the spec: `free_kpages` of the absent frame-table code; the
address handed back is recorded. -/
def free_kpages (k : Kernel) (addr : Nat) : Kernel :=
  { k with freed := k.freed ++ [addr] }

/-- Modelled from the spec: `bzero(p, len)` of the absent `kern/lib/bzero.c`:
the `len` bytes from `p` on become zero. -/
def bzero (k : Kernel) (p len : Nat) : Kernel :=
  { k with mem := fun a => if p ≤ a ∧ a < p + len then 0 else k.mem a }

/-- Modelled from the spec: `tlb_random` of the absent `mips/tlb.h`: the pair
is written to a TLB slot of the hardware's choice; the write is recorded. The
`splhigh`/`splx` bracket around it changes no state of this model. -/
def tlb_random (k : Kernel) (entryhi entrylo : Nat) : Kernel :=
  { k with tlb := k.tlb ++ [(entryhi, entrylo)] }

/-! ## Address space (`addrspace.c`, lines 55-67 and 231-249) -/

/-- Source `as_create`: `kmalloc` the record and `bzero` it: 256 null Level-1
slots, no regions, `writable = 0`; `NULL` when `kmalloc` fails. -/
def as_create (k : Kernel) : Option addrspace × Kernel :=
  match kmalloc k with
  | (false, k1) => (none, k1)
  | (true, k1) =>
    (some { page_table := List.replicate PAGE_L1_NUM none, regions := [], writable := 0 }, k1)

/-- Source `as_prepare_load`: `ENOMEM` on `NULL`, else `as->writable = 1`. -/
def as_prepare_load (as : Option addrspace) : Nat × Option addrspace :=
  match as with
  | none => (ENOMEM, none)
  | some a => (0, some { a with writable := 1 })

/-- Source `as_complete_load`: `ENOMEM` on `NULL`, else `as->writable = 0`. -/
def as_complete_load (as : Option addrspace) : Nat × Option addrspace :=
  match as with
  | none => (ENOMEM, none)
  | some a => (0, some { a with writable := 0 })

/-! ## Page table (`addrspace.c`, lines 268-415) -/

/-- The expression `as->page_table[l1]`: the Level-2 array or `NULL`. -/
def l2_slot (as : addrspace) (l1 : Nat) : Option (List addrspace_l3) :=
  as.page_table.getD l1 none

/-- The expression `as->page_table[l1][l2].entries`: the Level-3 array or `NULL`. -/
def l3_slot (as : addrspace) (l1 l2 : Nat) : Option (List Nat) :=
  match l2_slot as l1 with
  | none => none
  | some a => (a.getD l2 { entries := none }).entries

/-- The assignment `as->page_table[l1][l2].entries = v`. -/
def set_entries (as : addrspace) (l1 l2 : Nat) (v : Option (List Nat)) : addrspace :=
  match l2_slot as l1 with
  | none => as
  | some a => { as with page_table := as.page_table.set l1 (some (a.set l2 { entries := v })) }

/-- The assignment `as->page_table[l1][l2].entries[l3] = e`. -/
def set_entry (as : addrspace) (l1 l2 l3 : Nat) (e : Nat) : addrspace :=
  match l3_slot as l1 l2 with
  | none => as
  | some ents => set_entries as l1 l2 (some (ents.set l3 e))

/-- Source `page_table_lookup`: `0` when the Level-2 or the Level-3 array is
absent, else the stored entry. -/
def page_table_lookup (as : addrspace) (addr : Nat) : Nat :=
  let l1 := get_l1_index addr
  let l2 := get_l2_index addr
  let l3 := get_l3_index addr
  match l2_slot as l1 with
  | none => 0x0
  | some a =>
    match (a.getD l2 { entries := none }).entries with
    | none => 0x0
    | some ents => ents.getD l3 0

/-- Source `page_table_l2_init`: `1` for an index out of range; else the slot
receives the result of `kmalloc` (`ENOMEM` when that is `NULL`) and the 64
slots of a new array are set to `NULL`. -/
def page_table_l2_init (k : Kernel) (as : addrspace) (l1 : Nat) : Nat × Kernel × addrspace :=
  if l1 ≥ PAGE_L1_NUM then (1, k, as)
  else
    match kmalloc k with
    | (false, k1) => (ENOMEM, k1, { as with page_table := as.page_table.set l1 none })
    | (true, k1) =>
      (0, k1, { as with page_table :=
        as.page_table.set l1 (some (List.replicate PAGE_L2_L3_NUM { entries := none })) })

/-- Source `page_table_l3_init`: `1` when `l1 >= PAGE_L1_NUM || l2 > PAGE_L2_L3_NUM`;
the Level-2 array is created first if absent; nothing is done when the Level-3
array exists; else the slot receives the result of `kmalloc` (`ENOMEM` when
that is `NULL`) and the 64 entries of a new array are set to `0`. -/
def page_table_l3_init (k : Kernel) (as : addrspace) (l1 l2 : Nat) :
    Nat × Kernel × addrspace :=
  if l1 ≥ PAGE_L1_NUM ∨ l2 > PAGE_L2_L3_NUM then (1, k, as)
  else
    let r1 := if (l2_slot as l1).isNone then page_table_l2_init k as l1 else (0, k, as)
    if r1.1 ≠ 0 then r1
    else if (l3_slot r1.2.2 l1 l2).isSome then (0, r1.2.1, r1.2.2)
    else
      match kmalloc r1.2.1 with
      | (false, k2) => (ENOMEM, k2, set_entries r1.2.2 l1 l2 none)
      | (true, k2) => (0, k2, set_entries r1.2.2 l1 l2 (some (List.replicate PAGE_L2_L3_NUM 0)))

/-- Source `page_table_insert`: create the missing Level-2 and Level-3 arrays,
returning the error of a failed creation, then store `entrylo`. -/
def page_table_insert (k : Kernel) (as : addrspace) (addr entrylo : Nat) :
    Nat × Kernel × addrspace :=
  let l1 := get_l1_index addr
  let l2 := get_l2_index addr
  let l3 := get_l3_index addr
  let r1 := if (l2_slot as l1).isNone then page_table_l2_init k as l1 else (0, k, as)
  if r1.1 ≠ 0 then r1
  else
    let r2 :=
      if (l3_slot r1.2.2 l1 l2).isNone then page_table_l3_init r1.2.1 r1.2.2 l1 l2
      else (0, r1.2.1, r1.2.2)
    if r2.1 ≠ 0 then r2
    else (0, r2.2.1, set_entry r2.2.2 l1 l2 l3 entrylo)

/-- The shape insertion relies on: the Level-2 array of `l1` is present with 64
slots, and its present Level-3 arrays have 64 entries. -/
def l2_ready (as : addrspace) (l1 : Nat) : Prop :=
  ∃ a, l2_slot as l1 = some a ∧ a.length = PAGE_L2_L3_NUM ∧
    ∀ l2 ents, (a.getD l2 { entries := none }).entries = some ents →
      ents.length = PAGE_L2_L3_NUM

/-- The shape a store needs: the Level-3 array of `(l1, l2)` is present with
64 entries inside a 64-slot Level-2 array. -/
def l3_ready (as : addrspace) (l1 l2 : Nat) : Prop :=
  ∃ a ents, l2_slot as l1 = some a ∧ l2 < a.length ∧
    (a.getD l2 { entries := none }).entries = some ents ∧ ents.length = PAGE_L2_L3_NUM

/-! ## Region (`addrspace.c`, lines 195-229 and 478-517) -/

/-- Source `region_checkInUse`: the ends are 32-bit sums; `EADDRINUSE` when the
start or the end of `cur` lies in `(new_start, new_end]`. -/
def region_checkInUse (cur new : region) : Nat :=
  let cur_start := cur.addr_start
  let cur_end := (cur.addr_start + cur.size) % 2 ^ 32
  let new_start := new.addr_start
  let new_end := (new.addr_start + new.size) % 2 ^ 32
  if (cur_start > new_start ∧ cur_start ≤ new_end) ∨
      (cur_end > new_start ∧ cur_end ≤ new_end) then EADDRINUSE
  else 0

/-- The `else` branch of source `as_define_region`, from the node `temp` on:
`while (temp->next != NULL)` checks `temp` against the new node and moves on,
returning the error of a failed check; the node whose `next` is `NULL` gets the
new node as its `next`. The result is the error code and the list from `temp`
on. -/
def as_define_region_walk (new_region : region) : region → List region → Nat × List region
  | temp, [] => (0, [temp, new_region])
  | temp, next :: rest =>
    let err := region_checkInUse temp new_region
    if err ≠ 0 then (err, temp :: next :: rest)
    else
      let r := as_define_region_walk new_region next rest
      (r.1, temp :: r.2)

/-- Source `as_define_region`: `ENOMEM` when the node cannot be allocated; the
permission byte is `executable | readable | writeable` cut to 8 bits; an empty
list receives the node as its head, a non-empty one is walked; on a failed
check the node is freed and the error returned. -/
def as_define_region (k : Kernel) (as : addrspace) (vaddr memsize : Nat)
    (readable writeable executable : Int) : Nat × Kernel × addrspace :=
  match kmalloc k with
  | (false, k1) => (ENOMEM, k1, as)
  | (true, k1) =>
    let permission := (Int.lor (Int.lor executable readable) writeable % 256).toNat
    let new_region : region :=
      { permission := permission, size := memsize, addr_start := vaddr }
    match as.regions with
    | [] => (0, k1, { as with regions := [new_region] })
    | temp :: rest =>
      let r := as_define_region_walk new_region temp rest
      if r.1 ≠ 0 then (r.1, kfree k1, { as with regions := r.2 })
      else (0, k1, { as with regions := r.2 })

/-- Source `make_pte`: set `TLBLO_DIRTY` when the region has `WRITE` or the
override is on, set `TLBLO_VALID` when the permission byte is non-zero. -/
def make_pte (reg : region) (page : Nat) (global_writable : Nat) : Nat :=
  let page :=
    if reg.permission &&& WRITE ≠ 0 ∨ global_writable ≠ 0 then page ||| TLBLO_DIRTY else page
  let page := if reg.permission ≠ 0 then page ||| TLBLO_VALID else page
  page

/-- The loop of source `regions_lookup` from the node `cur` on: stop at the
first node with `addr_start <= addr` and `addr_start + size > addr` (a 32-bit
sum); `NULL` at the end of the list. -/
def regions_lookup_from : List region → Nat → Option region
  | [], _ => none
  | cur :: next, addr =>
    if cur.addr_start ≤ addr ∧ (cur.addr_start + cur.size) % 2 ^ 32 > addr then some cur
    else regions_lookup_from next addr

/-- Source `regions_lookup`: the scan starts at `as->regions`. -/
def regions_lookup (as : addrspace) (addr : Nat) : Option region :=
  regions_lookup_from as.regions addr

/-! ## Fault handler (`vm.c`) -/

/-- Source `check_faulttype`. -/
def check_faulttype (faulttype : Int) : Nat :=
  if faulttype = VM_FAULT_READONLY then EFAULT
  else if faulttype ≠ VM_FAULT_READ ∧ faulttype ≠ VM_FAULT_WRITE then EINVAL
  else 0

/-- Source `vm_fault`. The second argument is what `proc_getas()` returns, the
current address space or `NULL`; the result carries the return code, the
collaborators afterwards and the address space afterwards. -/
def vm_fault (k : Kernel) (curas : Option addrspace) (faulttype : Int) (faultaddress : Nat) :
    Nat × Kernel × Option addrspace :=
  let entryhi := faultaddress &&& TLBHI_VPAGE
  if faultaddress = 0x0 ∨ faultaddress ≥ 0x80000000 then (EFAULT, k, curas)
  else
    let err := check_faulttype faulttype
    if err ≠ 0 then (err, k, curas)
    else
      match curas with
      | none => (ENOMEM, k, none)
      | some as =>
        let entrylo := page_table_lookup as faultaddress
        if entrylo &&& TLBLO_VALID ≠ 0 then
          if faulttype = VM_FAULT_WRITE ∧ entrylo &&& TLBLO_DIRTY = 0 then (EFAULT, k, some as)
          else (0, tlb_random k entryhi entrylo, some as)
        else
          match regions_lookup as faultaddress with
          | none => (EFAULT, k, some as)
          | some cur =>
            let newpage := (alloc_kpages k).1
            let k1 := (alloc_kpages k).2
            if newpage = 0 then (ENOMEM, k1, some as)
            else
              let k2 := bzero k1 newpage PAGE_SIZE
              let entrylo := KVADDR_TO_PADDR newpage
              let entrylo := make_pte cur entrylo as.writable
              let r := page_table_insert k2 as entryhi entrylo
              if r.1 ≠ 0 then (r.1, free_kpages r.2.1 newpage, some r.2.2)
              else (0, tlb_random r.2.1 entryhi entrylo, some r.2.2)

/-! ## Loops -/

/-- A counted C loop whose body may `return` an error: `for_loop body n i s`
runs `body i`, `body (i + 1)`, ... for `n` rounds from the state `s`; a round
that yields a non-zero code ends the function with that code and the state
reached; after the last round the code is 0. -/
def for_loop {σ : Type} (body : Nat → σ → Nat × σ) : Nat → Nat → σ → Nat × σ
  | 0, _, s => (0, s)
  | n + 1, i, s =>
    let r := body i s
    if r.1 ≠ 0 then r else for_loop body n (i + 1) r.2

/-- A counted C loop without exits: `for_each body n i s` runs `body i`,
`body (i + 1)`, ... for `n` rounds from the state `s`. -/
def for_each {σ : Type} (body : Nat → σ → σ) : Nat → Nat → σ → σ
  | 0, _, s => s
  | n + 1, i, s => for_each body n (i + 1) (body i s)

/-! ## Duplication and teardown (`addrspace.c`, lines 78-137, 289-342 and 418-476) -/

/-- Modelled from the spec: `memmove(dst, src, len)` of the absent
`kern/lib/memmove.c`: the `len` bytes from `dst` on receive the bytes that were
at `src` on. -/
def memmove (k : Kernel) (dst src len : Nat) : Kernel :=
  { k with mem := fun a => if dst ≤ a ∧ a < dst + len then k.mem (src + (a - dst)) else k.mem a }

/-- The expression `as->page_table[l1][l2].entries[l3]`. -/
def entry_at (as : addrspace) (l1 l2 l3 : Nat) : Nat :=
  match l3_slot as l1 l2 with
  | none => 0
  | some ents => ents.getD l3 0

/-- The body of the `l3` loop of source `page_table_dup` (lines 310-335): for a
non-zero entry of `old`, take a frame (`ENOMEM` when there is none), copy the
page of the old frame into it and store the frame's physical address with the
old entry's dirty and valid bits. The state is the collaborators and `new`. -/
def page_table_dup_l3 (old : addrspace) (l1 l2 l3 : Nat) (s : Kernel × addrspace) :
    Nat × (Kernel × addrspace) :=
  let old_entry := entry_at old l1 l2 l3
  if old_entry ≠ 0x0 then
    let old_frame := PADDR_TO_KVADDR (old_entry &&& PAGE_FRAME)
    let new_frame := (alloc_kpages s.1).1
    let k1 := (alloc_kpages s.1).2
    if new_frame = 0x0 then (ENOMEM, (k1, s.2))
    else
      let k2 := memmove k1 new_frame old_frame PAGE_SIZE
      let entrylo := KVADDR_TO_PADDR new_frame
      let entrylo := entrylo ||| (old_entry &&& TLBLO_DIRTY)
      let entrylo := entrylo ||| (old_entry &&& TLBLO_VALID)
      (0, (k2, set_entry s.2 l1 l2 l3 entrylo))
  else (0, s)

/-- The body of the `l2` loop of source `page_table_dup` (lines 302-337): for a
present Level-3 array of `old`, create the one of `new` and run the `l3`
loop. -/
def page_table_dup_l2 (old : addrspace) (l1 l2 : Nat) (s : Kernel × addrspace) :
    Nat × (Kernel × addrspace) :=
  if (l3_slot old l1 l2).isSome then
    let r := page_table_l3_init s.1 s.2 l1 l2
    if r.1 ≠ 0 then (r.1, (r.2.1, r.2.2))
    else for_loop (page_table_dup_l3 old l1 l2) PAGE_L2_L3_NUM 0 (r.2.1, r.2.2)
  else (0, s)

/-- The body of the `l1` loop of source `page_table_dup` (lines 294-339): for a
present Level-2 array of `old`, create the one of `new` and run the `l2`
loop. -/
def page_table_dup_l1 (old : addrspace) (l1 : Nat) (s : Kernel × addrspace) :
    Nat × (Kernel × addrspace) :=
  if (l2_slot old l1).isSome then
    let r := page_table_l2_init s.1 s.2 l1
    if r.1 ≠ 0 then (r.1, (r.2.1, r.2.2))
    else for_loop (page_table_dup_l2 old l1) PAGE_L2_L3_NUM 0 (r.2.1, r.2.2)
  else (0, s)

/-- Source `page_table_dup`: the `l1` loop over the 256 slots; the result is
the return code, the collaborators and `new` afterwards. -/
def page_table_dup (k : Kernel) (new old : addrspace) : Nat × Kernel × addrspace :=
  let r := for_loop (page_table_dup_l1 old) PAGE_L1_NUM 0 (k, new)
  (r.1, r.2.1, r.2.2)

/-- The body of the `k` loop of source `page_table_destroy` (lines 423-428): a
non-zero entry has `PADDR_TO_KVADDR` of the entry handed to `free_kpages`. -/
def page_table_destroy_k (i j k : Nat) (s : Kernel × addrspace) : Kernel × addrspace :=
  let addr := entry_at s.2 i j k
  if addr ≠ 0x0 then (free_kpages s.1 (PADDR_TO_KVADDR addr), s.2) else s

/-- The body of the `j` loop of source `page_table_destroy` (lines 421-434): a
present Level-3 array has its entries walked, is freed and its slot set to
`NULL`. -/
def page_table_destroy_j (i j : Nat) (s : Kernel × addrspace) : Kernel × addrspace :=
  if (l3_slot s.2 i j).isSome then
    let s1 := for_each (page_table_destroy_k i j) PAGE_L2_L3_NUM 0 s
    (kfree s1.1, set_entries s1.2 i j none)
  else s

/-- The body of the `i` loop of source `page_table_destroy` (lines 419-438): a
present Level-2 array has its slots walked and is freed; the Level-1 slot is
set to `NULL` in every case. -/
def page_table_destroy_i (i : Nat) (s : Kernel × addrspace) : Kernel × addrspace :=
  let s1 :=
    if (l2_slot s.2 i).isSome then
      let s2 := for_each (page_table_destroy_j i) PAGE_L2_L3_NUM 0 s
      (kfree s2.1, s2.2)
    else s
  (s1.1, { s1.2 with page_table := s1.2.page_table.set i none })

/-- Source `page_table_destroy`: the `i` loop over the 256 slots. -/
def page_table_destroy (k : Kernel) (as : addrspace) : Kernel × addrspace :=
  for_each page_table_destroy_i PAGE_L1_NUM 0 (k, as)

/-- Source `region_destroy`: free the rest of the list, then the node; the
argument is the list from the node `ls` on, `[]` for `NULL`. -/
def region_destroy (k : Kernel) : List region → Nat × Kernel
  | [] => (0, k)
  | _ :: next => (0, kfree (region_destroy k next).2)

/-- Source `region_dup`. The argument `ls` is the list from the node on (`[]`
for `NULL`) and `ret` the value `*ret` holds at the call; the result is the
returned node (its `next` is `NULL`) or `NULL`, the value of `*ret` afterwards
and the collaborators. When `kmalloc` fails the function returns `NULL` at
once: the assignment `*ret = ENOMEM` stands behind the `return` and is never
run, so `*ret` keeps its value. -/
def region_dup (k : Kernel) (ls : List region) (ret : Nat) : Option region × Nat × Kernel :=
  match ls with
  | [] => (none, 0, k)
  | node :: _ =>
    match kmalloc k with
    | (false, k1) => (none, ret, k1)
    | (true, k1) =>
      (some { permission := node.permission, size := node.size, addr_start := node.addr_start },
        0, k1)

/-- The `while (old_temp->next != NULL)` loop of source `as_copy` (lines
106-116) with the final `temp->next = NULL`. `old_temp` is the source list from
the current node on (`[]` for `NULL`), `pre` the new nodes linked before `temp`
and `temp` the node `temp` points to (`none` for `NULL`). The result is `none`
when a `NULL` pointer is dereferenced (`old_temp->next` with `old_temp == NULL`,
or a store to `temp->next` with `temp == NULL`); else the return code, the
collaborators and the new list. -/
def as_copy_walk (err : Nat) : Kernel → List region → List region → Option region →
    Option (Nat × Kernel × List region)
  | _, [], _, _ => none
  | k, [_], pre, temp =>
    match temp with
    | none => none
    | some t => some (0, k, pre ++ [t])
  | k, _ :: next :: rest, pre, temp =>
    let r := region_dup k (next :: rest) err
    match temp with
    | none => none
    | some t =>
      if r.2.1 ≠ 0 then
        some (r.2.1, (region_destroy r.2.2 (pre ++ [t] ++ r.1.toList)).2, pre ++ [t] ++ r.1.toList)
      else as_copy_walk r.2.1 r.2.2 (next :: rest) (pre ++ [t]) r.1

/-- Source `as_copy`. The result is `none` when a `NULL` pointer is
dereferenced; else the return code, the collaborators and what `*ret` received
(`none` when the function returned before `*ret = newas`). -/
def as_copy (k : Kernel) (old : addrspace) : Option (Nat × Kernel × Option addrspace) :=
  match as_create k with
  | (none, k1) => some (ENOMEM, k1, none)
  | (some newas0, k1) =>
    let newas : addrspace := { newas0 with writable := old.writable }
    let d := page_table_dup k1 newas old
    if d.1 ≠ 0 then some (d.1, d.2.1, none)
    else
      let r := region_dup d.2.1 old.regions d.1
      if r.2.1 ≠ 0 then some (r.2.1, r.2.2, none)
      else
        match as_copy_walk r.2.1 r.2.2 old.regions [] r.1 with
        | none => none
        | some w =>
          if w.1 ≠ 0 then some (w.1, w.2.1, none)
          else some (0, w.2.1, some { d.2.2 with regions := w.2.2 })

/-- Source `as_destroy`: nothing on `NULL`; else the page table is destroyed,
the region nodes are freed and the record is freed. The address space is gone
afterwards, the result is the collaborators. -/
def as_destroy (k : Kernel) (as : Option addrspace) : Kernel :=
  match as with
  | none => k
  | some a =>
    let s := page_table_destroy k a
    kfree (region_destroy s.1 s.2.regions).2

/-- Source `as_define_stack`: `ENOMEM` on `NULL`; else the 16 pages below
`USERSTACK` are defined with the flags `1 << 2`, `1 << 1`, `0` and `*stackptr`
receives `USERSTACK`. The result is the return code, the collaborators, the
address space and what `*stackptr` received (`none` when nothing was stored). -/
def as_define_stack (k : Kernel) (as : Option addrspace) :
    Nat × Kernel × Option addrspace × Option Nat :=
  match as with
  | none => (ENOMEM, k, none, none)
  | some a =>
    let r := as_define_region k a ((USERSTACK + 2 ^ 32 - 16 * PAGE_SIZE) % 2 ^ 32)
      (16 * PAGE_SIZE) ((1 <<< 2 : Nat) : Int) ((1 <<< 1 : Nat) : Int) 0
    if r.1 ≠ 0 then (r.1, r.2.1, some r.2.2, none)
    else (0, r.2.1, some r.2.2, some USERSTACK)

/-! ## The mapped pages of a page table -/

/-- The non-zero entries of a Level-3 array, in index order (none when the
array is absent). -/
def l3_entries (sl : addrspace_l3) : List Nat :=
  match sl.entries with
  | none => []
  | some ents => ents.filter (fun e => decide (e ≠ 0))

/-- The non-zero entries below the slots of a Level-2 array, in index order. -/
def l2_entries_list : List addrspace_l3 → List Nat
  | [] => []
  | sl :: rest => l3_entries sl ++ l2_entries_list rest

/-- The non-zero entries below a Level-1 slot (none when the Level-2 array is
absent). -/
def l2_entries (t : Option (List addrspace_l3)) : List Nat :=
  match t with
  | none => []
  | some a => l2_entries_list a

/-- The non-zero entries below a list of Level-1 slots, in index order. -/
def pt_entries : List (Option (List addrspace_l3)) → List Nat
  | [] => []
  | t :: rest => l2_entries t ++ pt_entries rest

/-- The non-zero Level-3 entries of an address space (its mapped pages), in the
order of the index triple. -/
def mapped_entries (as : addrspace) : List Nat :=
  pt_entries as.page_table

/-- What the `j` loop of `page_table_destroy` keeps, from round `b` on, when it
was entered in the state `s0` with the Level-2 array `a0` in slot `i`. -/
def destroy_j_inv (i : Nat) (s0 : Kernel × addrspace) (a0 : List addrspace_l3) (b : Nat)
    (s : Kernel × addrspace) : Prop :=
  (∀ x, x ≠ i → l2_slot s.2 x = l2_slot s0.2 x) ∧
  s.2.page_table.length = s0.2.page_table.length ∧
  (∃ a', l2_slot s.2 i = some a' ∧
    ∀ y, b ≤ y → a'.getD y { entries := none } = a0.getD y { entries := none }) ∧
  s.2.regions = s0.2.regions ∧ s.2.writable = s0.2.writable ∧
  s.1.freed ++ (l2_entries_list (a0.drop b)).map PADDR_TO_KVADDR =
    s0.1.freed ++ (l2_entries_list a0).map PADDR_TO_KVADDR

/-- What the `i` loop of `page_table_destroy` keeps, from round `a` on, when it
was entered with the collaborators `k` and the address space `as`. -/
def destroy_i_inv (k : Kernel) (as : addrspace) (a : Nat) (s : Kernel × addrspace) : Prop :=
  s.2.page_table.length = as.page_table.length ∧
  (∀ x, x < a → l2_slot s.2 x = none) ∧
  (∀ x, a ≤ x → l2_slot s.2 x = l2_slot as x) ∧
  s.2.regions = as.regions ∧ s.2.writable = as.writable ∧
  s.1.freed ++ (pt_entries (as.page_table.drop a)).map PADDR_TO_KVADDR =
    k.freed ++ (mapped_entries as).map PADDR_TO_KVADDR

/-! ## Duplication of the page table: what the loops keep -/

/-- The entry `page_table_dup` stores for the new frame `f` and the old entry
`e`: the frame's physical address with the dirty and valid bits of `e`. -/
def dup_entry (f e : Nat) : Nat :=
  KVADDR_TO_PADDR f ||| (e &&& TLBLO_DIRTY) ||| (e &&& TLBLO_VALID)

/-- The number of present Level-3 arrays below the slots of a Level-2 array. -/
def l3_arrays_count : List addrspace_l3 → Nat
  | [] => 0
  | sl :: rest => (if sl.entries.isSome then 1 else 0) + l3_arrays_count rest

/-- The number of arrays below a Level-1 slot: the Level-2 array, when present,
and its present Level-3 arrays. -/
def l2_arrays (t : Option (List addrspace_l3)) : Nat :=
  match t with
  | none => 0
  | some a => 1 + l3_arrays_count a

/-- The number of Level-2 and Level-3 arrays below a list of Level-1 slots. -/
def arrays_count : List (Option (List addrspace_l3)) → Nat
  | [] => 0
  | t :: rest => l2_arrays t + arrays_count rest

/-- The triples the `l1` loop of `page_table_dup` has dealt with before round
`a`. -/
def dup_done_l1 (a : Nat) (x _y _z : Nat) : Prop := x < a

/-- The triples dealt with before round `b` of the `l2` loop in slot `a`. -/
def dup_done_l2 (a b : Nat) (x y _z : Nat) : Prop := x < a ∨ (x = a ∧ y < b)

/-- The triples dealt with before round `c` of the `l3` loop in slot `(a, b)`. -/
def dup_done_l3 (a b c : Nat) (x y z : Nat) : Prop :=
  x < a ∨ (x = a ∧ (y < b ∨ (y = b ∧ z < c)))

/-- What is assumed of the collaborators and of the source when
`page_table_dup k new old` starts: the source is well formed, no coming
`kmalloc` fails, the coming frames are page-aligned addresses above the start
of the kernel segment, pairwise different, and none is the frame of a source
entry. -/
structure dup_env (k : Kernel) (old : addrspace) : Prop where
  old_wf : old.wf = true
  malloc_ok : ∀ b ∈ k.kmalloc_ok, b = true
  good : ∀ p ∈ k.kpages, p % PAGE_SIZE = 0 ∧ MIPS_KSEG0 < p ∧ p < 2 ^ 32
  nodup : k.kpages.Nodup
  unref : ∀ p ∈ k.kpages, ∀ e ∈ mapped_entries old, p ≠ PADDR_TO_KVADDR (e &&& PAGE_FRAME)

/-- What holds of the state `s` (collaborators and `new`) of `page_table_dup`
started from `k`, `new0` and `old`, when the triples in `D` have been dealt
with and `Rm` allocations and `Rf` frames are still to come: `new` is well
formed with the regions and flag of `new0`; the oracles of `k` have been
consumed from the front and hold enough for what is to come; memory outside
the frames used so far is that of `k`; an in-range triple in `D` with a
non-zero old entry has the entry `dup_entry f e` for a used frame `f` holding
the bytes of the old frame; every other in-range triple has entry 0. -/
structure dup_inv (k : Kernel) (new0 old : addrspace) (D : Nat → Nat → Nat → Prop)
    (Rm Rf : Nat) (s : Kernel × addrspace) : Prop where
  wf : s.2.wf = true
  regions : s.2.regions = new0.regions
  writable : s.2.writable = new0.writable
  mallocs : ∃ used, k.kmalloc_ok = used ++ s.1.kmalloc_ok
  malloc_budget : Rm ≤ s.1.kmalloc_ok.length
  frame_budget : Rf ≤ s.1.kpages.length
  frames : ∃ used, k.kpages = used ++ s.1.kpages ∧
    (∀ a, (∀ f ∈ used, ¬ (f ≤ a ∧ a < f + 4096)) → s.1.mem a = k.mem a) ∧
    (∀ x y z, x < PAGE_L1_NUM → y < PAGE_L2_L3_NUM → z < PAGE_L2_L3_NUM → D x y z →
      entry_at old x y z ≠ 0 →
      ∃ f ∈ used, entry_at s.2 x y z = dup_entry f (entry_at old x y z) ∧
        ∀ j, j < 4096 →
          s.1.mem (f + j) = k.mem (PADDR_TO_KVADDR (entry_at old x y z &&& PAGE_FRAME) + j))
  zero : ∀ x y z, x < PAGE_L1_NUM → y < PAGE_L2_L3_NUM → z < PAGE_L2_L3_NUM →
    (¬ D x y z ∨ entry_at old x y z = 0) → entry_at s.2 x y z = 0

/-- What "every allocation succeeds" asks of the collaborators in the state `k`
in which a copy of `old` starts: the source page table has the shape of the C
types, `kmalloc` never fails and `alloc_kpages` never hands out address 0. -/
structure dup_alloc_env (k : Kernel) (old : addrspace) : Prop where
  old_wf : old.wf = true
  malloc_ok : ∀ b ∈ k.kmalloc_ok, b = true
  frames_ok : ∀ p ∈ k.kpages, p ≠ 0

/-- What the loops of `page_table_dup` keep when only the return code matters:
the destination keeps its shape, region list and flag, and the oracles still
hold `Rm` and `Rf` outcomes beyond what the remaining rounds need. -/
structure dup_ok_inv (k : Kernel) (new0 : addrspace) (Rm Rf : Nat)
    (s : Kernel × addrspace) : Prop where
  wf : s.2.wf = true
  regions : s.2.regions = new0.regions
  writable : s.2.writable = new0.writable
  mallocs : ∃ used, k.kmalloc_ok = used ++ s.1.kmalloc_ok
  malloc_budget : Rm ≤ s.1.kmalloc_ok.length
  frame_budget : Rf ≤ s.1.kpages.length
  frames : ∃ used, k.kpages = used ++ s.1.kpages

/-! ## States used in the examples -/

/-- The address space right after `as_create`. -/
def as_empty : addrspace :=
  { page_table := List.replicate PAGE_L1_NUM none, regions := [], writable := 0 }

/-- A kernel with room: the next eight `kmalloc` calls succeed, the frames at
`0x80100000` and `0x80101000` are free, memory holds `0xAA` everywhere, nothing
has been freed or written to the TLB. -/
def kernel_ex : Kernel :=
  { kmalloc_ok := [true, true, true, true, true, true, true, true],
    kfrees := 0,
    kpages := [0x80100000, 0x80101000],
    freed := [],
    mem := fun _ => 0xAA,
    tlb := [] }

/-- The region `[0x1000, 0x2000)`, readable only. -/
def region_ro : region := { size := 0x1000, addr_start := 0x1000, permission := READ }

/-- The region `[0x1000, 0x3000)`, readable only. -/
def region_wide : region := { size := 0x2000, addr_start := 0x1000, permission := READ }

/-- The region `[0x5000, 0x6000)`, readable only. -/
def region_far : region := { size := 0x1000, addr_start := 0x5000, permission := READ }

/-- The region `[0x1800, 0x2800)`, readable only; it shares `[0x1800, 0x2000)`
with `region_ro`. -/
def region_mid : region := { size := 0x1000, addr_start := 0x1800, permission := READ }

/-- The region `[0x1000, 0x2000)`, readable and writable. -/
def region_rw : region := { size := 0x1000, addr_start := 0x1000, permission := READ ||| WRITE }

/-- The address space with the single region `[0x1000, 0x2000)`, readable only. -/
def as_ro : addrspace := { as_empty with regions := [region_ro] }

/-- The address space with the single region `[0x1000, 0x2000)`, readable and
writable. -/
def as_rw : addrspace := { as_empty with regions := [region_rw] }

/-- A kernel in which the first `kmalloc` succeeds and the second fails. -/
def kernel_tight : Kernel := { kernel_ex with kmalloc_ok := [true, false] }

/-- The region `[0x2000, 0x3000)`, readable only; it starts where `region_ro`
ends. -/
def region_next : region := { size := 0x1000, addr_start := 0x2000, permission := READ }

/-- The address space `as_rw` with the page at `0x1000` mapped to the frame at
physical address `0x00100000`, valid and writable (entry `0x00100600`): what a
write fault at `0x1000` with the frame `0x80100000` leaves. -/
def as_mapped : addrspace :=
  { page_table := (List.replicate PAGE_L1_NUM none).set 0
      (some ((List.replicate PAGE_L2_L3_NUM { entries := none }).set 0
        { entries := some ((List.replicate PAGE_L2_L3_NUM 0).set 1 0x00100600) })),
    regions := [region_rw],
    writable := 0 }

/-- A kernel in which a copy of `as_mapped` can be made: four `kmalloc` calls
succeed, the frame at `0x80101000` is free, and the frame at `0x80100000`, which
`as_mapped` maps, holds `0xC0` in every byte while all other memory holds 0. -/
def kernel_copy : Kernel :=
  { kmalloc_ok := [true, true, true, true],
    kfrees := 0,
    kpages := [0x80101000],
    freed := [],
    mem := fun a => if 0x80100000 ≤ a ∧ a < 0x80101000 then 0xC0 else 0,
    tlb := [] }

/-- The region `[0x1000, 0x2000)` with no permission bit: what
`as_define_region` builds from `readable = writeable = executable = 0`. -/
def region_none : region := { size := 0x1000, addr_start := 0x1000, permission := 0 }

/-- The address space with the single region `[0x1000, 0x2000)` without any
permission. -/
def as_none : addrspace := { as_empty with regions := [region_none] }

theorem get_l1_index_eq (a : Nat) : get_l1_index a = a / 2 ^ 24 := by
  simp only [get_l1_index, Nat.shiftRight_eq_div_pow]

theorem get_l2_index_eq (a : Nat) :
    get_l2_index a = a / 2 ^ 18 % 64 := by
  simp only [get_l2_index, Nat.shiftLeft_eq, Nat.shiftRight_eq_div_pow]
  omega

theorem get_l3_index_eq (a : Nat) :
    get_l3_index a = a / 2 ^ 12 % 64 := by
  simp only [get_l3_index, Nat.shiftLeft_eq, Nat.shiftRight_eq_div_pow]
  omega

theorem get_l1_index_lt (a : Nat) (ha : a < 2 ^ 32) : get_l1_index a < 256 := by
  rw [get_l1_index_eq]; omega

theorem get_l2_index_lt (a : Nat) : get_l2_index a < 64 := by
  rw [get_l2_index_eq a]; omega

theorem get_l3_index_lt (a : Nat) : get_l3_index a < 64 := by
  rw [get_l3_index_eq a]; omega

/-- Three bit fields that do not overlap: the bitwise "or" is the sum. -/
theorem or_fields (x y z : Nat) (hy : y < 64) (hz : z < 64) :
    (x <<< 24) ||| (y <<< 18) ||| (z <<< 12) = x * 2 ^ 24 + y * 2 ^ 18 + z * 2 ^ 12 := by
  have h1 : y <<< 18 ||| z <<< 12 = y * 2 ^ 18 + z * 2 ^ 12 := by
    simp only [Nat.shiftLeft_eq]
    have := @Nat.mul_add_lt_is_or 18 (z * 2 ^ 12) (by omega) y
    rw [Nat.mul_comm (2 ^ 18) y] at this
    exact this.symm
  rw [Nat.or_assoc, h1]
  simp only [Nat.shiftLeft_eq]
  have := @Nat.mul_add_lt_is_or 24 (y * 2 ^ 18 + z * 2 ^ 12) (by omega) x
  rw [Nat.mul_comm (2 ^ 24) x] at this
  omega

/-- The index triple, put back together, is the page-aligned address. -/
theorem index_triple_sum (a : Nat) (ha : a < 2 ^ 32) :
    get_l1_index a * 2 ^ 24 + get_l2_index a * 2 ^ 18 + get_l3_index a * 2 ^ 12
      = a - a % 4096 := by
  rw [get_l1_index_eq, get_l2_index_eq a, get_l3_index_eq a]
  omega

/-- Addresses of one page have the same index triple. -/
theorem index_eq_of_page_eq (a b : Nat) (h : a / 4096 = b / 4096) :
    get_l1_index a = get_l1_index b ∧ get_l2_index a = get_l2_index b ∧
      get_l3_index a = get_l3_index b := by
  rw [get_l1_index_eq, get_l1_index_eq, get_l2_index_eq a, get_l2_index_eq b,
    get_l3_index_eq a, get_l3_index_eq b]
  omega

/-- Addresses with the same index triple lie in one page. -/
theorem page_eq_of_index_eq (a b : Nat)
    (h1 : get_l1_index a = get_l1_index b) (h2 : get_l2_index a = get_l2_index b)
    (h3 : get_l3_index a = get_l3_index b) : a / 4096 = b / 4096 := by
  rw [get_l1_index_eq, get_l1_index_eq] at h1
  rw [get_l2_index_eq a, get_l2_index_eq b] at h2
  rw [get_l3_index_eq a, get_l3_index_eq b] at h3
  omega

/-! ## Bits of a translation entry -/

/-- Masking with a single bit is non-zero exactly when that bit is set. -/
theorem and_two_pow_ne_zero (x n : Nat) : x &&& 2 ^ n ≠ 0 ↔ x.testBit n = true := by
  constructor
  · intro h
    by_contra hb
    apply h
    apply Nat.eq_of_testBit_eq
    intro i
    rw [Nat.testBit_and, Nat.testBit_two_pow, Nat.zero_testBit]
    by_cases hi : n = i
    · subst hi
      simp [Bool.eq_false_iff.mpr hb]
    · simp [hi]
  · intro h h0
    have : (x &&& 2 ^ n).testBit n = true := by
      rw [Nat.testBit_and, h, Nat.testBit_two_pow_self]
      rfl
    rw [h0, Nat.zero_testBit] at this
    exact Bool.noConfusion this

/-- A page-aligned word has no bit below bit 12. -/
theorem testBit_page_aligned (p j : Nat) (hp : p % 4096 = 0) (hj : j < 12) :
    p.testBit j = false := by
  have e : p = 2 ^ 12 * (p / 4096) := by omega
  rw [e, Nat.testBit_mul_pow_two]
  simp
  omega

theorem and_valid_ne_zero (x : Nat) : x &&& TLBLO_VALID ≠ 0 ↔ x.testBit 9 = true :=
  and_two_pow_ne_zero x 9

theorem and_dirty_ne_zero (x : Nat) : x &&& TLBLO_DIRTY ≠ 0 ↔ x.testBit 10 = true :=
  and_two_pow_ne_zero x 10

theorem testBit_valid_9 : TLBLO_VALID.testBit 9 = true := by decide

theorem testBit_valid_10 : TLBLO_VALID.testBit 10 = false := by decide

theorem testBit_dirty_10 : TLBLO_DIRTY.testBit 10 = true := by decide

/-- The mask `0xfffff000` on a 32-bit word clears the low 12 bits. -/
theorem and_mask_aux (a : Nat) (h : a < 2 ^ 32) :
    a &&& (2 ^ 12 * (2 ^ 20 - 1)) = 2 ^ 12 * (a >>> 12) := by
  apply Nat.eq_of_testBit_eq
  intro i
  simp only [Nat.testBit_and, Nat.testBit_mul_pow_two, Nat.testBit_two_pow_sub_one,
    Nat.testBit_shiftRight]
  by_cases h1 : 12 ≤ i
  · have e : 12 + (i - 12) = i := by omega
    by_cases h2 : i - 12 < 20
    · simp [h1, h2, e]
    · have : a.testBit i = false := by
        apply Nat.testBit_lt_two_pow
        calc a < 2 ^ 32 := h
          _ ≤ 2 ^ i := Nat.pow_le_pow_right (by norm_num) (by omega)
      simp [h1, h2, this, e]
  · simp [h1]

theorem and_page_mask (a : Nat) (h : a < 2 ^ 32) : a &&& 0xfffff000 = a / 4096 * 4096 := by
  have e : (0xfffff000 : Nat) = 2 ^ 12 * (2 ^ 20 - 1) := by norm_num
  rw [e, and_mask_aux a h, Nat.shiftRight_eq_div_pow]
  omega

/-- A page-aligned word with flag bits below bit 12 "or"-ed in is their sum. -/
theorem or_flags_eq_add (p b : Nat) (hp : p % 4096 = 0) (hb : b < 4096) : p ||| b = p + b := by
  have e : p = 2 ^ 12 * (p / 4096) := by omega
  have := @Nat.mul_add_lt_is_or 12 b (by omega) (p / 4096)
  rw [← e] at this
  exact this.symm

/-- With a non-zero permission byte `make_pte` sets the valid bit. -/
theorem make_pte_valid (reg : region) (page w : Nat) (hperm : reg.permission ≠ 0) :
    make_pte reg page w &&& TLBLO_VALID ≠ 0 := by
  rw [and_valid_ne_zero]
  simp only [make_pte, if_pos hperm, Nat.testBit_or, testBit_valid_9, Bool.or_true]

/-- On a page-aligned frame address `make_pte` sets the dirty bit exactly when
the region has `WRITE` or the override is on. -/
theorem make_pte_dirty (reg : region) (page w : Nat) (hp : page % 4096 = 0) :
    make_pte reg page w &&& TLBLO_DIRTY ≠ 0 ↔ (reg.permission &&& WRITE ≠ 0 ∨ w ≠ 0) := by
  rw [and_dirty_ne_zero]
  have hpage := testBit_page_aligned page 10 hp (by norm_num)
  unfold make_pte
  by_cases hw : reg.permission &&& WRITE ≠ 0 ∨ w ≠ 0
  · simp only [if_pos hw, hw, iff_true]
    split <;> simp [Nat.testBit_or, testBit_dirty_10]
  · simp only [if_neg hw, hw, iff_false]
    split <;> simp [Nat.testBit_or, hpage, testBit_valid_10]

theorem l2_slot_lt {as : addrspace} {l1 : Nat} {a : List addrspace_l3}
    (h : l2_slot as l1 = some a) : l1 < as.page_table.length := by
  by_contra hc
  simp only [l2_slot, List.getD_eq_getElem?_getD] at h
  rw [List.getElem?_eq_none (by omega)] at h
  simp at h

theorem l2_slot_mem {as : addrspace} {l1 : Nat} {a : List addrspace_l3}
    (h : l2_slot as l1 = some a) : some a ∈ as.page_table := by
  have hlt := l2_slot_lt h
  simp only [l2_slot, List.getD_eq_getElem _ _ hlt] at h
  rw [← h]
  exact List.getElem_mem hlt

/-- In a well-formed address space a present Level-2 array has 64 slots, and
its present Level-3 arrays have 64 entries. -/
theorem wf_l2_slot {as : addrspace} (hwf : as.wf = true) {l1 : Nat} {a : List addrspace_l3}
    (h : l2_slot as l1 = some a) :
    a.length = PAGE_L2_L3_NUM ∧
      ∀ l2 ents, (a.getD l2 { entries := none }).entries = some ents →
        ents.length = PAGE_L2_L3_NUM := by
  simp only [addrspace.wf, Bool.and_eq_true, beq_iff_eq, List.all_eq_true] at hwf
  have h2 := hwf.2 _ (l2_slot_mem h)
  simp only [l2_wf, Bool.and_eq_true, beq_iff_eq, List.all_eq_true] at h2
  refine ⟨h2.1, ?_⟩
  intro l2 ents he
  by_cases hl : l2 < a.length
  · rw [List.getD_eq_getElem _ _ hl] at he
    have h3 := h2.2 _ (List.getElem_mem hl)
    simp only [l3_wf, he, beq_iff_eq] at h3
    exact h3
  · simp only [List.getD_eq_getElem?_getD] at he
    rw [List.getElem?_eq_none (by omega)] at he
    simp at he

theorem wf_length {as : addrspace} (hwf : as.wf = true) :
    as.page_table.length = PAGE_L1_NUM := by
  simp only [addrspace.wf, Bool.and_eq_true, beq_iff_eq] at hwf
  exact hwf.1

/-- Storing into a present Level-3 array and reading the same slot back. -/
theorem lookup_set_entry (as : addrspace) (addr e : Nat) (a : List addrspace_l3)
    (ents : List Nat)
    (h2 : l2_slot as (get_l1_index addr) = some a)
    (hl2 : get_l2_index addr < a.length)
    (h3 : (a.getD (get_l2_index addr) { entries := none }).entries = some ents)
    (hl3 : get_l3_index addr < ents.length) :
    page_table_lookup
      (set_entry as (get_l1_index addr) (get_l2_index addr) (get_l3_index addr) e) addr = e := by
  have hl1 := l2_slot_lt h2
  simp only [set_entry, l3_slot, h2, h3, set_entries, page_table_lookup]
  simp only [l2_slot, List.getD_eq_getElem?_getD, hl1, hl2, hl3,
    if_true, Option.getD_some, List.getElem?_set_self, List.length_set]

theorem l2_ready_of_init (k : Kernel) (as : addrspace) (l1 : Nat)
    (hwf : as.wf = true) (hl1 : l1 < PAGE_L1_NUM)
    (hret : (if (l2_slot as l1).isNone then page_table_l2_init k as l1 else (0, k, as)).1 = 0) :
    l2_ready (if (l2_slot as l1).isNone then page_table_l2_init k as l1 else (0, k, as)).2.2
      l1 := by
  have hlen := wf_length hwf
  cases h : l2_slot as l1 with
  | some a =>
    simp only [h, Option.isNone_some, Bool.false_eq_true, if_false]
    exact ⟨a, h, wf_l2_slot hwf h⟩
  | none =>
    simp only [h, Option.isNone_none, if_true] at hret ⊢
    unfold page_table_l2_init at hret ⊢
    rw [if_neg (by omega)] at hret ⊢
    cases hk : kmalloc k with
    | mk ok k1 =>
      cases ok with
      | false => simp [hk, ENOMEM] at hret
      | true =>
        simp only [hk]
        refine ⟨List.replicate PAGE_L2_L3_NUM { entries := none }, ?_, ?_, ?_⟩
        · simp [l2_slot, List.getD_eq_getElem?_getD, hlen, hl1]
        · simp
        · intro l2 ents he
          by_cases hl : l2 < PAGE_L2_L3_NUM
          · simp [List.getD_eq_getElem?_getD, hl] at he
          · simp [List.getD_eq_getElem?_getD, hl] at he

theorem l3_ready_of_init (k : Kernel) (as : addrspace) (l1 l2 : Nat)
    (hr : l2_ready as l1) (hl1 : l1 < PAGE_L1_NUM) (hl2 : l2 < PAGE_L2_L3_NUM)
    (hret : (if (l3_slot as l1 l2).isNone then page_table_l3_init k as l1 l2
      else (0, k, as)).1 = 0) :
    l3_ready (if (l3_slot as l1 l2).isNone then page_table_l3_init k as l1 l2
      else (0, k, as)).2.2 l1 l2 := by
  obtain ⟨a, ha, hlen, hents⟩ := hr
  have hpt := l2_slot_lt ha
  cases h : l3_slot as l1 l2 with
  | some ents =>
    simp only [h, Option.isNone_some, Bool.false_eq_true, if_false]
    simp only [l3_slot, ha] at h
    exact ⟨a, ents, ha, by omega, h, hents _ _ h⟩
  | none =>
    simp only [h, Option.isNone_none, if_true] at hret ⊢
    unfold page_table_l3_init at hret ⊢
    rw [if_neg (by omega)] at hret ⊢
    simp only [ha, Option.isNone_some, Bool.false_eq_true, if_false, ne_eq, not_true_eq_false,
      h, Option.isSome_none] at hret ⊢
    cases hk : kmalloc k with
    | mk ok k1 =>
      cases ok with
      | false => simp [hk, ENOMEM] at hret
      | true =>
        simp only [hk]
        refine ⟨a.set l2 { entries := some (List.replicate PAGE_L2_L3_NUM 0) },
          List.replicate PAGE_L2_L3_NUM 0, ?_, ?_, ?_, ?_⟩
        · simp only [set_entries, ha]
          simp [l2_slot, List.getD_eq_getElem?_getD, hpt]
        · simp; omega
        · simp [List.getD_eq_getElem?_getD, hlen, hl2]
        · simp

/-- The address space `as_create` returns is well formed. -/
theorem as_empty_wf : as_empty.wf = true := by
  simp only [addrspace.wf, as_empty, List.length_replicate, beq_self_eq_true, Bool.true_and,
    List.all_eq_true]
  intro t ht
  rw [List.eq_of_mem_replicate ht]
  rfl

/-- A successful insert followed by a lookup of the same address returns the
inserted entry. -/
theorem lookup_after_insert (k : Kernel) (as : addrspace) (addr e : Nat)
    (hwf : as.wf = true) (haddr : addr < 2 ^ 32)
    (hret : (page_table_insert k as addr e).1 = 0) :
    page_table_lookup (page_table_insert k as addr e).2.2 addr = e := by
  have hl1 : get_l1_index addr < PAGE_L1_NUM := get_l1_index_lt addr haddr
  have hl2 : get_l2_index addr < PAGE_L2_L3_NUM := get_l2_index_lt addr
  have hl3 : get_l3_index addr < PAGE_L2_L3_NUM := get_l3_index_lt addr
  unfold page_table_insert at hret ⊢
  simp only at hret ⊢
  generalize hr1 : (if (l2_slot as (get_l1_index addr)).isNone then
    page_table_l2_init k as (get_l1_index addr) else (0, k, as)) = r1 at hret ⊢
  by_cases h1 : r1.1 = 0
  · have hready : l2_ready r1.2.2 (get_l1_index addr) := by
      rw [← hr1] at h1 ⊢
      exact l2_ready_of_init k as _ hwf hl1 h1
    rw [if_neg (not_not.mpr h1)] at hret ⊢
    generalize hr2 : (if (l3_slot r1.2.2 (get_l1_index addr) (get_l2_index addr)).isNone then
      page_table_l3_init r1.2.1 r1.2.2 (get_l1_index addr) (get_l2_index addr)
      else (0, r1.2.1, r1.2.2)) = r2 at hret ⊢
    by_cases h2 : r2.1 = 0
    · rw [if_neg (not_not.mpr h2)]
      have h3 : l3_ready r2.2.2 (get_l1_index addr) (get_l2_index addr) := by
        rw [← hr2] at h2 ⊢
        exact l3_ready_of_init _ _ _ _ hready hl1 hl2 h2
      obtain ⟨a, ents, ha, hlt, he, hlen⟩ := h3
      exact lookup_set_entry _ addr e a ents ha hlt he (by omega)
    · rw [if_pos h2] at hret
      exact absurd hret h2
  · rw [if_pos h1] at hret
    exact absurd hret h1


/-- The lookup depends on the address through its index triple only. -/
theorem page_table_lookup_congr (as : addrspace) (a b : Nat)
    (h1 : get_l1_index a = get_l1_index b) (h2 : get_l2_index a = get_l2_index b)
    (h3 : get_l3_index a = get_l3_index b) :
    page_table_lookup as a = page_table_lookup as b := by
  unfold page_table_lookup
  rw [h1, h2, h3]

/-- The insert depends on the address through its index triple only. -/
theorem page_table_insert_congr (k : Kernel) (as : addrspace) (a b e : Nat)
    (h1 : get_l1_index a = get_l1_index b) (h2 : get_l2_index a = get_l2_index b)
    (h3 : get_l3_index a = get_l3_index b) :
    page_table_insert k as a e = page_table_insert k as b e := by
  unfold page_table_insert
  rw [h1, h2, h3]

/-- The page of a 32-bit address: `addr & TLBHI_VPAGE` has the index triple of
`addr`. -/
theorem vpage_index (addr : Nat) (h : addr < 2 ^ 32) :
    get_l1_index (addr &&& TLBHI_VPAGE) = get_l1_index addr ∧
    get_l2_index (addr &&& TLBHI_VPAGE) = get_l2_index addr ∧
    get_l3_index (addr &&& TLBHI_VPAGE) = get_l3_index addr := by
  apply index_eq_of_page_eq
  unfold TLBHI_VPAGE
  rw [and_page_mask addr h]
  omega

/-- A successful insert at the page of `addr` is read back at `addr`. -/
theorem lookup_after_insert_vpage (k : Kernel) (as : addrspace) (addr e : Nat)
    (hwf : as.wf = true) (haddr : addr < 2 ^ 32)
    (hret : (page_table_insert k as (addr &&& TLBHI_VPAGE) e).1 = 0) :
    page_table_lookup (page_table_insert k as (addr &&& TLBHI_VPAGE) e).2.2 addr = e := by
  obtain ⟨h1, h2, h3⟩ := vpage_index addr haddr
  rw [page_table_insert_congr k as _ addr e h1 h2 h3] at hret ⊢
  exact lookup_after_insert k as addr e hwf haddr hret

/-! ## The collaborators across the page-table operations -/

theorem set_entries_writable (as : addrspace) (l1 l2 : Nat) (v : Option (List Nat)) :
    (set_entries as l1 l2 v).writable = as.writable ∧
      (set_entries as l1 l2 v).regions = as.regions := by
  unfold set_entries
  split <;> exact ⟨rfl, rfl⟩

theorem set_entry_writable (as : addrspace) (l1 l2 l3 e : Nat) :
    (set_entry as l1 l2 l3 e).writable = as.writable ∧
      (set_entry as l1 l2 l3 e).regions = as.regions := by
  unfold set_entry
  split
  · exact ⟨rfl, rfl⟩
  · exact set_entries_writable _ _ _ _

theorem page_table_l2_init_writable (k : Kernel) (as : addrspace) (l1 : Nat) :
    (page_table_l2_init k as l1).2.2.writable = as.writable ∧
      (page_table_l2_init k as l1).2.2.regions = as.regions := by
  unfold page_table_l2_init
  split
  · exact ⟨rfl, rfl⟩
  · cases hk : kmalloc k with
    | mk ok k1 => cases ok <;> exact ⟨rfl, rfl⟩

theorem page_table_l3_init_writable (k : Kernel) (as : addrspace) (l1 l2 : Nat) :
    (page_table_l3_init k as l1 l2).2.2.writable = as.writable ∧
      (page_table_l3_init k as l1 l2).2.2.regions = as.regions := by
  unfold page_table_l3_init
  split
  · exact ⟨rfl, rfl⟩
  · simp only
    have h1 : (if (l2_slot as l1).isNone then page_table_l2_init k as l1
        else (0, k, as)).2.2.writable = as.writable ∧
        (if (l2_slot as l1).isNone then page_table_l2_init k as l1
        else (0, k, as)).2.2.regions = as.regions := by
      split
      · exact page_table_l2_init_writable k as l1
      · exact ⟨rfl, rfl⟩
    generalize (if (l2_slot as l1).isNone then page_table_l2_init k as l1
        else (0, k, as)) = r1 at h1 ⊢
    split
    · exact h1
    · split
      · exact h1
      · cases hk : kmalloc r1.2.1 with
        | mk ok k2 =>
          cases ok
          · exact ⟨(set_entries_writable _ _ _ _).1.trans h1.1,
              (set_entries_writable _ _ _ _).2.trans h1.2⟩
          · exact ⟨(set_entries_writable _ _ _ _).1.trans h1.1,
              (set_entries_writable _ _ _ _).2.trans h1.2⟩

/-- The page-table insert leaves the `writable` flag as it is. -/
theorem page_table_insert_writable (k : Kernel) (as : addrspace) (a e : Nat) :
    (page_table_insert k as a e).2.2.writable = as.writable := by
  unfold page_table_insert
  simp only
  have h1 : (if (l2_slot as (get_l1_index a)).isNone then page_table_l2_init k as (get_l1_index a)
      else (0, k, as)).2.2.writable = as.writable := by
    split
    · exact (page_table_l2_init_writable k as _).1
    · rfl
  generalize (if (l2_slot as (get_l1_index a)).isNone then
    page_table_l2_init k as (get_l1_index a) else (0, k, as)) = r1 at h1 ⊢
  split
  · exact h1
  · have h2 : (if (l3_slot r1.2.2 (get_l1_index a) (get_l2_index a)).isNone then
        page_table_l3_init r1.2.1 r1.2.2 (get_l1_index a) (get_l2_index a)
        else (0, r1.2.1, r1.2.2)).2.2.writable = as.writable := by
      split
      · rw [(page_table_l3_init_writable _ _ _ _).1]; exact h1
      · exact h1
    generalize (if (l3_slot r1.2.2 (get_l1_index a) (get_l2_index a)).isNone then
        page_table_l3_init r1.2.1 r1.2.2 (get_l1_index a) (get_l2_index a)
        else (0, r1.2.1, r1.2.2)) = r2 at h2 ⊢
    split
    · exact h2
    · exact (set_entry_writable _ _ _ _ _).1.trans h2

/-! ## The region list -/

/-- The walk either fails and leaves the list as it was, or succeeds and has
put the new node behind the last one. -/
theorem as_define_region_walk_spec (new_region : region) (rest : List region) :
    ∀ temp : region,
      ((as_define_region_walk new_region temp rest).1 = 0 →
        (as_define_region_walk new_region temp rest).2 = (temp :: rest) ++ [new_region]) ∧
      ((as_define_region_walk new_region temp rest).1 ≠ 0 →
        (as_define_region_walk new_region temp rest).2 = temp :: rest) := by
  induction rest with
  | nil =>
    intro temp
    simp [as_define_region_walk]
  | cons next rest ih =>
    intro temp
    unfold as_define_region_walk
    by_cases h : region_checkInUse temp new_region = 0
    · simp only [h, ne_eq, not_true_eq_false, if_false]
      refine ⟨fun h0 => ?_, fun h0 => ?_⟩
      · rw [(ih next).1 h0]; rfl
      · rw [(ih next).2 h0]
    · simp [h]

/-- The only error the walk can return is `EADDRINUSE`. -/
theorem as_define_region_walk_code (new_region : region) (rest : List region) :
    ∀ temp : region,
      (as_define_region_walk new_region temp rest).1 = 0 ∨
        (as_define_region_walk new_region temp rest).1 = EADDRINUSE := by
  induction rest with
  | nil =>
    intro temp
    simp [as_define_region_walk]
  | cons next rest ih =>
    intro temp
    unfold as_define_region_walk
    by_cases h : region_checkInUse temp new_region = 0
    · simp only [h, ne_eq, not_true_eq_false, if_false]
      exact ih next
    · simp only [ne_eq, h, not_false_eq_true, if_true]
      right
      unfold region_checkInUse at h ⊢
      simp only at h ⊢
      split
      · rfl
      · rename_i hc
        rw [if_neg hc] at h
        exact absurd rfl h

/-- What the scan of `regions_lookup` computes, in the words of the
specification: the first node, in list order, whose half-open range
`[addr_start, addr_start + size)` contains the address. -/
theorem regions_lookup_from_eq_find (rs : List region) (addr : Nat)
    (hnowrap : ∀ r ∈ rs, r.addr_start + r.size < 2 ^ 32) :
    regions_lookup_from rs addr =
      rs.find? (fun r => decide (r.addr_start ≤ addr ∧ addr < r.addr_start + r.size)) := by
  induction rs with
  | nil => rfl
  | cons cur next ih =>
    have hc := hnowrap cur (List.mem_cons_self _ _)
    have ih2 := ih (fun r hr => hnowrap r (List.mem_cons_of_mem _ hr))
    unfold regions_lookup_from
    rw [List.find?_cons, Nat.mod_eq_of_lt hc]
    by_cases h : cur.addr_start ≤ addr ∧ cur.addr_start + cur.size > addr
    · rw [if_pos h]
      have : decide (cur.addr_start ≤ addr ∧ addr < cur.addr_start + cur.size) = true := by
        simpa using h
      rw [this]
    · rw [if_neg h, ih2]
      have : decide (cur.addr_start ≤ addr ∧ addr < cur.addr_start + cur.size) = false := by
        simpa using h
      rw [this]

/-- The bitwise "or" of three flags does not depend on the order they are
combined in. -/
theorem lor_three (e r w : Int) : Int.lor (Int.lor e r) w = Int.lor (Int.lor r w) e := by
  cases e <;> cases r <;> cases w <;> simp only [Int.lor] <;>
    (try (simp only [Int.ofNat_eq_coe, Int.natCast_inj])) <;>
    (try (simp only [Int.negSucc.injEq])) <;>
    (apply Nat.eq_of_testBit_eq; intro i;
     simp only [Nat.testBit_ldiff, Nat.testBit_or, Nat.testBit_and];
     cases Nat.testBit _ i <;> cases Nat.testBit _ i <;> cases Nat.testBit _ i <;> rfl)

/-! ## The fault handler -/

theorem check_faulttype_read_write (faulttype : Int)
    (htype : faulttype = VM_FAULT_READ ∨ faulttype = VM_FAULT_WRITE) :
    check_faulttype faulttype = 0 := by
  rcases htype with h | h <;> subst h <;> decide

/-- The miss path of `vm_fault`: a user address, a read or write fault, no
valid entry, a region found and a frame obtained. -/
theorem vm_fault_miss (k : Kernel) (as : addrspace) (faulttype : Int) (addr : Nat)
    (reg : region)
    (htype : faulttype = VM_FAULT_READ ∨ faulttype = VM_FAULT_WRITE)
    (hpos : addr ≠ 0) (huser : addr < 0x80000000)
    (hmiss : page_table_lookup as addr &&& TLBLO_VALID = 0)
    (hreg : regions_lookup as addr = some reg)
    (hframe : (alloc_kpages k).1 ≠ 0) :
    vm_fault k (some as) faulttype addr =
      if (page_table_insert (bzero (alloc_kpages k).2 (alloc_kpages k).1 PAGE_SIZE) as
          (addr &&& TLBHI_VPAGE)
          (make_pte reg (KVADDR_TO_PADDR (alloc_kpages k).1) as.writable)).1 ≠ 0 then
        ((page_table_insert (bzero (alloc_kpages k).2 (alloc_kpages k).1 PAGE_SIZE) as
          (addr &&& TLBHI_VPAGE)
          (make_pte reg (KVADDR_TO_PADDR (alloc_kpages k).1) as.writable)).1,
         free_kpages (page_table_insert (bzero (alloc_kpages k).2 (alloc_kpages k).1 PAGE_SIZE) as
          (addr &&& TLBHI_VPAGE)
          (make_pte reg (KVADDR_TO_PADDR (alloc_kpages k).1) as.writable)).2.1
          (alloc_kpages k).1,
         some (page_table_insert (bzero (alloc_kpages k).2 (alloc_kpages k).1 PAGE_SIZE) as
          (addr &&& TLBHI_VPAGE)
          (make_pte reg (KVADDR_TO_PADDR (alloc_kpages k).1) as.writable)).2.2)
      else
        (0,
         tlb_random (page_table_insert (bzero (alloc_kpages k).2 (alloc_kpages k).1 PAGE_SIZE) as
          (addr &&& TLBHI_VPAGE)
          (make_pte reg (KVADDR_TO_PADDR (alloc_kpages k).1) as.writable)).2.1
          (addr &&& TLBHI_VPAGE)
          (make_pte reg (KVADDR_TO_PADDR (alloc_kpages k).1) as.writable),
         some (page_table_insert (bzero (alloc_kpages k).2 (alloc_kpages k).1 PAGE_SIZE) as
          (addr &&& TLBHI_VPAGE)
          (make_pte reg (KVADDR_TO_PADDR (alloc_kpages k).1) as.writable)).2.2) := by
  unfold vm_fault
  have hrange : ¬ (addr = 0x0 ∨ addr ≥ 0x80000000) := by omega
  simp only [if_neg hrange, check_faulttype_read_write faulttype htype, ne_eq,
    not_true_eq_false, if_false, hmiss, hreg, if_neg hframe]

/-- The hit path of `vm_fault`: a user address, a read or write fault and a
valid entry. -/
theorem vm_fault_hit (k : Kernel) (as : addrspace) (faulttype : Int) (addr : Nat)
    (htype : faulttype = VM_FAULT_READ ∨ faulttype = VM_FAULT_WRITE)
    (hpos : addr ≠ 0) (huser : addr < 0x80000000)
    (hvalid : page_table_lookup as addr &&& TLBLO_VALID ≠ 0) :
    vm_fault k (some as) faulttype addr =
      if faulttype = VM_FAULT_WRITE ∧ page_table_lookup as addr &&& TLBLO_DIRTY = 0 then
        (EFAULT, k, some as)
      else (0, tlb_random k (addr &&& TLBHI_VPAGE) (page_table_lookup as addr), some as) := by
  unfold vm_fault
  have hrange : ¬ (addr = 0x0 ∨ addr ≥ 0x80000000) := by omega
  simp only [if_neg hrange, check_faulttype_read_write faulttype htype, ne_eq,
    not_true_eq_false, if_false, hvalid, not_false_eq_true, if_true]

theorem kvaddr_to_paddr_aligned (kv : Nat) (h : kv % PAGE_SIZE = 0) :
    KVADDR_TO_PADDR kv % 4096 = 0 := by
  unfold KVADDR_TO_PADDR MIPS_KSEG0
  unfold PAGE_SIZE at h
  omega

/-- A node the scan accepts has the address inside its half-open range, so a
list without such a range yields `NULL`. -/
theorem regions_lookup_from_none (rs : List region) (addr : Nat)
    (h : ∀ r ∈ rs, ¬ (r.addr_start ≤ addr ∧ addr < r.addr_start + r.size)) :
    regions_lookup_from rs addr = none := by
  induction rs with
  | nil => rfl
  | cons cur next ih =>
    unfold regions_lookup_from
    have hc := h cur (List.mem_cons_self _ _)
    have hle : (cur.addr_start + cur.size) % 2 ^ 32 ≤ cur.addr_start + cur.size :=
      Nat.mod_le _ _
    rw [if_neg (by omega)]
    exact ih (fun r hr => h r (List.mem_cons_of_mem _ hr))

/-- A successful fault on a page without a valid entry, in a region the scan
finds: the address is a user address and the entry read back afterwards is
what `make_pte` built from the new frame. -/
theorem vm_fault_first_touch (k : Kernel) (as : addrspace) (faulttype : Int) (addr : Nat)
    (reg : region)
    (hwf : as.wf = true)
    (htype : faulttype = VM_FAULT_READ ∨ faulttype = VM_FAULT_WRITE)
    (hreg : regions_lookup as addr = some reg)
    (hmiss : page_table_lookup as addr &&& TLBLO_VALID = 0)
    (hret : (vm_fault k (some as) faulttype addr).1 = 0) :
    addr ≠ 0 ∧ addr < 0x80000000 ∧
    ∃ as', (vm_fault k (some as) faulttype addr).2.2 = some as' ∧
      page_table_lookup as' addr =
        make_pte reg (KVADDR_TO_PADDR (alloc_kpages k).1) as.writable := by
  have hrange : ¬ (addr = 0x0 ∨ addr ≥ 0x80000000) := by
    intro h
    unfold vm_fault at hret
    simp only [if_pos h] at hret
    exact absurd hret (by decide)
  have hpos : addr ≠ 0 := by omega
  have huser : addr < 0x80000000 := by omega
  have hframe : (alloc_kpages k).1 ≠ 0 := by
    intro h
    unfold vm_fault at hret
    simp only [if_neg hrange, check_faulttype_read_write faulttype htype, ne_eq,
      not_true_eq_false, if_false, hmiss, hreg, if_pos h] at hret
    exact absurd hret (by decide)
  refine ⟨hpos, huser, ?_⟩
  rw [vm_fault_miss k as faulttype addr reg htype hpos huser hmiss hreg hframe] at hret ⊢
  by_cases hins : (page_table_insert (bzero (alloc_kpages k).2 (alloc_kpages k).1 PAGE_SIZE) as
      (addr &&& TLBHI_VPAGE)
      (make_pte reg (KVADDR_TO_PADDR (alloc_kpages k).1) as.writable)).1 = 0
  · rw [if_neg (not_not.mpr hins)]
    exact ⟨_, rfl, lookup_after_insert_vpage _ as addr _ hwf (by omega) hins⟩
  · rw [if_pos hins] at hret
    exact absurd hret hins

/-! ## Loops, one round at a time -/

theorem for_each_zero {σ : Type} (body : Nat → σ → σ) (i : Nat) (s : σ) :
    for_each body 0 i s = s := rfl

theorem for_each_succ {σ : Type} (body : Nat → σ → σ) (n i : Nat) (s : σ) :
    for_each body (n + 1) i s = for_each body n (i + 1) (body i s) := rfl

theorem for_loop_zero {σ : Type} (body : Nat → σ → Nat × σ) (i : Nat) (s : σ) :
    for_loop body 0 i s = (0, s) := rfl

theorem for_loop_succ {σ : Type} (body : Nat → σ → Nat × σ) (n i : Nat) (s : σ) :
    for_loop body (n + 1) i s =
      if (body i s).1 ≠ 0 then body i s else for_loop body n (i + 1) (body i s).2 := rfl

/-- An invariant of the rounds `i`, ..., `i + n - 1` of a loop without exits
holds after the loop. -/
theorem for_each_inv {σ : Type} (body : Nat → σ → σ) (Inv : Nat → σ → Prop) (hi : Nat)
    (hstep : ∀ i s, i < hi → Inv i s → Inv (i + 1) (body i s)) :
    ∀ (n i : Nat) (s : σ), i + n ≤ hi → Inv i s → Inv (i + n) (for_each body n i s) := by
  intro n
  induction n with
  | zero => intro i s _ h; exact h
  | succ n ih =>
    intro i s hle h
    rw [for_each_succ]
    have := ih (i + 1) (body i s) (by omega) (hstep i s (by omega) h)
    rw [show i + (n + 1) = i + 1 + n by omega]
    exact this

/-- When every round keeps the invariant and returns 0, the loop returns 0 and
the invariant holds at the end. -/
theorem for_loop_ok {σ : Type} (body : Nat → σ → Nat × σ) (Inv : Nat → σ → Prop) (hi : Nat)
    (hstep : ∀ i s, i < hi → Inv i s → (body i s).1 = 0 ∧ Inv (i + 1) (body i s).2) :
    ∀ (n i : Nat) (s : σ), i + n ≤ hi → Inv i s →
      (for_loop body n i s).1 = 0 ∧ Inv (i + n) (for_loop body n i s).2 := by
  intro n
  induction n with
  | zero => intro i s _ h; exact ⟨rfl, h⟩
  | succ n ih =>
    intro i s hle h
    rw [for_loop_succ]
    obtain ⟨h0, h1⟩ := hstep i s (by omega) h
    rw [if_neg (not_not.mpr h0)]
    have := ih (i + 1) (body i s).2 (by omega) h1
    rw [show i + (n + 1) = i + 1 + n by omega]
    exact this

/-- When the loop returns 0, an invariant kept by every round that returns 0
holds at the end. -/
theorem for_loop_inv {σ : Type} (body : Nat → σ → Nat × σ) (Inv : Nat → σ → Prop) (hi : Nat)
    (hstep : ∀ i s, i < hi → Inv i s → (body i s).1 = 0 → Inv (i + 1) (body i s).2) :
    ∀ (n i : Nat) (s : σ), i + n ≤ hi → Inv i s → (for_loop body n i s).1 = 0 →
      Inv (i + n) (for_loop body n i s).2 := by
  intro n
  induction n with
  | zero => intro i s _ h _; exact h
  | succ n ih =>
    intro i s hle h hret
    rw [for_loop_succ] at hret ⊢
    by_cases h0 : (body i s).1 = 0
    · rw [if_neg (not_not.mpr h0)] at hret ⊢
      have := ih (i + 1) (body i s).2 (by omega) (hstep i s (by omega) h h0) hret
      rw [show i + (n + 1) = i + 1 + n by omega]
      exact this
    · rw [if_pos h0] at hret
      exact absurd hret h0

/-! ## Teardown of the page table -/

/-- The `k` loop of `page_table_destroy` over a present Level-3 array: the
address space stays, every non-zero entry from index `c` on is handed to
`free_kpages` through `PADDR_TO_KVADDR`, in order. -/
theorem destroy_k_loop (i j : Nat) (as0 : addrspace) (ents : List Nat)
    (hslot : l3_slot as0 i j = some ents) :
    ∀ (n c : Nat) (k : Kernel), c + n = ents.length →
      for_each (page_table_destroy_k i j) n c (k, as0) =
        ({ k with freed := k.freed ++
            ((ents.drop c).filter (fun e => decide (e ≠ 0))).map PADDR_TO_KVADDR }, as0) := by
  intro n
  induction n with
  | zero =>
    intro c k hc
    have : ents.drop c = [] := List.drop_eq_nil_of_le (by omega)
    simp [for_each, this]
  | succ n ih =>
    intro c k hc
    have hlt : c < ents.length := by omega
    have he : entry_at as0 i j c = ents[c] := by
      simp only [entry_at, hslot]
      exact List.getD_eq_getElem _ _ hlt
    have hb : page_table_destroy_k i j c (k, as0) =
        if ents[c] ≠ 0 then (free_kpages k (PADDR_TO_KVADDR ents[c]), as0) else (k, as0) := by
      simp only [page_table_destroy_k, he]
    rw [List.drop_eq_getElem_cons hlt, for_each_succ, hb]
    by_cases hz : ents[c] = 0
    · rw [if_neg (not_not.mpr hz), ih (c + 1) k (by omega),
        List.filter_cons_of_neg (by simpa using hz)]
    · rw [if_pos hz, ih (c + 1) _ (by omega), List.filter_cons_of_pos (by simpa using hz)]
      simp only [free_kpages, List.map_cons, List.append_assoc, List.singleton_append]

/-- Reading a Level-1 slot after one Level-1 slot was assigned. -/
theorem l2_slot_set (as : addrspace) (i x : Nat) (v : Option (List addrspace_l3)) :
    l2_slot { as with page_table := as.page_table.set i v } x =
      if x = i ∧ i < as.page_table.length then v else l2_slot as x := by
  simp only [l2_slot, List.getD_eq_getElem?_getD, List.getElem?_set]
  by_cases h : i = x
  · subst h
    by_cases hl : i < as.page_table.length
    · simp [hl]
    · simp only [hl, if_false, and_false]
      rw [List.getElem?_eq_none (by omega)]
      rfl
  · have h' : ¬ x = i := fun e => h e.symm
    simp [h, h']

/-- Reading a Level-1 slot after `as->page_table[i][j].entries = v`. -/
theorem l2_slot_set_entries (as : addrspace) (i j x : Nat) (v : Option (List Nat)) :
    l2_slot (set_entries as i j v) x =
      if x = i then (l2_slot as i).map (fun a => a.set j { entries := v })
      else l2_slot as x := by
  unfold set_entries
  cases h : l2_slot as i with
  | none =>
    by_cases hx : x = i
    · subst hx; simp [h]
    · simp [hx]
  | some a =>
    have hlt := l2_slot_lt h
    simp only [l2_slot_set, Option.map_some']
    by_cases hx : x = i
    · simp [hx, hlt]
    · simp [hx]

theorem set_entries_length (as : addrspace) (i j : Nat) (v : Option (List Nat)) :
    (set_entries as i j v).page_table.length = as.page_table.length := by
  unfold set_entries
  split
  · rfl
  · simp

theorem destroy_j_step (i : Nat) (s0 : Kernel × addrspace) (a0 : List addrspace_l3)
    (hlen : a0.length = PAGE_L2_L3_NUM)
    (hents : ∀ l2 ents, (a0.getD l2 { entries := none }).entries = some ents →
      ents.length = PAGE_L2_L3_NUM)
    (b : Nat) (s : Kernel × addrspace) (hb : b < PAGE_L2_L3_NUM)
    (h : destroy_j_inv i s0 a0 b s) :
    destroy_j_inv i s0 a0 (b + 1) (page_table_destroy_j i b s) := by
  obtain ⟨hother, hlength, ⟨a', ha', hsame⟩, hreg, hwr, hfreed⟩ := h
  have hblt : b < a0.length := by omega
  have hslot : l3_slot s.2 i b = (a0[b]).entries := by
    simp only [l3_slot, ha', hsame b (Nat.le_refl b)]
    rw [List.getD_eq_getElem _ _ hblt]
  rw [List.drop_eq_getElem_cons hblt] at hfreed
  simp only [l2_entries_list] at hfreed
  unfold page_table_destroy_j
  cases he : (a0[b]).entries with
  | none =>
    rw [hslot, he]
    simp only [Option.isSome_none, Bool.false_eq_true, if_false]
    refine ⟨hother, hlength, ⟨a', ha', fun y hy => hsame y (by omega)⟩, hreg, hwr, ?_⟩
    simpa [l3_entries, he] using hfreed
  | some ents =>
    have hel : ents.length = PAGE_L2_L3_NUM := by
      apply hents b
      rw [List.getD_eq_getElem _ _ hblt]
      exact he
    have hs3 : l3_slot s.2 i b = some ents := by rw [hslot, he]
    rw [hs3]
    simp only [Option.isSome_some, if_true]
    have hloop := destroy_k_loop i b s.2 ents hs3 PAGE_L2_L3_NUM 0 s.1 (by omega)
    rw [show s = (s.1, s.2) from rfl, hloop]
    simp only [List.drop_zero]
    refine ⟨?_, ?_, ?_, ?_, ?_, ?_⟩
    · intro x hx
      rw [l2_slot_set_entries, if_neg hx]
      exact hother x hx
    · rw [set_entries_length]; exact hlength
    · refine ⟨a'.set b { entries := none }, ?_, ?_⟩
      · rw [l2_slot_set_entries, if_pos rfl, ha']
        rfl
      · intro y hy
        rw [List.getD_eq_getElem?_getD, List.getElem?_set, if_neg (by omega),
          ← List.getD_eq_getElem?_getD]
        exact hsame y (by omega)
    · rw [(set_entries_writable _ _ _ _).2]; exact hreg
    · rw [(set_entries_writable _ _ _ _).1]; exact hwr
    · simp only [kfree]
      rw [← hfreed]
      simp only [l3_entries, he, List.map_append, List.append_assoc]

/-- The `j` loop of `page_table_destroy` over a present Level-2 array. -/
theorem destroy_j_loop (i : Nat) (s0 : Kernel × addrspace) (a0 : List addrspace_l3)
    (hslot : l2_slot s0.2 i = some a0)
    (hlen : a0.length = PAGE_L2_L3_NUM)
    (hents : ∀ l2 ents, (a0.getD l2 { entries := none }).entries = some ents →
      ents.length = PAGE_L2_L3_NUM) :
    destroy_j_inv i s0 a0 PAGE_L2_L3_NUM
      (for_each (page_table_destroy_j i) PAGE_L2_L3_NUM 0 s0) := by
  have h0 : destroy_j_inv i s0 a0 0 s0 :=
    ⟨fun _ _ => rfl, rfl, ⟨a0, hslot, fun _ _ => rfl⟩, rfl, rfl, by simp⟩
  have := for_each_inv (page_table_destroy_j i) (destroy_j_inv i s0 a0) PAGE_L2_L3_NUM
    (fun b s hb h => destroy_j_step i s0 a0 hlen hents b s hb h) PAGE_L2_L3_NUM 0 s0
    (by omega) h0
  rw [Nat.zero_add] at this
  exact this

theorem destroy_i_step (k : Kernel) (as : addrspace) (hwf : as.wf = true)
    (a : Nat) (s : Kernel × addrspace) (ha : a < PAGE_L1_NUM)
    (h : destroy_i_inv k as a s) :
    destroy_i_inv k as (a + 1) (page_table_destroy_i a s) := by
  obtain ⟨hlength, hdone, hrest, hreg, hwr, hfreed⟩ := h
  have hlen := wf_length hwf
  have halt : a < as.page_table.length := by omega
  have hsl : l2_slot as a = as.page_table[a] := by
    simp only [l2_slot]
    exact List.getD_eq_getElem _ _ halt
  rw [List.drop_eq_getElem_cons halt] at hfreed
  simp only [pt_entries] at hfreed
  unfold page_table_destroy_i
  cases hc : as.page_table[a] with
  | none =>
    have hs : l2_slot s.2 a = none := by rw [hrest a (Nat.le_refl a), hsl, hc]
    simp only [hs, Option.isSome_none, Bool.false_eq_true, if_false]
    refine ⟨by simpa using hlength, ?_, ?_, hreg, hwr, ?_⟩
    · intro x hx
      rw [l2_slot_set]
      by_cases hxa : x = a
      · rw [if_pos ⟨hxa, by omega⟩]
      · rw [if_neg (fun hh => hxa hh.1)]
        exact hdone x (by omega)
    · intro x hx
      rw [l2_slot_set, if_neg (fun hh => by omega)]
      exact hrest x (by omega)
    · simpa [l2_entries, hc] using hfreed
  | some a0 =>
    have hs : l2_slot s.2 a = some a0 := by rw [hrest a (Nat.le_refl a), hsl, hc]
    have hshape := wf_l2_slot hwf (hsl.trans hc)
    have hj := destroy_j_loop a s a0 hs hshape.1 hshape.2
    simp only [hs, Option.isSome_some, if_true]
    generalize for_each (page_table_destroy_j a) PAGE_L2_L3_NUM 0 s = s2 at hj ⊢
    obtain ⟨hother, hlength2, _, hreg2, hwr2, hfreed2⟩ := hj
    refine ⟨?_, ?_, ?_, hreg2.trans hreg, hwr2.trans hwr, ?_⟩
    · simp only [List.length_set]
      exact hlength2.trans hlength
    · intro x hx
      rw [l2_slot_set]
      by_cases hxa : x = a
      · rw [if_pos ⟨hxa, by omega⟩]
      · rw [if_neg (fun hh => hxa hh.1), hother x hxa]
        exact hdone x (by omega)
    · intro x hx
      rw [l2_slot_set, if_neg (fun hh => by omega), hother x (by omega)]
      exact hrest x (by omega)
    · have hd : List.drop PAGE_L2_L3_NUM a0 = [] := List.drop_eq_nil_of_le (by omega)
      rw [hd] at hfreed2
      simp only [l2_entries_list, List.map_nil, List.append_nil] at hfreed2
      simp only [kfree]
      rw [hfreed2, ← hfreed]
      simp only [l2_entries, hc, List.map_append, List.append_assoc]

/-- What `page_table_destroy` does on a well-formed address space: the
addresses handed to `free_kpages` are `PADDR_TO_KVADDR` of the non-zero
entries, in order; every Level-1 slot is `NULL` afterwards; the region list
and the `writable` flag stay. -/
theorem page_table_destroy_spec (k : Kernel) (as : addrspace) (hwf : as.wf = true) :
    (page_table_destroy k as).1.freed =
      k.freed ++ (mapped_entries as).map PADDR_TO_KVADDR ∧
    (∀ x, l2_slot (page_table_destroy k as).2 x = none) ∧
    (page_table_destroy k as).2.regions = as.regions ∧
    (page_table_destroy k as).2.writable = as.writable := by
  have hlen := wf_length hwf
  have h0 : destroy_i_inv k as 0 (k, as) :=
    ⟨rfl, fun x hx => absurd hx (Nat.not_lt_zero x), fun _ _ => rfl, rfl, rfl, rfl⟩
  have h := for_each_inv page_table_destroy_i (destroy_i_inv k as) PAGE_L1_NUM
    (fun a s ha hi => destroy_i_step k as hwf a s ha hi) PAGE_L1_NUM 0 (k, as) (by omega) h0
  rw [Nat.zero_add] at h
  unfold page_table_destroy
  generalize for_each page_table_destroy_i PAGE_L1_NUM 0 (k, as) = s1 at h ⊢
  obtain ⟨hlength, hdone, _, hreg, hwr, hfreed⟩ := h
  have hd : List.drop PAGE_L1_NUM as.page_table = [] := List.drop_eq_nil_of_le (by omega)
  rw [hd] at hfreed
  simp only [pt_entries, List.map_nil, List.append_nil] at hfreed
  refine ⟨hfreed, ?_, hreg, hwr⟩
  intro x
  by_cases hx : x < PAGE_L1_NUM
  · exact hdone x hx
  · show s1.2.page_table.getD x none = none
    rw [List.getD_eq_getElem?_getD, List.getElem?_eq_none (by omega)]
    rfl

/-- A page table whose Level-1 slots are all `NULL` maps nothing. -/
theorem lookup_of_all_null (as : addrspace) (h : ∀ x, l2_slot as x = none) (v : Nat) :
    page_table_lookup as v = 0 := by
  unfold page_table_lookup
  simp only [h]

/-- `region_destroy` frees one node per list element and nothing else. -/
theorem region_destroy_spec (k : Kernel) (ls : List region) :
    (region_destroy k ls).1 = 0 ∧
    (region_destroy k ls).2 = { k with kfrees := k.kfrees + ls.length } := by
  induction ls with
  | nil => exact ⟨rfl, rfl⟩
  | cons node next ih =>
    refine ⟨rfl, ?_⟩
    simp only [region_destroy, ih.2, kfree, List.length_cons]
    rfl

/-! ## Duplication: `page_table_dup`, `region_dup`, `as_copy` -/

/-! ## Reading entries after the page-table operations -/

theorem page_table_lookup_eq_entry_at (as : addrspace) (v : Nat) :
    page_table_lookup as v = entry_at as (get_l1_index v) (get_l2_index v) (get_l3_index v) := by
  unfold page_table_lookup entry_at l3_slot
  simp only
  cases l2_slot as (get_l1_index v) with
  | none => rfl
  | some a => rfl

theorem l3_slot_set_entries (as : addrspace) (i j x y : Nat) (v : Option (List Nat))
    (a : List addrspace_l3) (ha : l2_slot as i = some a) (hj : j < a.length) :
    l3_slot (set_entries as i j v) x y = if x = i ∧ y = j then v else l3_slot as x y := by
  unfold l3_slot
  rw [l2_slot_set_entries]
  by_cases hx : x = i
  · subst hx
    simp only [if_true, ha, Option.map_some', true_and]
    rw [List.getD_eq_getElem?_getD, List.getElem?_set]
    by_cases hy : y = j
    · subst hy
      simp [hj]
    · have : ¬ j = y := fun e => hy e.symm
      simp only [this, if_false, hy]
      rw [List.getD_eq_getElem?_getD]
  · simp [hx]

/-- Reading any entry after `as->page_table[a][b].entries[c] = e`, the
Level-3 array being present with `c` inside it. -/
theorem entry_at_set_entry (as : addrspace) (a b c e x y z : Nat)
    (hr : l3_ready as a b) (hc : c < PAGE_L2_L3_NUM) :
    entry_at (set_entry as a b c e) x y z =
      if x = a ∧ y = b ∧ z = c then e else entry_at as x y z := by
  obtain ⟨arr, ents, harr, hb, hents, hlen⟩ := hr
  have hs3 : l3_slot as a b = some ents := by simp only [l3_slot, harr, hents]
  unfold entry_at set_entry
  simp only [hs3]
  rw [l3_slot_set_entries as a b x y _ arr harr hb]
  by_cases hxy : x = a ∧ y = b
  · obtain ⟨hx, hy⟩ := hxy
    subst hx; subst hy
    simp only [and_self, if_true, true_and, hs3]
    rw [List.getD_eq_getElem?_getD, List.getElem?_set]
    by_cases hz : z = c
    · subst hz
      simp [hlen, hc]
    · have : ¬ c = z := fun e => hz e.symm
      simp only [this, if_false, hz]
      rw [List.getD_eq_getElem?_getD]
  · rw [if_neg hxy]
    have : ¬ (x = a ∧ y = b ∧ z = c) := fun h => hxy ⟨h.1, h.2.1⟩
    rw [if_neg this]

/-! ## Well-formedness across the page-table operations -/

theorem wf_set_slot (as : addrspace) (i : Nat) (v : Option (List addrspace_l3))
    (hwf : as.wf = true) (hv : l2_wf v = true) :
    ({ as with page_table := as.page_table.set i v } : addrspace).wf = true := by
  simp only [addrspace.wf, Bool.and_eq_true, beq_iff_eq, List.all_eq_true, List.length_set]
    at hwf ⊢
  refine ⟨hwf.1, ?_⟩
  intro t ht
  rcases List.mem_or_eq_of_mem_set ht with h | h
  · exact hwf.2 t h
  · rw [h]; exact hv

theorem l2_wf_of_slot {as : addrspace} (hwf : as.wf = true) {i : Nat}
    {a : List addrspace_l3} (h : l2_slot as i = some a) : l2_wf (some a) = true := by
  simp only [addrspace.wf, Bool.and_eq_true, beq_iff_eq, List.all_eq_true] at hwf
  exact hwf.2 _ (l2_slot_mem h)

theorem wf_set_entries (as : addrspace) (i j : Nat) (v : Option (List Nat))
    (hwf : as.wf = true) (hv : l3_wf { entries := v } = true) :
    (set_entries as i j v).wf = true := by
  unfold set_entries
  cases h : l2_slot as i with
  | none => exact hwf
  | some a =>
    apply wf_set_slot as i _ hwf
    have ha := l2_wf_of_slot hwf h
    simp only [l2_wf, Bool.and_eq_true, beq_iff_eq, List.all_eq_true, List.length_set] at ha ⊢
    refine ⟨ha.1, ?_⟩
    intro t ht
    rcases List.mem_or_eq_of_mem_set ht with h' | h'
    · exact ha.2 t h'
    · rw [h']; exact hv

theorem l3_slot_length {as : addrspace} (hwf : as.wf = true) {i j : Nat} {ents : List Nat}
    (h : l3_slot as i j = some ents) : ents.length = PAGE_L2_L3_NUM := by
  unfold l3_slot at h
  cases h2 : l2_slot as i with
  | none => simp [h2] at h
  | some a =>
    simp only [h2] at h
    exact (wf_l2_slot hwf h2).2 _ _ h

theorem wf_set_entry (as : addrspace) (a b c e : Nat) (hwf : as.wf = true) :
    (set_entry as a b c e).wf = true := by
  unfold set_entry
  cases h : l3_slot as a b with
  | none => exact hwf
  | some ents =>
    apply wf_set_entries as a b _ hwf
    simp only [l3_wf, List.length_set, beq_iff_eq]
    exact l3_slot_length hwf h

theorem l3_ready_set_entry (as : addrspace) (a b c e : Nat) (hr : l3_ready as a b) :
    l3_ready (set_entry as a b c e) a b := by
  obtain ⟨arr, ents, harr, hb, hents, hlen⟩ := hr
  have hs3 : l3_slot as a b = some ents := by simp only [l3_slot, harr, hents]
  refine ⟨arr.set b { entries := some (ents.set c e) }, ents.set c e, ?_, ?_, ?_, ?_⟩
  · simp only [set_entry, hs3]
    rw [l2_slot_set_entries, if_pos rfl, harr]
    rfl
  · simpa using hb
  · rw [List.getD_eq_getElem?_getD, List.getElem?_set_self (by simpa using hb)]
    rfl
  · simpa using hlen

/-- `page_table_l2_init` when the index is in range and `kmalloc` has a block:
its exact result. -/
theorem page_table_l2_init_ok (k : Kernel) (as : addrspace) (a : Nat)
    (ha : a < PAGE_L1_NUM) (hm : ∀ b ∈ k.kmalloc_ok, b = true)
    (hlen : 1 ≤ k.kmalloc_ok.length) :
    ∃ rest, k.kmalloc_ok = true :: rest ∧
      page_table_l2_init k as a =
        (0, { k with kmalloc_ok := rest },
          { as with page_table :=
            as.page_table.set a (some (List.replicate PAGE_L2_L3_NUM { entries := none })) }) := by
  cases hk : k.kmalloc_ok with
  | nil => rw [hk] at hlen; simp at hlen
  | cons ok rest =>
    have hok : ok = true := hm ok (by rw [hk]; exact List.mem_cons_self _ _)
    subst hok
    refine ⟨rest, rfl, ?_⟩
    unfold page_table_l2_init
    rw [if_neg (by omega)]
    simp only [kmalloc, hk]

theorem l2_wf_fresh : l2_wf (some (List.replicate PAGE_L2_L3_NUM { entries := none })) = true := by
  simp only [l2_wf, List.length_replicate, beq_self_eq_true, Bool.true_and, List.all_eq_true]
  intro t ht
  rw [List.eq_of_mem_replicate ht]
  rfl

/-- Reading any entry after a Level-1 slot received a new, empty Level-2
array. -/
theorem entry_at_fresh_l2 (as : addrspace) (a x y z : Nat) (ha : a < as.page_table.length) :
    entry_at { as with page_table :=
        as.page_table.set a (some (List.replicate PAGE_L2_L3_NUM { entries := none })) } x y z =
      if x = a then 0 else entry_at as x y z := by
  unfold entry_at l3_slot
  rw [l2_slot_set]
  by_cases hx : x = a
  · subst hx
    simp only [ha, and_self, if_true]
    rw [List.getD_eq_getElem?_getD, List.getElem?_replicate]
    by_cases hy : y < PAGE_L2_L3_NUM
    · simp [hy]
    · simp [hy]
  · simp [hx]

/-- `page_table_l3_init` below a present Level-2 array, the indices in range
and `kmalloc` with a block to give: it returns 0, the Level-3 array is present
afterwards, no entry reads differently, at most one allocation was made, the
frames and memory are untouched. -/
theorem page_table_l3_init_ok (k : Kernel) (as : addrspace) (a b : Nat)
    (hwf : as.wf = true) (ha : a < PAGE_L1_NUM) (hb : b < PAGE_L2_L3_NUM)
    (arr : List addrspace_l3) (harr : l2_slot as a = some arr)
    (hm : ∀ ok ∈ k.kmalloc_ok, ok = true) (hlen : 1 ≤ k.kmalloc_ok.length) :
    (page_table_l3_init k as a b).1 = 0 ∧
    (page_table_l3_init k as a b).2.2.wf = true ∧
    l3_ready (page_table_l3_init k as a b).2.2 a b ∧
    (∀ x y z, entry_at (page_table_l3_init k as a b).2.2 x y z = entry_at as x y z) ∧
    (page_table_l3_init k as a b).2.2.regions = as.regions ∧
    (page_table_l3_init k as a b).2.2.writable = as.writable ∧
    (∃ used, k.kmalloc_ok = used ++ (page_table_l3_init k as a b).2.1.kmalloc_ok ∧
      used.length ≤ 1) ∧
    (page_table_l3_init k as a b).2.1.kpages = k.kpages ∧
    (page_table_l3_init k as a b).2.1.mem = k.mem := by
  have hshape := wf_l2_slot hwf harr
  have hblt : b < arr.length := by omega
  cases h3 : l3_slot as a b with
  | some ents =>
    have hres : page_table_l3_init k as a b = (0, k, as) := by
      unfold page_table_l3_init
      rw [if_neg (by omega)]
      simp only [harr, Option.isNone_some, Bool.false_eq_true, if_false, ne_eq,
        not_true_eq_false, h3, Option.isSome_some, if_true]
    rw [hres]
    refine ⟨rfl, hwf, ?_, fun _ _ _ => rfl, rfl, rfl, ⟨[], rfl, by simp⟩, rfl, rfl⟩
    have h3' := h3
    simp only [l3_slot, harr] at h3'
    exact ⟨arr, ents, harr, hblt, h3', hshape.2 _ _ h3'⟩
  | none =>
    cases hk : k.kmalloc_ok with
    | nil => rw [hk] at hlen; simp at hlen
    | cons ok rest =>
      have hok : ok = true := hm ok (by rw [hk]; exact List.mem_cons_self _ _)
      subst hok
      have hres : page_table_l3_init k as a b =
          (0, { k with kmalloc_ok := rest },
            set_entries as a b (some (List.replicate PAGE_L2_L3_NUM 0))) := by
        unfold page_table_l3_init
        rw [if_neg (by omega)]
        simp only [harr, Option.isNone_some, Bool.false_eq_true, if_false, ne_eq,
          not_true_eq_false, h3, Option.isSome_none, kmalloc, hk]
      rw [hres]
      refine ⟨rfl, ?_, ?_, ?_, ?_, ?_, ⟨[true], rfl, by simp⟩, rfl, rfl⟩
      · apply wf_set_entries as a b _ hwf
        simp [l3_wf]
      · refine ⟨arr.set b { entries := some (List.replicate PAGE_L2_L3_NUM 0) },
          List.replicate PAGE_L2_L3_NUM 0, ?_, ?_, ?_, ?_⟩
        · rw [l2_slot_set_entries, if_pos rfl, harr]
          rfl
        · simpa using hblt
        · rw [List.getD_eq_getElem?_getD, List.getElem?_set_self hblt]
          rfl
        · simp
      · intro x y z
        unfold entry_at
        rw [l3_slot_set_entries as a b x y _ arr harr hblt]
        by_cases hxy : x = a ∧ y = b
        · rw [if_pos hxy, hxy.1, hxy.2, h3]
          simp only
          rw [List.getD_eq_getElem?_getD, List.getElem?_replicate]
          by_cases hz : z < PAGE_L2_L3_NUM
          · simp [hz]
          · simp [hz]
        · rw [if_neg hxy]
      · exact (set_entries_writable _ _ _ _).2
      · exact (set_entries_writable _ _ _ _).1

/-! ## Frames and the duplicated entry -/

theorem testBit_dirty (i : Nat) : TLBLO_DIRTY.testBit i = decide (10 = i) :=
  Nat.testBit_two_pow (n := 10)

theorem testBit_valid (i : Nat) : TLBLO_VALID.testBit i = decide (9 = i) :=
  Nat.testBit_two_pow (n := 9)

/-- The frame field of any word is page-aligned. -/
theorem and_page_frame_mod (e : Nat) : (e &&& PAGE_FRAME) % 4096 = 0 := by
  have h := Nat.and_pow_two_sub_one_eq_mod (e &&& PAGE_FRAME) 12
  have h2 : (e &&& PAGE_FRAME) &&& (2 ^ 12 - 1) = 0 := by
    rw [Nat.and_assoc]
    have : PAGE_FRAME &&& (2 ^ 12 - 1) = 0 := by decide
    rw [this, Nat.and_zero]
  rw [h2] at h
  exact h.symm

theorem and_page_frame_lt (e : Nat) : e &&& PAGE_FRAME < 2 ^ 32 := by
  have : e &&& PAGE_FRAME ≤ PAGE_FRAME := Nat.and_le_right
  unfold PAGE_FRAME at this ⊢
  omega

/-- The kernel alias of the frame of any entry is page-aligned. -/
theorem old_frame_aligned (e : Nat) : PADDR_TO_KVADDR (e &&& PAGE_FRAME) % 4096 = 0 := by
  have h := and_page_frame_mod e
  unfold PADDR_TO_KVADDR MIPS_KSEG0
  omega

/-- Two different page-aligned frames share no byte. -/
theorem frames_disjoint (f g j : Nat) (hf : f % 4096 = 0) (hg : g % 4096 = 0) (hne : f ≠ g)
    (hj : j < 4096) : ¬ (f ≤ g + j ∧ g + j < f + 4096) := by
  omega

theorem paddr_of_good (f : Nat) (h1 : f % PAGE_SIZE = 0) (h2 : MIPS_KSEG0 < f)
    (h3 : f < 2 ^ 32) :
    KVADDR_TO_PADDR f = f - 0x80000000 ∧ KVADDR_TO_PADDR f % 4096 = 0 ∧
    0 < KVADDR_TO_PADDR f ∧ KVADDR_TO_PADDR f < 2 ^ 31 ∧
    PADDR_TO_KVADDR (KVADDR_TO_PADDR f) = f := by
  unfold KVADDR_TO_PADDR PADDR_TO_KVADDR
  unfold MIPS_KSEG0 at h2 ⊢
  unfold PAGE_SIZE at h1
  omega

theorem dup_entry_dirty (f e : Nat) (hp : KVADDR_TO_PADDR f % 4096 = 0) :
    dup_entry f e &&& TLBLO_DIRTY = e &&& TLBLO_DIRTY := by
  apply Nat.eq_of_testBit_eq
  intro i
  simp only [dup_entry, Nat.testBit_and, Nat.testBit_or, testBit_dirty, testBit_valid]
  by_cases hi : 10 = i
  · subst hi
    simp [testBit_page_aligned _ 10 hp (by norm_num)]
  · simp [hi]

theorem dup_entry_valid (f e : Nat) (hp : KVADDR_TO_PADDR f % 4096 = 0) :
    dup_entry f e &&& TLBLO_VALID = e &&& TLBLO_VALID := by
  apply Nat.eq_of_testBit_eq
  intro i
  simp only [dup_entry, Nat.testBit_and, Nat.testBit_or, testBit_dirty, testBit_valid]
  by_cases hi : 9 = i
  · subst hi
    simp [testBit_page_aligned _ 9 hp (by norm_num)]
  · simp [hi]

theorem dup_entry_flags_lt (e : Nat) : (e &&& TLBLO_DIRTY) ||| (e &&& TLBLO_VALID) < 4096 := by
  have h1 : e &&& TLBLO_DIRTY < 2 ^ 12 :=
    Nat.lt_of_le_of_lt Nat.and_le_right (by decide)
  have h2 : e &&& TLBLO_VALID < 2 ^ 12 :=
    Nat.lt_of_le_of_lt Nat.and_le_right (by decide)
  exact Nat.or_lt_two_pow h1 h2

theorem dup_entry_eq_add (f e : Nat) (hp : KVADDR_TO_PADDR f % 4096 = 0) :
    dup_entry f e = KVADDR_TO_PADDR f + ((e &&& TLBLO_DIRTY) ||| (e &&& TLBLO_VALID)) := by
  unfold dup_entry
  rw [Nat.or_assoc]
  exact or_flags_eq_add _ _ hp (dup_entry_flags_lt e)

theorem dup_entry_frame (f e : Nat) (hp : KVADDR_TO_PADDR f % 4096 = 0)
    (hlt : KVADDR_TO_PADDR f < 2 ^ 31) :
    dup_entry f e &&& PAGE_FRAME = KVADDR_TO_PADDR f := by
  have hfl := dup_entry_flags_lt e
  rw [dup_entry_eq_add f e hp]
  unfold PAGE_FRAME
  rw [and_page_mask _ (by omega)]
  omega

theorem dup_entry_ne_zero (f e : Nat) (hp : KVADDR_TO_PADDR f % 4096 = 0)
    (hpos : 0 < KVADDR_TO_PADDR f) : dup_entry f e ≠ 0 := by
  rw [dup_entry_eq_add f e hp]
  omega

/-! ## The source's entries -/

theorem mem_l2_entries_list (e : Nat) (arr : List addrspace_l3) (sl : addrspace_l3)
    (hsl : sl ∈ arr) (he : e ∈ l3_entries sl) : e ∈ l2_entries_list arr := by
  induction arr with
  | nil => cases hsl
  | cons hd tl ih =>
    simp only [l2_entries_list, List.mem_append]
    rcases List.mem_cons.mp hsl with h | h
    · left; rw [← h]; exact he
    · right; exact ih h

theorem mem_pt_entries (e : Nat) (pt : List (Option (List addrspace_l3)))
    (t : Option (List addrspace_l3)) (ht : t ∈ pt) (he : e ∈ l2_entries t) :
    e ∈ pt_entries pt := by
  induction pt with
  | nil => cases ht
  | cons hd tl ih =>
    simp only [pt_entries, List.mem_append]
    rcases List.mem_cons.mp ht with h | h
    · left; rw [← h]; exact he
    · right; exact ih h

/-- A non-zero entry of the page table is one of its mapped entries. -/
theorem entry_at_mem_mapped (as : addrspace) (a b c : Nat) (h : entry_at as a b c ≠ 0) :
    entry_at as a b c ∈ mapped_entries as := by
  unfold entry_at at h ⊢
  cases h3 : l3_slot as a b with
  | none => simp [h3] at h
  | some ents =>
    simp only [h3] at h ⊢
    have hc : c < ents.length := by
      by_contra hc
      apply h
      rw [List.getD_eq_getElem?_getD, List.getElem?_eq_none (by omega)]
      rfl
    rw [List.getD_eq_getElem _ _ hc] at h ⊢
    unfold l3_slot at h3
    cases h2 : l2_slot as a with
    | none => simp [h2] at h3
    | some arr =>
      simp only [h2] at h3
      have hb : b < arr.length := by
        by_contra hb
        rw [List.getD_eq_getElem?_getD, List.getElem?_eq_none (by omega)] at h3
        simp at h3
      rw [List.getD_eq_getElem _ _ hb] at h3
      apply mem_pt_entries _ _ (some arr) (l2_slot_mem h2)
      apply mem_l2_entries_list _ _ arr[b] (List.getElem_mem hb)
      simp only [l3_entries, h3, List.mem_filter, decide_eq_true_eq]
      exact ⟨List.getElem_mem hc, h⟩

/-! ## The invariant of the duplication -/

/-- The invariant moves to another progress set and to smaller budgets. -/
theorem dup_inv_weaken {k : Kernel} {new0 old : addrspace} {D D' : Nat → Nat → Nat → Prop}
    {Rm Rf Rm' Rf' : Nat} {s : Kernel × addrspace}
    (h : dup_inv k new0 old D Rm Rf s)
    (h1 : ∀ x y z, x < PAGE_L1_NUM → y < PAGE_L2_L3_NUM → z < PAGE_L2_L3_NUM →
      D' x y z → entry_at old x y z ≠ 0 → D x y z)
    (h2 : ∀ x y z, x < PAGE_L1_NUM → y < PAGE_L2_L3_NUM → z < PAGE_L2_L3_NUM →
      D x y z → D' x y z ∨ entry_at old x y z = 0)
    (hm : Rm' ≤ Rm) (hf : Rf' ≤ Rf) :
    dup_inv k new0 old D' Rm' Rf' s := by
  obtain ⟨hwf, hreg, hwr, hmal, hmb, hfb, ⟨used, hused, hmem, hdone⟩, hzero⟩ := h
  refine ⟨hwf, hreg, hwr, hmal, by omega, by omega, ⟨used, hused, hmem, ?_⟩, ?_⟩
  · intro x y z hx hy hz hd hne
    exact hdone x y z hx hy hz (h1 x y z hx hy hz hd hne) hne
  · intro x y z hx hy hz hc
    apply hzero x y z hx hy hz
    rcases hc with hc | hc
    · by_cases hD : D x y z
      · rcases h2 x y z hx hy hz hD with h' | h'
        · exact absurd h' hc
        · exact Or.inr h'
      · exact Or.inl hD
    · exact Or.inr hc

/-- One round of the `l3` loop of `page_table_dup` keeps the invariant and
returns 0. -/
theorem dup_l3_step (k : Kernel) (new0 old : addrspace) (env : dup_env k old)
    (a b : Nat) (oents : List Nat) (hold : l3_slot old a b = some oents)
    (Rm Rf : Nat) (c : Nat) (s : Kernel × addrspace) (hc : c < PAGE_L2_L3_NUM)
    (h : dup_inv k new0 old (dup_done_l3 a b c) Rm
      (((oents.drop c).filter (fun e => decide (e ≠ 0))).length + Rf) s ∧
      l3_ready s.2 a b) :
    (page_table_dup_l3 old a b c s).1 = 0 ∧
    (dup_inv k new0 old (dup_done_l3 a b (c + 1)) Rm
      (((oents.drop (c + 1)).filter (fun e => decide (e ≠ 0))).length + Rf)
      (page_table_dup_l3 old a b c s).2 ∧
      l3_ready (page_table_dup_l3 old a b c s).2.2 a b) := by
  obtain ⟨h, hr⟩ := h
  have holen : oents.length = PAGE_L2_L3_NUM := l3_slot_length env.old_wf hold
  have hclt : c < oents.length := by omega
  have he : entry_at old a b c = oents[c] := by
    simp only [entry_at, hold]
    exact List.getD_eq_getElem _ _ hclt
  have hdrop := List.drop_eq_getElem_cons hclt
  generalize oents[c] = e at he hdrop
  by_cases hz : e = 0
  · have hbody : page_table_dup_l3 old a b c s = (0, s) := by
      unfold page_table_dup_l3
      simp only [he, hz, ne_eq, not_true_eq_false, if_false]
    rw [hbody]
    refine ⟨rfl, ?_, hr⟩
    apply dup_inv_weaken h
    · intro x y z _ _ _ hd hne
      unfold dup_done_l3 at hd ⊢
      by_cases heq : x = a ∧ y = b ∧ z = c
      · rw [heq.1, heq.2.1, heq.2.2, he] at hne
        exact absurd hz hne
      · omega
    · intro x y z _ _ _ hd
      left
      unfold dup_done_l3 at hd ⊢
      omega
    · exact Nat.le_refl _
    · rw [hdrop, List.filter_cons_of_neg (by simpa using hz)]
  · obtain ⟨hwf, hreg, hwr, hmal, hmb, hfb, ⟨used, hused, hmem, hdone⟩, hzero⟩ := h
    rw [hdrop, List.filter_cons_of_pos (by simpa using hz), List.length_cons] at hfb
    cases hkp : s.1.kpages with
    | nil => rw [hkp] at hfb; simp at hfb
    | cons f rest =>
      rw [hkp] at hused hfb
      have hfmem : f ∈ k.kpages := by rw [hused]; simp
      obtain ⟨hfa, hfk, hf32⟩ := env.good f hfmem
      obtain ⟨_, hpal, _, _, _⟩ := paddr_of_good f hfa hfk hf32
      have hfa' : f % 4096 = 0 := hfa
      have hf0 : f ≠ 0 := by unfold MIPS_KSEG0 at hfk; omega
      have hnd := env.nodup
      rw [hused] at hnd
      have hfnot : f ∉ used := by
        intro hin
        have := (List.nodup_append.mp hnd).2.2
        exact this hin (List.mem_cons_self _ _) 
      have hug : ∀ g ∈ used, g % 4096 = 0 ∧ g ∈ k.kpages ∧ g ≠ f := by
        intro g hg
        have hgk : g ∈ k.kpages := by rw [hused]; exact List.mem_append_left _ hg
        exact ⟨(env.good g hgk).1, hgk, fun e => hfnot (e ▸ hg)⟩
      have hbody : page_table_dup_l3 old a b c s =
          (0, (memmove { s.1 with kpages := rest } f
            (PADDR_TO_KVADDR (e &&& PAGE_FRAME)) PAGE_SIZE,
            set_entry s.2 a b c (dup_entry f e))) := by
        unfold page_table_dup_l3
        simp only [he, alloc_kpages, hkp]
        rw [if_pos hz, if_neg hf0]
        rfl
      rw [hbody]
      refine ⟨rfl, ⟨wf_set_entry _ _ _ _ _ hwf, (set_entry_writable _ _ _ _ _).2.trans hreg,
        (set_entry_writable _ _ _ _ _).1.trans hwr, hmal, hmb, ?_,
        ⟨used ++ [f], ?_, ?_, ?_⟩, ?_⟩, l3_ready_set_entry _ _ _ _ _ hr⟩
      · show _ ≤ rest.length
        simp only [List.length_cons] at hfb
        omega
      · show k.kpages = (used ++ [f]) ++ rest
        rw [hused]; simp
      · intro addr hout
        show (if f ≤ addr ∧ addr < f + 4096 then _ else s.1.mem addr) = k.mem addr
        rw [if_neg (hout f (by simp))]
        exact hmem addr (fun g hg => hout g (List.mem_append_left _ hg))
      · intro x y z hx hy hz' hd hne
        rw [entry_at_set_entry _ _ _ _ _ _ _ _ hr hc]
        by_cases heq : x = a ∧ y = b ∧ z = c
        · rw [if_pos heq, heq.1, heq.2.1, heq.2.2, he]
          refine ⟨f, by simp, rfl, ?_⟩
          intro j hj
          show (if f ≤ f + j ∧ f + j < f + 4096 then
            s.1.mem (PADDR_TO_KVADDR (e &&& PAGE_FRAME) + (f + j - f)) else _) = _
          rw [if_pos ⟨by omega, by omega⟩, Nat.add_sub_cancel_left]
          apply hmem
          intro g hg
          obtain ⟨hga, hgk, _⟩ := hug g hg
          have hne' : g ≠ PADDR_TO_KVADDR (e &&& PAGE_FRAME) := by
            apply env.unref g hgk
            rw [← he]
            apply entry_at_mem_mapped
            rw [he]; exact hz
          exact frames_disjoint g _ j hga (old_frame_aligned _) hne' hj
        · rw [if_neg heq]
          have hd' : dup_done_l3 a b c x y z := by
            unfold dup_done_l3 at hd ⊢
            omega
          obtain ⟨g, hg, hent, hcont⟩ := hdone x y z hx hy hz' hd' hne
          refine ⟨g, List.mem_append_left _ hg, hent, ?_⟩
          intro j hj
          obtain ⟨hga, _, hgf⟩ := hug g hg
          show (if f ≤ g + j ∧ g + j < f + 4096 then _ else s.1.mem (g + j)) = _
          rw [if_neg (frames_disjoint f g j hfa' hga (fun e => hgf e.symm) hj)]
          exact hcont j hj
      · intro x y z hx hy hz' hcase
        rw [entry_at_set_entry _ _ _ _ _ _ _ _ hr hc]
        have heq : ¬ (x = a ∧ y = b ∧ z = c) := by
          intro heq
          rcases hcase with hcase | hcase
          · apply hcase
            unfold dup_done_l3
            omega
          · rw [heq.1, heq.2.1, heq.2.2, he] at hcase
            exact hz hcase
        rw [if_neg heq]
        apply hzero x y z hx hy hz'
        rcases hcase with hcase | hcase
        · left
          intro hd
          apply hcase
          unfold dup_done_l3 at hd ⊢
          omega
        · exact Or.inr hcase

/-- The `l3` loop of `page_table_dup` over a present Level-3 array of the
source returns 0 and has dealt with the 64 entries. -/
theorem dup_l3_loop (k : Kernel) (new0 old : addrspace) (env : dup_env k old)
    (a b : Nat) (oents : List Nat) (hold : l3_slot old a b = some oents)
    (Rm Rf : Nat) (s : Kernel × addrspace)
    (h : dup_inv k new0 old (dup_done_l3 a b 0) Rm
      ((oents.filter (fun e => decide (e ≠ 0))).length + Rf) s)
    (hr : l3_ready s.2 a b) :
    (for_loop (page_table_dup_l3 old a b) PAGE_L2_L3_NUM 0 s).1 = 0 ∧
    dup_inv k new0 old (dup_done_l3 a b PAGE_L2_L3_NUM) Rm Rf
      (for_loop (page_table_dup_l3 old a b) PAGE_L2_L3_NUM 0 s).2 ∧
    l3_ready (for_loop (page_table_dup_l3 old a b) PAGE_L2_L3_NUM 0 s).2.2 a b := by
  have holen : oents.length = PAGE_L2_L3_NUM := l3_slot_length env.old_wf hold
  have hloop := for_loop_ok (page_table_dup_l3 old a b)
    (fun c s => dup_inv k new0 old (dup_done_l3 a b c) Rm
      (((oents.drop c).filter (fun e => decide (e ≠ 0))).length + Rf) s ∧ l3_ready s.2 a b)
    PAGE_L2_L3_NUM
    (fun c s hc hi => dup_l3_step k new0 old env a b oents hold Rm Rf c s hc hi)
    PAGE_L2_L3_NUM 0 s (by omega) ⟨by simpa using h, hr⟩
  rw [Nat.zero_add] at hloop
  generalize for_loop (page_table_dup_l3 old a b) PAGE_L2_L3_NUM 0 s = res at hloop ⊢
  obtain ⟨h0, hinv, hready⟩ := hloop
  have hd : List.drop PAGE_L2_L3_NUM oents = [] := List.drop_eq_nil_of_le (by omega)
  rw [hd] at hinv
  refine ⟨h0, ?_, hready⟩
  simpa using hinv

/-- Entries below an absent Level-3 array read 0. -/
theorem entry_at_of_l3_none (as : addrspace) (a b z : Nat) (h : l3_slot as a b = none) :
    entry_at as a b z = 0 := by
  simp only [entry_at, h]

/-- Entries below an absent Level-2 array read 0. -/
theorem entry_at_of_l2_none (as : addrspace) (a y z : Nat) (h : l2_slot as a = none) :
    entry_at as a y z = 0 := by
  simp only [entry_at, l3_slot, h]

/-- The consumed part of the `kmalloc` oracle only held successes. -/
theorem malloc_suffix_ok {k : Kernel} {l : List Bool} (hm : ∀ ok ∈ k.kmalloc_ok, ok = true)
    (h : ∃ used, k.kmalloc_ok = used ++ l) : ∀ ok ∈ l, ok = true := by
  obtain ⟨used, hu⟩ := h
  intro ok hok
  exact hm ok (by rw [hu]; exact List.mem_append_right _ hok)

/-- One round of the `l2` loop of `page_table_dup` keeps the invariant and
returns 0. -/
theorem dup_l2_step (k : Kernel) (new0 old : addrspace) (env : dup_env k old)
    (a : Nat) (ha : a < PAGE_L1_NUM) (arr0 : List addrspace_l3)
    (hold : l2_slot old a = some arr0)
    (Rm Rf : Nat) (b : Nat) (s : Kernel × addrspace) (hb : b < PAGE_L2_L3_NUM)
    (h : dup_inv k new0 old (dup_done_l2 a b) (l3_arrays_count (arr0.drop b) + Rm)
      ((l2_entries_list (arr0.drop b)).length + Rf) s ∧
      ∃ arr, l2_slot s.2 a = some arr) :
    (page_table_dup_l2 old a b s).1 = 0 ∧
    (dup_inv k new0 old (dup_done_l2 a (b + 1)) (l3_arrays_count (arr0.drop (b + 1)) + Rm)
      ((l2_entries_list (arr0.drop (b + 1))).length + Rf) (page_table_dup_l2 old a b s).2 ∧
      ∃ arr, l2_slot (page_table_dup_l2 old a b s).2.2 a = some arr) := by
  obtain ⟨h, arr, harr⟩ := h
  have hshape := wf_l2_slot env.old_wf hold
  have hblt : b < arr0.length := by omega
  have hslot : l3_slot old a b = (arr0[b]).entries := by
    simp only [l3_slot, hold]
    rw [List.getD_eq_getElem _ _ hblt]
  have hdrop := List.drop_eq_getElem_cons hblt
  generalize arr0[b] = sl at hslot hdrop
  rw [hdrop] at h
  simp only [l3_arrays_count, l2_entries_list, List.length_append] at h
  cases hse : sl.entries with
  | none =>
    rw [hse] at hslot
    have hbody : page_table_dup_l2 old a b s = (0, s) := by
      unfold page_table_dup_l2
      simp only [hslot, Option.isSome_none, Bool.false_eq_true, if_false]
    rw [hbody]
    refine ⟨rfl, ?_, ⟨arr, harr⟩⟩
    apply dup_inv_weaken h
    · intro x y z _ _ _ hd hne
      unfold dup_done_l2 at hd ⊢
      by_cases heq : x = a ∧ y = b
      · rw [heq.1, heq.2, entry_at_of_l3_none old a b z hslot] at hne
        exact absurd rfl hne
      · omega
    · intro x y z _ _ _ hd
      left
      unfold dup_done_l2 at hd ⊢
      omega
    · simp [hse]
    · simp [l3_entries, hse]
  | some oents =>
    rw [hse] at hslot
    simp only [hse, Option.isSome_some, if_true, l3_entries] at h
    have hm := malloc_suffix_ok env.malloc_ok h.mallocs
    have hl1 : 1 ≤ s.1.kmalloc_ok.length := by
      have := h.malloc_budget
      omega
    have hinit := page_table_l3_init_ok s.1 s.2 a b h.wf ha hb arr harr hm hl1
    have hbody : page_table_dup_l2 old a b s =
        for_loop (page_table_dup_l3 old a b) PAGE_L2_L3_NUM 0
          ((page_table_l3_init s.1 s.2 a b).2.1, (page_table_l3_init s.1 s.2 a b).2.2) := by
      unfold page_table_dup_l2
      simp only [hslot, Option.isSome_some, if_true]
      rw [if_neg (not_not.mpr hinit.1)]
    rw [hbody]
    generalize page_table_l3_init s.1 s.2 a b = r at hinit
    obtain ⟨_, rwf, rready, rent, rreg, rwr, ⟨u, hu, hul⟩, rkp, rmem⟩ := hinit
    obtain ⟨hwf, hreg, hwr, ⟨um, hum⟩, hmb, hfb, ⟨used, hused, hmem, hdone⟩, hzero⟩ := h
    have hlenu : s.1.kmalloc_ok.length = u.length + r.2.1.kmalloc_ok.length := by
      rw [hu, List.length_append]
    have hinv0 : dup_inv k new0 old (dup_done_l3 a b 0)
        (l3_arrays_count (arr0.drop (b + 1)) + Rm)
        ((oents.filter (fun e => decide (e ≠ 0))).length +
          ((l2_entries_list (arr0.drop (b + 1))).length + Rf)) (r.2.1, r.2.2) := by
      refine ⟨rwf, rreg.trans hreg, rwr.trans hwr, ⟨um ++ u, ?_⟩, ?_, ?_,
        ⟨used, ?_, ?_, ?_⟩, ?_⟩
      · show k.kmalloc_ok = um ++ u ++ r.2.1.kmalloc_ok
        rw [hum, hu, List.append_assoc]
      · show _ ≤ r.2.1.kmalloc_ok.length
        omega
      · show _ ≤ r.2.1.kpages.length
        rw [rkp]
        omega
      · show k.kpages = used ++ r.2.1.kpages
        rw [rkp]; exact hused
      · intro addr hout
        show r.2.1.mem addr = k.mem addr
        rw [rmem]; exact hmem addr hout
      · intro x y z hx hy hz hd hne
        have hd' : dup_done_l2 a b x y z := by
          unfold dup_done_l3 at hd
          unfold dup_done_l2
          omega
        obtain ⟨g, hg, hent, hcont⟩ := hdone x y z hx hy hz hd' hne
        refine ⟨g, hg, ?_, ?_⟩
        · show entry_at r.2.2 x y z = _
          rw [rent]; exact hent
        · intro j hj
          show r.2.1.mem (g + j) = _
          rw [rmem]; exact hcont j hj
      · intro x y z hx hy hz hcase
        show entry_at r.2.2 x y z = 0
        rw [rent]
        apply hzero x y z hx hy hz
        rcases hcase with hcase | hcase
        · left
          intro hd
          apply hcase
          unfold dup_done_l2 at hd
          unfold dup_done_l3
          omega
        · exact Or.inr hcase
    have hloop := dup_l3_loop k new0 old env a b oents hslot _ _ (r.2.1, r.2.2) hinv0 rready
    generalize for_loop (page_table_dup_l3 old a b) PAGE_L2_L3_NUM 0 (r.2.1, r.2.2) = res
      at hloop ⊢
    obtain ⟨h0, hinv, hready⟩ := hloop
    refine ⟨h0, ?_, ?_⟩
    · apply dup_inv_weaken hinv
      · intro x y z _ _ hz hd _
        unfold dup_done_l2 at hd
        unfold dup_done_l3
        omega
      · intro x y z _ _ hz hd
        left
        unfold dup_done_l3 at hd
        unfold dup_done_l2
        omega
      · exact Nat.le_refl _
      · exact Nat.le_refl _
    · obtain ⟨arr', _, harr', _⟩ := hready
      exact ⟨arr', harr'⟩

/-- The `l2` loop of `page_table_dup` below a present Level-2 array of the
source returns 0 and has dealt with the 64 slots. -/
theorem dup_l2_loop (k : Kernel) (new0 old : addrspace) (env : dup_env k old)
    (a : Nat) (ha : a < PAGE_L1_NUM) (arr0 : List addrspace_l3)
    (hold : l2_slot old a = some arr0)
    (Rm Rf : Nat) (s : Kernel × addrspace)
    (h : dup_inv k new0 old (dup_done_l2 a 0) (l3_arrays_count arr0 + Rm)
      ((l2_entries_list arr0).length + Rf) s)
    (harr : ∃ arr, l2_slot s.2 a = some arr) :
    (for_loop (page_table_dup_l2 old a) PAGE_L2_L3_NUM 0 s).1 = 0 ∧
    dup_inv k new0 old (dup_done_l2 a PAGE_L2_L3_NUM) Rm Rf
      (for_loop (page_table_dup_l2 old a) PAGE_L2_L3_NUM 0 s).2 := by
  have hshape := wf_l2_slot env.old_wf hold
  have hloop := for_loop_ok (page_table_dup_l2 old a)
    (fun b s => dup_inv k new0 old (dup_done_l2 a b) (l3_arrays_count (arr0.drop b) + Rm)
      ((l2_entries_list (arr0.drop b)).length + Rf) s ∧ ∃ arr, l2_slot s.2 a = some arr)
    PAGE_L2_L3_NUM
    (fun b s hb hi => dup_l2_step k new0 old env a ha arr0 hold Rm Rf b s hb hi)
    PAGE_L2_L3_NUM 0 s (by omega) ⟨by simpa using h, harr⟩
  rw [Nat.zero_add] at hloop
  generalize for_loop (page_table_dup_l2 old a) PAGE_L2_L3_NUM 0 s = res at hloop ⊢
  obtain ⟨h0, hinv, _⟩ := hloop
  have hd : List.drop PAGE_L2_L3_NUM arr0 = [] := List.drop_eq_nil_of_le (by omega)
  rw [hd] at hinv
  refine ⟨h0, ?_⟩
  simpa [l3_arrays_count, l2_entries_list] using hinv

/-- One round of the `l1` loop of `page_table_dup` keeps the invariant and
returns 0. -/
theorem dup_l1_step (k : Kernel) (new0 old : addrspace) (env : dup_env k old)
    (Rm Rf : Nat) (a : Nat) (s : Kernel × addrspace) (ha : a < PAGE_L1_NUM)
    (h : dup_inv k new0 old (dup_done_l1 a) (arrays_count (old.page_table.drop a) + Rm)
      ((pt_entries (old.page_table.drop a)).length + Rf) s) :
    (page_table_dup_l1 old a s).1 = 0 ∧
    dup_inv k new0 old (dup_done_l1 (a + 1))
      (arrays_count (old.page_table.drop (a + 1)) + Rm)
      ((pt_entries (old.page_table.drop (a + 1))).length + Rf) (page_table_dup_l1 old a s).2 := by
  have hlen := wf_length env.old_wf
  have halt : a < old.page_table.length := by omega
  have hsl : l2_slot old a = old.page_table[a] := by
    simp only [l2_slot]
    exact List.getD_eq_getElem _ _ halt
  have hdrop := List.drop_eq_getElem_cons halt
  generalize old.page_table[a] = t at hsl hdrop
  rw [hdrop] at h
  simp only [arrays_count, pt_entries, List.length_append] at h
  cases t with
  | none =>
    have hbody : page_table_dup_l1 old a s = (0, s) := by
      unfold page_table_dup_l1
      simp only [hsl, Option.isSome_none, Bool.false_eq_true, if_false]
    rw [hbody]
    refine ⟨rfl, ?_⟩
    apply dup_inv_weaken h
    · intro x y z _ _ _ hd hne
      unfold dup_done_l1 at hd ⊢
      by_cases heq : x = a
      · rw [heq, entry_at_of_l2_none old a y z hsl] at hne
        exact absurd rfl hne
      · omega
    · intro x y z _ _ _ hd
      left
      unfold dup_done_l1 at hd ⊢
      omega
    · simp [l2_arrays]
    · simp [l2_entries]
  | some arr0 =>
    simp only [l2_arrays, l2_entries] at h
    have hm := malloc_suffix_ok env.malloc_ok h.mallocs
    have hl1 : 1 ≤ s.1.kmalloc_ok.length := by
      have := h.malloc_budget
      omega
    obtain ⟨rest, hrest, hres⟩ := page_table_l2_init_ok s.1 s.2 a ha hm hl1
    have hbody : page_table_dup_l1 old a s =
        for_loop (page_table_dup_l2 old a) PAGE_L2_L3_NUM 0
          ({ s.1 with kmalloc_ok := rest },
           { s.2 with page_table :=
              s.2.page_table.set a (some (List.replicate PAGE_L2_L3_NUM { entries := none })) }) := by
      unfold page_table_dup_l1
      simp only [hsl, Option.isSome_some, if_true, hres]
      rfl
    rw [hbody]
    obtain ⟨hwf, hreg, hwr, ⟨um, hum⟩, hmb, hfb, ⟨used, hused, hmem, hdone⟩, hzero⟩ := h
    have hslen : a < s.2.page_table.length := by
      rw [wf_length hwf]; exact ha
    have hinv0 : dup_inv k new0 old (dup_done_l2 a 0)
        (l3_arrays_count arr0 + (arrays_count (old.page_table.drop (a + 1)) + Rm))
        ((l2_entries_list arr0).length + ((pt_entries (old.page_table.drop (a + 1))).length + Rf))
        ({ s.1 with kmalloc_ok := rest },
         { s.2 with page_table :=
            s.2.page_table.set a (some (List.replicate PAGE_L2_L3_NUM { entries := none })) }) := by
      refine ⟨wf_set_slot _ _ _ hwf l2_wf_fresh, hreg, hwr, ⟨um ++ [true], ?_⟩, ?_, ?_,
        ⟨used, hused, hmem, ?_⟩, ?_⟩
      · show k.kmalloc_ok = um ++ [true] ++ rest
        rw [hum, hrest]; simp
      · show _ ≤ rest.length
        rw [hrest] at hmb
        simp only [List.length_cons] at hmb
        omega
      · show _ ≤ s.1.kpages.length
        omega
      · intro x y z hx hy hz hd hne
        have hd' : dup_done_l1 a x y z := by
          unfold dup_done_l2 at hd
          unfold dup_done_l1
          omega
        obtain ⟨g, hg, hent, hcont⟩ := hdone x y z hx hy hz hd' hne
        refine ⟨g, hg, ?_, hcont⟩
        show entry_at _ x y z = _
        rw [entry_at_fresh_l2 _ _ _ _ _ hslen, if_neg (by unfold dup_done_l1 at hd'; omega)]
        exact hent
      · intro x y z hx hy hz hcase
        show entry_at _ x y z = 0
        rw [entry_at_fresh_l2 _ _ _ _ _ hslen]
        by_cases hxa : x = a
        · rw [if_pos hxa]
        · rw [if_neg hxa]
          apply hzero x y z hx hy hz
          rcases hcase with hcase | hcase
          · left
            intro hd
            apply hcase
            unfold dup_done_l1 at hd
            unfold dup_done_l2
            omega
          · exact Or.inr hcase
    have harr : ∃ arr, l2_slot
        ({ s.1 with kmalloc_ok := rest },
         { s.2 with page_table :=
            s.2.page_table.set a (some (List.replicate PAGE_L2_L3_NUM { entries := none })) }).2
        a = some arr := by
      refine ⟨List.replicate PAGE_L2_L3_NUM { entries := none }, ?_⟩
      show l2_slot { s.2 with page_table := _ } a = _
      rw [l2_slot_set, if_pos ⟨rfl, hslen⟩]
    have hloop := dup_l2_loop k new0 old env a ha arr0 hsl _ _ _ hinv0 harr
    generalize for_loop (page_table_dup_l2 old a) PAGE_L2_L3_NUM 0
      ({ s.1 with kmalloc_ok := rest },
       { s.2 with page_table :=
          s.2.page_table.set a (some (List.replicate PAGE_L2_L3_NUM { entries := none })) }) = res
      at hloop ⊢
    obtain ⟨h0, hinv⟩ := hloop
    refine ⟨h0, ?_⟩
    apply dup_inv_weaken hinv
    · intro x y z _ hy _ hd _
      unfold dup_done_l1 at hd
      unfold dup_done_l2
      omega
    · intro x y z _ hy _ hd
      left
      unfold dup_done_l2 at hd
      unfold dup_done_l1
      omega
    · exact Nat.le_refl _
    · exact Nat.le_refl _

/-- A page table with 256 empty Level-1 slots has the shape of the C types. -/
theorem wf_of_fresh (as : addrspace) (h : as.page_table = List.replicate PAGE_L1_NUM none) :
    as.wf = true := by
  simp only [addrspace.wf, h, List.length_replicate, beq_self_eq_true, Bool.true_and,
    List.all_eq_true]
  intro t ht
  rw [List.eq_of_mem_replicate ht]
  rfl

/-- A page table with 256 empty Level-1 slots maps nothing. -/
theorem entry_at_of_fresh (as : addrspace)
    (h : as.page_table = List.replicate PAGE_L1_NUM none) (x y z : Nat) :
    entry_at as x y z = 0 := by
  apply entry_at_of_l2_none
  unfold l2_slot
  rw [h, List.getD_eq_getElem?_getD]
  by_cases hx : x < PAGE_L1_NUM
  · rw [List.getElem?_eq_getElem (by simpa using hx)]
    simp
  · rw [List.getElem?_eq_none (by simpa using hx)]
    rfl

/-- The invariant of `page_table_dup` holds on entry for an empty destination
and oracles with enough room. -/
theorem dup_inv_init (k : Kernel) (new old : addrspace) (Rm Rf : Nat)
    (hfresh : new.page_table = List.replicate PAGE_L1_NUM none)
    (hm : arrays_count old.page_table + Rm ≤ k.kmalloc_ok.length)
    (hf : (mapped_entries old).length + Rf ≤ k.kpages.length) :
    dup_inv k new old (dup_done_l1 0) (arrays_count (old.page_table.drop 0) + Rm)
      ((pt_entries (old.page_table.drop 0)).length + Rf) (k, new) := by
  refine ⟨wf_of_fresh new hfresh, rfl, rfl, ⟨[], rfl⟩, ?_, ?_, ⟨[], rfl, fun _ _ => rfl, ?_⟩, ?_⟩
  · simpa using hm
  · simpa [mapped_entries] using hf
  · intro x y z _ _ _ hd
    unfold dup_done_l1 at hd
    omega
  · intro x y z _ _ _ _
    exact entry_at_of_fresh new hfresh x y z

/-- The loops of `page_table_dup` on an empty destination return 0 and leave
every source slot dealt with; `Rm` and `Rf` are what the oracles still hold
afterwards. -/
theorem page_table_dup_ok (k : Kernel) (new old : addrspace) (env : dup_env k old)
    (Rm Rf : Nat)
    (hfresh : new.page_table = List.replicate PAGE_L1_NUM none)
    (hm : arrays_count old.page_table + Rm ≤ k.kmalloc_ok.length)
    (hf : (mapped_entries old).length + Rf ≤ k.kpages.length) :
    (page_table_dup k new old).1 = 0 ∧
    dup_inv k new old (dup_done_l1 PAGE_L1_NUM) Rm Rf
      ((page_table_dup k new old).2.1, (page_table_dup k new old).2.2) := by
  have hloop := for_loop_ok (page_table_dup_l1 old)
    (fun a s => dup_inv k new old (dup_done_l1 a) (arrays_count (old.page_table.drop a) + Rm)
      ((pt_entries (old.page_table.drop a)).length + Rf) s)
    PAGE_L1_NUM
    (fun a s ha hi => dup_l1_step k new old env Rm Rf a s ha hi)
    PAGE_L1_NUM 0 (k, new) (by omega) (dup_inv_init k new old Rm Rf hfresh hm hf)
  rw [Nat.zero_add] at hloop
  unfold page_table_dup
  generalize for_loop (page_table_dup_l1 old) PAGE_L1_NUM 0 (k, new) = res at hloop ⊢
  obtain ⟨h0, hinv⟩ := hloop
  have hd : List.drop PAGE_L1_NUM old.page_table = [] :=
    List.drop_eq_nil_of_le (by rw [wf_length env.old_wf])
  rw [hd] at hinv
  refine ⟨h0, ?_⟩
  simpa [arrays_count, pt_entries] using hinv

/-- What the finished invariant of `page_table_dup` says about one virtual
address: a destination entry exists exactly where a source entry does; it
carries the source's dirty and valid bits and another frame, which holds the
bytes of the source frame; the source frame is untouched, and no byte of it is
a byte of the destination frame. -/
theorem dup_inv_lookup (k : Kernel) (new0 old : addrspace) (env : dup_env k old)
    (s : Kernel × addrspace)
    (hinv : dup_inv k new0 old (dup_done_l1 PAGE_L1_NUM) 0 0 s) (v : Nat) (hv : v < 2 ^ 32) :
    (page_table_lookup s.2 v ≠ 0 ↔ page_table_lookup old v ≠ 0) ∧
    (page_table_lookup old v ≠ 0 →
      page_table_lookup s.2 v &&& TLBLO_DIRTY = page_table_lookup old v &&& TLBLO_DIRTY ∧
      page_table_lookup s.2 v &&& TLBLO_VALID = page_table_lookup old v &&& TLBLO_VALID ∧
      page_table_lookup s.2 v &&& PAGE_FRAME ≠ page_table_lookup old v &&& PAGE_FRAME ∧
      (∀ j, j < 4096 →
        s.1.mem (PADDR_TO_KVADDR (page_table_lookup s.2 v &&& PAGE_FRAME) + j) =
          k.mem (PADDR_TO_KVADDR (page_table_lookup old v &&& PAGE_FRAME) + j)) ∧
      (∀ j, j < 4096 →
        s.1.mem (PADDR_TO_KVADDR (page_table_lookup old v &&& PAGE_FRAME) + j) =
          k.mem (PADDR_TO_KVADDR (page_table_lookup old v &&& PAGE_FRAME) + j)) ∧
      (∀ a b j, PADDR_TO_KVADDR (page_table_lookup old v &&& PAGE_FRAME) ≤ a →
        a < PADDR_TO_KVADDR (page_table_lookup old v &&& PAGE_FRAME) + 4096 → j < 4096 →
        Function.update s.1.mem a b
            (PADDR_TO_KVADDR (page_table_lookup s.2 v &&& PAGE_FRAME) + j) =
          s.1.mem (PADDR_TO_KVADDR (page_table_lookup s.2 v &&& PAGE_FRAME) + j))) := by
  rw [page_table_lookup_eq_entry_at s.2 v, page_table_lookup_eq_entry_at old v]
  have hx := get_l1_index_lt v hv
  have hy := get_l2_index_lt v
  have hz := get_l3_index_lt v
  generalize get_l1_index v = x at hx ⊢
  generalize get_l2_index v = y at hy ⊢
  generalize get_l3_index v = z at hz ⊢
  obtain ⟨_, _, _, _, _, _, ⟨used, hused, hmem, hdone⟩, hzero⟩ := hinv
  by_cases he : entry_at old x y z = 0
  · have hd := hzero x y z hx hy hz (Or.inr he)
    rw [hd, he]
    exact ⟨Iff.rfl, fun h => absurd rfl h⟩
  · obtain ⟨f, hf, hent, hcont⟩ := hdone x y z hx hy hz hx he
    have hfk : f ∈ k.kpages := by
      rw [hused]; exact List.mem_append_left _ hf
    obtain ⟨hg1, hg2, hg3⟩ := env.good f hfk
    obtain ⟨_, hp1, hp2, hp3, hp4⟩ := paddr_of_good f hg1 hg2 hg3
    have hne := env.unref f hfk _ (entry_at_mem_mapped old x y z he)
    have hfr := dup_entry_frame f (entry_at old x y z) hp1 hp3
    have hal := old_frame_aligned (entry_at old x y z)
    have hfa : f % 4096 = 0 := hg1
    rw [hent, hfr, hp4]
    refine ⟨⟨fun _ => he, fun _ => dup_entry_ne_zero f _ hp1 hp2⟩, fun _ =>
      ⟨dup_entry_dirty f _ hp1, dup_entry_valid f _ hp1, ?_, hcont, ?_, ?_⟩⟩
    · intro hc
      apply hne
      rw [← hc, hp4]
    · intro j hj
      apply hmem
      intro g hg
      have hgk : g ∈ k.kpages := by
        rw [hused]; exact List.mem_append_left _ hg
      exact frames_disjoint g _ j (env.good g hgk).1
        hal (env.unref g hgk _ (entry_at_mem_mapped old x y z he)) hj
    · intro a b j ha1 ha2 hj
      apply Function.update_noteq
      have := frames_disjoint _ f j hal hfa (Ne.symm hne) hj
      omega

/-- One round of the `l3` loop of `page_table_dup` returns 0 when every
allocation succeeds. -/
theorem dup_ok_l3_step (k : Kernel) (new0 old : addrspace) (env : dup_alloc_env k old)
    (a b : Nat) (oents : List Nat) (hold : l3_slot old a b = some oents)
    (Rm Rf : Nat) (c : Nat) (s : Kernel × addrspace) (hc : c < PAGE_L2_L3_NUM)
    (h : dup_ok_inv k new0 Rm
      (((oents.drop c).filter (fun e => decide (e ≠ 0))).length + Rf) s ∧
      l3_ready s.2 a b) :
    (page_table_dup_l3 old a b c s).1 = 0 ∧
    (dup_ok_inv k new0 Rm
      (((oents.drop (c + 1)).filter (fun e => decide (e ≠ 0))).length + Rf)
      (page_table_dup_l3 old a b c s).2 ∧
      l3_ready (page_table_dup_l3 old a b c s).2.2 a b) := by
  obtain ⟨h, hr⟩ := h
  have holen : oents.length = PAGE_L2_L3_NUM := l3_slot_length env.old_wf hold
  have hclt : c < oents.length := by omega
  have he : entry_at old a b c = oents[c] := by
    simp only [entry_at, hold]
    exact List.getD_eq_getElem _ _ hclt
  have hdrop := List.drop_eq_getElem_cons hclt
  generalize oents[c] = e at he hdrop
  obtain ⟨hwf, hreg, hwr, hmal, hmb, hfb, ⟨used, hused⟩⟩ := h
  by_cases hz : e = 0
  · have hbody : page_table_dup_l3 old a b c s = (0, s) := by
      unfold page_table_dup_l3
      simp only [he, hz, ne_eq, not_true_eq_false, if_false]
    rw [hbody]
    rw [hdrop, List.filter_cons_of_neg (by simpa using hz)] at hfb
    exact ⟨rfl, ⟨hwf, hreg, hwr, hmal, hmb, hfb, ⟨used, hused⟩⟩, hr⟩
  · rw [hdrop, List.filter_cons_of_pos (by simpa using hz), List.length_cons] at hfb
    cases hkp : s.1.kpages with
    | nil => rw [hkp] at hfb; simp at hfb
    | cons f rest =>
      rw [hkp] at hused hfb
      have hfmem : f ∈ k.kpages := by rw [hused]; simp
      have hf0 : f ≠ 0 := env.frames_ok f hfmem
      have hbody : page_table_dup_l3 old a b c s =
          (0, (memmove { s.1 with kpages := rest } f
            (PADDR_TO_KVADDR (e &&& PAGE_FRAME)) PAGE_SIZE,
            set_entry s.2 a b c (dup_entry f e))) := by
        unfold page_table_dup_l3
        simp only [he, alloc_kpages, hkp]
        rw [if_pos hz, if_neg hf0]
        rfl
      rw [hbody]
      refine ⟨rfl, ⟨wf_set_entry _ _ _ _ _ hwf, (set_entry_writable _ _ _ _ _).2.trans hreg,
        (set_entry_writable _ _ _ _ _).1.trans hwr, hmal, hmb, ?_,
        ⟨used ++ [f], ?_⟩⟩, l3_ready_set_entry _ _ _ _ _ hr⟩
      · show _ ≤ rest.length
        simp only [List.length_cons] at hfb
        omega
      · show k.kpages = (used ++ [f]) ++ rest
        rw [hused]; simp

/-- The `l3` loop of `page_table_dup` returns 0 when every allocation
succeeds. -/
theorem dup_ok_l3_loop (k : Kernel) (new0 old : addrspace) (env : dup_alloc_env k old)
    (a b : Nat) (oents : List Nat) (hold : l3_slot old a b = some oents)
    (Rm Rf : Nat) (s : Kernel × addrspace)
    (h : dup_ok_inv k new0 Rm ((oents.filter (fun e => decide (e ≠ 0))).length + Rf) s)
    (hr : l3_ready s.2 a b) :
    (for_loop (page_table_dup_l3 old a b) PAGE_L2_L3_NUM 0 s).1 = 0 ∧
    dup_ok_inv k new0 Rm Rf (for_loop (page_table_dup_l3 old a b) PAGE_L2_L3_NUM 0 s).2 ∧
    l3_ready (for_loop (page_table_dup_l3 old a b) PAGE_L2_L3_NUM 0 s).2.2 a b := by
  have holen : oents.length = PAGE_L2_L3_NUM := l3_slot_length env.old_wf hold
  have hloop := for_loop_ok (page_table_dup_l3 old a b)
    (fun c s => dup_ok_inv k new0 Rm
      (((oents.drop c).filter (fun e => decide (e ≠ 0))).length + Rf) s ∧ l3_ready s.2 a b)
    PAGE_L2_L3_NUM
    (fun c s hc hi => dup_ok_l3_step k new0 old env a b oents hold Rm Rf c s hc hi)
    PAGE_L2_L3_NUM 0 s (by omega) ⟨by simpa using h, hr⟩
  rw [Nat.zero_add] at hloop
  generalize for_loop (page_table_dup_l3 old a b) PAGE_L2_L3_NUM 0 s = res at hloop ⊢
  obtain ⟨h0, hinv, hready⟩ := hloop
  have hd : List.drop PAGE_L2_L3_NUM oents = [] := List.drop_eq_nil_of_le (by omega)
  rw [hd] at hinv
  refine ⟨h0, ?_, hready⟩
  simpa using hinv

/-- One round of the `l2` loop of `page_table_dup` returns 0 when every
allocation succeeds. -/
theorem dup_ok_l2_step (k : Kernel) (new0 old : addrspace) (env : dup_alloc_env k old)
    (a : Nat) (ha : a < PAGE_L1_NUM) (arr0 : List addrspace_l3)
    (hold : l2_slot old a = some arr0)
    (Rm Rf : Nat) (b : Nat) (s : Kernel × addrspace) (hb : b < PAGE_L2_L3_NUM)
    (h : dup_ok_inv k new0 (l3_arrays_count (arr0.drop b) + Rm)
      ((l2_entries_list (arr0.drop b)).length + Rf) s ∧
      ∃ arr, l2_slot s.2 a = some arr) :
    (page_table_dup_l2 old a b s).1 = 0 ∧
    (dup_ok_inv k new0 (l3_arrays_count (arr0.drop (b + 1)) + Rm)
      ((l2_entries_list (arr0.drop (b + 1))).length + Rf) (page_table_dup_l2 old a b s).2 ∧
      ∃ arr, l2_slot (page_table_dup_l2 old a b s).2.2 a = some arr) := by
  obtain ⟨h, arr, harr⟩ := h
  have hshape := wf_l2_slot env.old_wf hold
  have hblt : b < arr0.length := by omega
  have hslot : l3_slot old a b = (arr0[b]).entries := by
    simp only [l3_slot, hold]
    rw [List.getD_eq_getElem _ _ hblt]
  have hdrop := List.drop_eq_getElem_cons hblt
  generalize arr0[b] = sl at hslot hdrop
  rw [hdrop] at h
  simp only [l3_arrays_count, l2_entries_list, List.length_append] at h
  cases hse : sl.entries with
  | none =>
    rw [hse] at hslot
    have hbody : page_table_dup_l2 old a b s = (0, s) := by
      unfold page_table_dup_l2
      simp only [hslot, Option.isSome_none, Bool.false_eq_true, if_false]
    rw [hbody]
    simp only [hse, Option.isSome_none, Bool.false_eq_true, if_false, l3_entries,
      List.length_nil, Nat.zero_add] at h
    exact ⟨rfl, h, ⟨arr, harr⟩⟩
  | some oents =>
    rw [hse] at hslot
    simp only [hse, Option.isSome_some, if_true, l3_entries] at h
    have hm := malloc_suffix_ok env.malloc_ok h.mallocs
    have hl1 : 1 ≤ s.1.kmalloc_ok.length := by
      have := h.malloc_budget
      omega
    have hinit := page_table_l3_init_ok s.1 s.2 a b h.wf ha hb arr harr hm hl1
    have hbody : page_table_dup_l2 old a b s =
        for_loop (page_table_dup_l3 old a b) PAGE_L2_L3_NUM 0
          ((page_table_l3_init s.1 s.2 a b).2.1, (page_table_l3_init s.1 s.2 a b).2.2) := by
      unfold page_table_dup_l2
      simp only [hslot, Option.isSome_some, if_true]
      rw [if_neg (not_not.mpr hinit.1)]
    rw [hbody]
    generalize page_table_l3_init s.1 s.2 a b = r at hinit
    obtain ⟨_, rwf, rready, _, rreg, rwr, ⟨u, hu, hul⟩, rkp, _⟩ := hinit
    obtain ⟨hwf, hreg, hwr, ⟨um, hum⟩, hmb, hfb, ⟨used, hused⟩⟩ := h
    have hlenu : s.1.kmalloc_ok.length = u.length + r.2.1.kmalloc_ok.length := by
      rw [hu, List.length_append]
    have hinv0 : dup_ok_inv k new0 (l3_arrays_count (arr0.drop (b + 1)) + Rm)
        ((oents.filter (fun e => decide (e ≠ 0))).length +
          ((l2_entries_list (arr0.drop (b + 1))).length + Rf)) (r.2.1, r.2.2) := by
      refine ⟨rwf, rreg.trans hreg, rwr.trans hwr, ⟨um ++ u, ?_⟩, ?_, ?_, ⟨used, ?_⟩⟩
      · show k.kmalloc_ok = um ++ u ++ r.2.1.kmalloc_ok
        rw [hum, hu, List.append_assoc]
      · show _ ≤ r.2.1.kmalloc_ok.length
        omega
      · show _ ≤ r.2.1.kpages.length
        rw [rkp]
        omega
      · show k.kpages = used ++ r.2.1.kpages
        rw [rkp]; exact hused
    have hloop := dup_ok_l3_loop k new0 old env a b oents hslot _ _ (r.2.1, r.2.2) hinv0 rready
    generalize for_loop (page_table_dup_l3 old a b) PAGE_L2_L3_NUM 0 (r.2.1, r.2.2) = res
      at hloop ⊢
    obtain ⟨h0, hinv, hready⟩ := hloop
    obtain ⟨arr', _, harr', _⟩ := hready
    exact ⟨h0, hinv, ⟨arr', harr'⟩⟩

/-- The `l2` loop of `page_table_dup` returns 0 when every allocation
succeeds. -/
theorem dup_ok_l2_loop (k : Kernel) (new0 old : addrspace) (env : dup_alloc_env k old)
    (a : Nat) (ha : a < PAGE_L1_NUM) (arr0 : List addrspace_l3)
    (hold : l2_slot old a = some arr0)
    (Rm Rf : Nat) (s : Kernel × addrspace)
    (h : dup_ok_inv k new0 (l3_arrays_count arr0 + Rm) ((l2_entries_list arr0).length + Rf) s)
    (harr : ∃ arr, l2_slot s.2 a = some arr) :
    (for_loop (page_table_dup_l2 old a) PAGE_L2_L3_NUM 0 s).1 = 0 ∧
    dup_ok_inv k new0 Rm Rf (for_loop (page_table_dup_l2 old a) PAGE_L2_L3_NUM 0 s).2 := by
  have hshape := wf_l2_slot env.old_wf hold
  have hloop := for_loop_ok (page_table_dup_l2 old a)
    (fun b s => dup_ok_inv k new0 (l3_arrays_count (arr0.drop b) + Rm)
      ((l2_entries_list (arr0.drop b)).length + Rf) s ∧ ∃ arr, l2_slot s.2 a = some arr)
    PAGE_L2_L3_NUM
    (fun b s hb hi => dup_ok_l2_step k new0 old env a ha arr0 hold Rm Rf b s hb hi)
    PAGE_L2_L3_NUM 0 s (by omega) ⟨by simpa using h, harr⟩
  rw [Nat.zero_add] at hloop
  generalize for_loop (page_table_dup_l2 old a) PAGE_L2_L3_NUM 0 s = res at hloop ⊢
  obtain ⟨h0, hinv, _⟩ := hloop
  have hd : List.drop PAGE_L2_L3_NUM arr0 = [] := List.drop_eq_nil_of_le (by omega)
  rw [hd] at hinv
  refine ⟨h0, ?_⟩
  simpa [l3_arrays_count, l2_entries_list] using hinv

/-- One round of the `l1` loop of `page_table_dup` returns 0 when every
allocation succeeds. -/
theorem dup_ok_l1_step (k : Kernel) (new0 old : addrspace) (env : dup_alloc_env k old)
    (Rm Rf : Nat) (a : Nat) (s : Kernel × addrspace) (ha : a < PAGE_L1_NUM)
    (h : dup_ok_inv k new0 (arrays_count (old.page_table.drop a) + Rm)
      ((pt_entries (old.page_table.drop a)).length + Rf) s) :
    (page_table_dup_l1 old a s).1 = 0 ∧
    dup_ok_inv k new0 (arrays_count (old.page_table.drop (a + 1)) + Rm)
      ((pt_entries (old.page_table.drop (a + 1))).length + Rf) (page_table_dup_l1 old a s).2 := by
  have hlen := wf_length env.old_wf
  have halt : a < old.page_table.length := by omega
  have hsl : l2_slot old a = old.page_table[a] := by
    simp only [l2_slot]
    exact List.getD_eq_getElem _ _ halt
  have hdrop := List.drop_eq_getElem_cons halt
  generalize old.page_table[a] = t at hsl hdrop
  rw [hdrop] at h
  simp only [arrays_count, pt_entries, List.length_append] at h
  cases t with
  | none =>
    have hbody : page_table_dup_l1 old a s = (0, s) := by
      unfold page_table_dup_l1
      simp only [hsl, Option.isSome_none, Bool.false_eq_true, if_false]
    rw [hbody]
    simp only [l2_arrays, l2_entries, List.length_nil, Nat.zero_add] at h
    exact ⟨rfl, h⟩
  | some arr0 =>
    simp only [l2_arrays, l2_entries] at h
    have hm := malloc_suffix_ok env.malloc_ok h.mallocs
    have hl1 : 1 ≤ s.1.kmalloc_ok.length := by
      have := h.malloc_budget
      omega
    obtain ⟨rest, hrest, hres⟩ := page_table_l2_init_ok s.1 s.2 a ha hm hl1
    have hbody : page_table_dup_l1 old a s =
        for_loop (page_table_dup_l2 old a) PAGE_L2_L3_NUM 0
          ({ s.1 with kmalloc_ok := rest },
           { s.2 with page_table :=
              s.2.page_table.set a (some (List.replicate PAGE_L2_L3_NUM { entries := none })) }) := by
      unfold page_table_dup_l1
      simp only [hsl, Option.isSome_some, if_true, hres]
      rfl
    rw [hbody]
    obtain ⟨hwf, hreg, hwr, ⟨um, hum⟩, hmb, hfb, ⟨used, hused⟩⟩ := h
    have hslen : a < s.2.page_table.length := by
      rw [wf_length hwf]; exact ha
    have hinv0 : dup_ok_inv k new0
        (l3_arrays_count arr0 + (arrays_count (old.page_table.drop (a + 1)) + Rm))
        ((l2_entries_list arr0).length + ((pt_entries (old.page_table.drop (a + 1))).length + Rf))
        ({ s.1 with kmalloc_ok := rest },
         { s.2 with page_table :=
            s.2.page_table.set a (some (List.replicate PAGE_L2_L3_NUM { entries := none })) }) := by
      refine ⟨wf_set_slot _ _ _ hwf l2_wf_fresh, hreg, hwr, ⟨um ++ [true], ?_⟩, ?_, ?_,
        ⟨used, hused⟩⟩
      · show k.kmalloc_ok = um ++ [true] ++ rest
        rw [hum, hrest]; simp
      · show _ ≤ rest.length
        rw [hrest] at hmb
        simp only [List.length_cons] at hmb
        omega
      · show _ ≤ s.1.kpages.length
        omega
    have harr : ∃ arr, l2_slot
        ({ s.1 with kmalloc_ok := rest },
         { s.2 with page_table :=
            s.2.page_table.set a (some (List.replicate PAGE_L2_L3_NUM { entries := none })) }).2
        a = some arr := by
      refine ⟨List.replicate PAGE_L2_L3_NUM { entries := none }, ?_⟩
      show l2_slot { s.2 with page_table := _ } a = _
      rw [l2_slot_set, if_pos ⟨rfl, hslen⟩]
    exact dup_ok_l2_loop k new0 old env a ha arr0 hsl _ _ _ hinv0 harr

/-- The loops of `page_table_dup` on an empty destination return 0 when every
allocation succeeds; the destination keeps its region list and flag, and the
`kmalloc` oracle is left with at least `Rm` outcomes, all successes. -/
theorem page_table_dup_returns_zero (k : Kernel) (new old : addrspace)
    (env : dup_alloc_env k old) (Rm : Nat)
    (hfresh : new.page_table = List.replicate PAGE_L1_NUM none)
    (hm : arrays_count old.page_table + Rm ≤ k.kmalloc_ok.length)
    (hf : (mapped_entries old).length ≤ k.kpages.length) :
    (page_table_dup k new old).1 = 0 ∧
    (page_table_dup k new old).2.2.regions = new.regions ∧
    (page_table_dup k new old).2.2.writable = new.writable ∧
    (∀ b ∈ (page_table_dup k new old).2.1.kmalloc_ok, b = true) ∧
    Rm ≤ (page_table_dup k new old).2.1.kmalloc_ok.length := by
  have hinit : dup_ok_inv k new (arrays_count (old.page_table.drop 0) + Rm)
      ((pt_entries (old.page_table.drop 0)).length + 0) (k, new) :=
    ⟨wf_of_fresh new hfresh, rfl, rfl, ⟨[], rfl⟩, by simpa using hm,
      by simpa [mapped_entries] using hf, ⟨[], rfl⟩⟩
  have hloop := for_loop_ok (page_table_dup_l1 old)
    (fun a s => dup_ok_inv k new (arrays_count (old.page_table.drop a) + Rm)
      ((pt_entries (old.page_table.drop a)).length + 0) s)
    PAGE_L1_NUM
    (fun a s ha hi => dup_ok_l1_step k new old env Rm 0 a s ha hi)
    PAGE_L1_NUM 0 (k, new) (by omega) hinit
  rw [Nat.zero_add] at hloop
  unfold page_table_dup
  generalize for_loop (page_table_dup_l1 old) PAGE_L1_NUM 0 (k, new) = res at hloop ⊢
  obtain ⟨h0, hinv⟩ := hloop
  have hd : List.drop PAGE_L1_NUM old.page_table = [] :=
    List.drop_eq_nil_of_le (by rw [wf_length env.old_wf])
  rw [hd] at hinv
  simp only [arrays_count, Nat.zero_add] at hinv
  exact ⟨h0, hinv.regions, hinv.writable, malloc_suffix_ok env.malloc_ok hinv.mallocs,
    hinv.malloc_budget⟩

/-- With `kmalloc` succeeding, `region_dup` of a node returns a node with the
same three attributes and sets `*ret` to 0. -/
theorem region_dup_ok (k : Kernel) (node : region) (tl : List region) (ret : Nat)
    (hm : ∀ b ∈ k.kmalloc_ok, b = true) (hlen : 1 ≤ k.kmalloc_ok.length) :
    ∃ rest, k.kmalloc_ok = true :: rest ∧
      region_dup k (node :: tl) ret = (some node, 0, { k with kmalloc_ok := rest }) := by
  cases hk : k.kmalloc_ok with
  | nil => rw [hk] at hlen; simp at hlen
  | cons ok rest =>
    have hok : ok = true := hm ok (by rw [hk]; exact List.mem_cons_self _ _)
    subst hok
    refine ⟨rest, rfl, ?_⟩
    simp only [region_dup, kmalloc, hk]

/-- With `kmalloc` succeeding, the loop of `as_copy` entered with a node `t`
for the head of the source list appends a copy of every further source node
and returns 0. -/
theorem as_copy_walk_ok (rest : List region) :
    ∀ (node : region) (pre : List region) (t : region) (k : Kernel) (err : Nat),
      (∀ b ∈ k.kmalloc_ok, b = true) → rest.length ≤ k.kmalloc_ok.length →
      ∃ k1, as_copy_walk err k (node :: rest) pre (some t) = some (0, k1, pre ++ t :: rest) := by
  induction rest with
  | nil =>
    intro node pre t k err _ _
    exact ⟨k, rfl⟩
  | cons n2 rest1 ih =>
    intro node pre t k err hm hlen
    obtain ⟨r, hr, hdup⟩ := region_dup_ok k n2 rest1 err hm
      (by simp only [List.length_cons] at hlen; omega)
    have hm1 : ∀ b ∈ r, b = true := fun b hb => hm b (by rw [hr]; exact List.mem_cons_of_mem _ hb)
    have hlen1 : rest1.length ≤ r.length := by
      rw [hr] at hlen
      simp only [List.length_cons] at hlen
      omega
    obtain ⟨k1, hk1⟩ := ih n2 (pre ++ [t]) n2 { k with kmalloc_ok := r } 0 hm1 hlen1
    refine ⟨k1, ?_⟩
    rw [as_copy_walk]
    simp only [hdup, ne_eq, not_true_eq_false, if_false]
    rw [hk1]
    simp

/-! ## What an insert leaves alone -/

/-- A successful `page_table_l2_init` on an absent Level-1 slot changes no
entry: every entry below the slot read 0 before and reads 0 after. -/
theorem entry_at_l2_init (k : Kernel) (as : addrspace) (l1 : Nat)
    (hwf : as.wf = true) (hl1 : l1 < PAGE_L1_NUM) (hnone : l2_slot as l1 = none)
    (hret : (page_table_l2_init k as l1).1 = 0) (x y z : Nat) :
    entry_at (page_table_l2_init k as l1).2.2 x y z = entry_at as x y z := by
  unfold page_table_l2_init at hret ⊢
  rw [if_neg (by omega)] at hret ⊢
  cases hk : kmalloc k with
  | mk ok k1 =>
    cases ok with
    | false => simp [hk, ENOMEM] at hret
    | true =>
      simp only [hk]
      rw [entry_at_fresh_l2 _ _ _ _ _ (by rw [wf_length hwf]; exact hl1)]
      by_cases hx : x = l1
      · rw [if_pos hx, hx, entry_at_of_l2_none as l1 y z hnone]
      · rw [if_neg hx]

/-- The first step of `page_table_insert` (create the Level-2 array if absent)
changes no entry when it succeeds. -/
theorem entry_at_l2_step (k : Kernel) (as : addrspace) (l1 : Nat)
    (hwf : as.wf = true) (hl1 : l1 < PAGE_L1_NUM)
    (hret : (if (l2_slot as l1).isNone then page_table_l2_init k as l1 else (0, k, as)).1 = 0)
    (x y z : Nat) :
    entry_at (if (l2_slot as l1).isNone then page_table_l2_init k as l1 else (0, k, as)).2.2
      x y z = entry_at as x y z := by
  cases h : l2_slot as l1 with
  | some a => simp only [h, Option.isNone_some, Bool.false_eq_true, if_false]
  | none =>
    simp only [h, Option.isNone_none, if_true] at hret ⊢
    exact entry_at_l2_init k as l1 hwf hl1 h hret x y z

/-- The second step of `page_table_insert` (create the Level-3 array if absent)
changes no entry when it succeeds: the entries of a new array are 0, as the
absent array read. -/
theorem entry_at_l3_step (k : Kernel) (as : addrspace) (l1 l2 : Nat)
    (hr : l2_ready as l1) (hl1 : l1 < PAGE_L1_NUM) (hl2 : l2 < PAGE_L2_L3_NUM)
    (hret : (if (l3_slot as l1 l2).isNone then page_table_l3_init k as l1 l2
      else (0, k, as)).1 = 0) (x y z : Nat) :
    entry_at (if (l3_slot as l1 l2).isNone then page_table_l3_init k as l1 l2
      else (0, k, as)).2.2 x y z = entry_at as x y z := by
  obtain ⟨a, ha, hlen, _⟩ := hr
  cases h : l3_slot as l1 l2 with
  | some ents => simp only [h, Option.isNone_some, Bool.false_eq_true, if_false]
  | none =>
    simp only [h, Option.isNone_none, if_true] at hret ⊢
    unfold page_table_l3_init at hret ⊢
    rw [if_neg (by omega)] at hret ⊢
    simp only [ha, Option.isNone_some, Bool.false_eq_true, if_false, ne_eq, not_true_eq_false,
      h, Option.isSome_none] at hret ⊢
    cases hk : kmalloc k with
    | mk ok k1 =>
      cases ok with
      | false => simp [hk, ENOMEM] at hret
      | true =>
        simp only [hk]
        unfold entry_at
        rw [l3_slot_set_entries as l1 l2 x y _ a ha (by omega)]
        by_cases hxy : x = l1 ∧ y = l2
        · rw [if_pos hxy, hxy.1, hxy.2, h]
          simp only
          rw [List.getD_eq_getElem?_getD, List.getElem?_replicate]
          by_cases hz : z < PAGE_L2_L3_NUM
          · simp [hz]
          · simp [hz]
        · rw [if_neg hxy]

/-- On a well-formed address space an insert can only return 0 for an address
whose Level-1 index is in range. -/
theorem insert_index_lt (k : Kernel) (as : addrspace) (addr e : Nat)
    (hwf : as.wf = true) (hret : (page_table_insert k as addr e).1 = 0) :
    get_l1_index addr < PAGE_L1_NUM := by
  by_contra hc
  have hnone : l2_slot as (get_l1_index addr) = none := by
    unfold l2_slot
    rw [List.getD_eq_getElem?_getD, List.getElem?_eq_none (by rw [wf_length hwf]; omega)]
    rfl
  have hge : get_l1_index addr ≥ PAGE_L1_NUM := Nat.le_of_not_lt hc
  have hinit : page_table_l2_init k as (get_l1_index addr) = (1, k, as) := by
    unfold page_table_l2_init
    rw [if_pos hge]
  unfold page_table_insert at hret
  simp only [hnone, Option.isNone_none, if_true, hinit] at hret
  simp at hret

/-- After a successful insert on a well-formed address space every entry reads
as before, except the one of the inserted address, which reads `e`. -/
theorem entry_at_after_insert (k : Kernel) (as : addrspace) (addr e : Nat)
    (hwf : as.wf = true) (hret : (page_table_insert k as addr e).1 = 0) (x y z : Nat) :
    entry_at (page_table_insert k as addr e).2.2 x y z =
      if x = get_l1_index addr ∧ y = get_l2_index addr ∧ z = get_l3_index addr then e
      else entry_at as x y z := by
  have hl1 : get_l1_index addr < PAGE_L1_NUM := insert_index_lt k as addr e hwf hret
  have hl2 : get_l2_index addr < PAGE_L2_L3_NUM := get_l2_index_lt addr
  have hl3 : get_l3_index addr < PAGE_L2_L3_NUM := get_l3_index_lt addr
  unfold page_table_insert at hret ⊢
  simp only at hret ⊢
  have hstep1 := entry_at_l2_step k as (get_l1_index addr) hwf hl1
  have hready1 := l2_ready_of_init k as (get_l1_index addr) hwf hl1
  generalize (if (l2_slot as (get_l1_index addr)).isNone then
    page_table_l2_init k as (get_l1_index addr) else (0, k, as)) = r1 at hret hstep1 hready1 ⊢
  by_cases h1 : r1.1 = 0
  · rw [if_neg (not_not.mpr h1)] at hret ⊢
    have hstep2 := entry_at_l3_step r1.2.1 r1.2.2 (get_l1_index addr) (get_l2_index addr)
      (hready1 h1) hl1 hl2
    have hready2 := l3_ready_of_init r1.2.1 r1.2.2 (get_l1_index addr) (get_l2_index addr)
      (hready1 h1) hl1 hl2
    generalize (if (l3_slot r1.2.2 (get_l1_index addr) (get_l2_index addr)).isNone then
      page_table_l3_init r1.2.1 r1.2.2 (get_l1_index addr) (get_l2_index addr)
      else (0, r1.2.1, r1.2.2)) = r2 at hret hstep2 hready2 ⊢
    by_cases h2 : r2.1 = 0
    · rw [if_neg (not_not.mpr h2)]
      show entry_at (set_entry r2.2.2 _ _ _ e) x y z = _
      rw [entry_at_set_entry _ _ _ _ _ _ _ _ (hready2 h2) hl3, hstep2 h2, hstep1 h1]
    · rw [if_pos h2] at hret
      exact absurd hret h2
  · rw [if_pos h1] at hret
    exact absurd hret h1

/-- An insert leaves the region list as it is. -/
theorem page_table_insert_regions (k : Kernel) (as : addrspace) (a e : Nat) :
    (page_table_insert k as a e).2.2.regions = as.regions := by
  unfold page_table_insert
  simp only
  have h1 : (if (l2_slot as (get_l1_index a)).isNone then page_table_l2_init k as (get_l1_index a)
      else (0, k, as)).2.2.regions = as.regions := by
    split
    · exact (page_table_l2_init_writable k as _).2
    · rfl
  generalize (if (l2_slot as (get_l1_index a)).isNone then
    page_table_l2_init k as (get_l1_index a) else (0, k, as)) = r1 at h1 ⊢
  split
  · exact h1
  · have h2 : (if (l3_slot r1.2.2 (get_l1_index a) (get_l2_index a)).isNone then
        page_table_l3_init r1.2.1 r1.2.2 (get_l1_index a) (get_l2_index a)
        else (0, r1.2.1, r1.2.2)).2.2.regions = r1.2.2.regions := by
      split
      · exact (page_table_l3_init_writable _ _ _ _).2
      · rfl
    generalize (if (l3_slot r1.2.2 (get_l1_index a) (get_l2_index a)).isNone then
      page_table_l3_init r1.2.1 r1.2.2 (get_l1_index a) (get_l2_index a)
      else (0, r1.2.1, r1.2.2)) = r2 at h2 ⊢
    split
    · exact h2.trans h1
    · exact ((set_entry_writable _ _ _ _ _).2.trans h2).trans h1

/-! ## Faults that return 0 -/

/-- The fault types `check_faulttype` accepts are read and write. -/
theorem check_faulttype_eq_zero (faulttype : Int) (h : check_faulttype faulttype = 0) :
    faulttype = VM_FAULT_READ ∨ faulttype = VM_FAULT_WRITE := by
  unfold check_faulttype at h
  by_cases h1 : faulttype = VM_FAULT_READONLY
  · rw [if_pos h1] at h
    exact absurd h (by decide)
  · rw [if_neg h1] at h
    by_cases h2 : faulttype ≠ VM_FAULT_READ ∧ faulttype ≠ VM_FAULT_WRITE
    · rw [if_pos h2] at h
      exact absurd h (by decide)
    · by_cases h3 : faulttype = VM_FAULT_READ
      · exact Or.inl h3
      · by_cases h4 : faulttype = VM_FAULT_WRITE
        · exact Or.inr h4
        · exact absurd ⟨h3, h4⟩ h2

/-- A fault that returns 0 was a read or write fault at a non-zero user
address. -/
theorem vm_fault_zero_args (k : Kernel) (as : addrspace) (faulttype : Int) (addr : Nat)
    (hret : (vm_fault k (some as) faulttype addr).1 = 0) :
    addr ≠ 0 ∧ addr < 0x80000000 ∧
      (faulttype = VM_FAULT_READ ∨ faulttype = VM_FAULT_WRITE) := by
  have hrange : ¬ (addr = 0x0 ∨ addr ≥ 0x80000000) := by
    intro h
    unfold vm_fault at hret
    simp only [if_pos h] at hret
    exact absurd hret (by decide)
  refine ⟨by omega, by omega, ?_⟩
  apply check_faulttype_eq_zero
  by_contra hc
  unfold vm_fault at hret
  simp only [if_neg hrange, ne_eq, hc, not_false_eq_true, if_true] at hret

/-- A fault on a page with a valid entry takes no frame and leaves the address
space as it is, whatever its type and outcome. -/
theorem vm_fault_valid_no_alloc (k : Kernel) (as : addrspace) (faulttype : Int) (addr : Nat)
    (hvalid : page_table_lookup as addr &&& TLBLO_VALID ≠ 0) :
    (vm_fault k (some as) faulttype addr).2.1.kpages = k.kpages ∧
    (vm_fault k (some as) faulttype addr).2.2 = some as := by
  unfold vm_fault
  simp only
  by_cases hrange : addr = 0x0 ∨ addr ≥ 0x80000000
  · rw [if_pos hrange]
    exact ⟨rfl, rfl⟩
  · rw [if_neg hrange]
    by_cases herr : check_faulttype faulttype ≠ 0
    · rw [if_pos herr]
      exact ⟨rfl, rfl⟩
    · rw [if_neg herr]
      simp only [hvalid, ne_eq, not_false_eq_true, if_true]
      split
      · exact ⟨rfl, rfl⟩
      · exact ⟨rfl, rfl⟩

/-! ## Theorems for the claims -/

/-- C1: for every 32-bit address `a` the three indices are below 256, 64 and
64, the word `(l1 << 24) | (l2 << 18) | (l3 << 12)` is `a` with its low 12
bits cleared, and two 32-bit addresses have the same index triple exactly when
they lie in the same 4096-byte page. -/
theorem index_split_determines_page (a : Nat) (ha : a < 2 ^ 32) :
    get_l1_index a < 256 ∧ get_l2_index a < 64 ∧ get_l3_index a < 64 ∧
    ((get_l1_index a <<< 24) ||| (get_l2_index a <<< 18) ||| (get_l3_index a <<< 12))
      = a - a % 4096 ∧
    ∀ b, b < 2 ^ 32 →
      ((get_l1_index a = get_l1_index b ∧ get_l2_index a = get_l2_index b ∧
          get_l3_index a = get_l3_index b) ↔ a / 4096 = b / 4096) := by
  refine ⟨get_l1_index_lt a ha, get_l2_index_lt a, get_l3_index_lt a, ?_, ?_⟩
  · rw [or_fields _ _ _ (get_l2_index_lt a) (get_l3_index_lt a)]
    exact index_triple_sum a ha
  · intro b _
    constructor
    · rintro ⟨h1, h2, h3⟩
      exact page_eq_of_index_eq a b h1 h2 h3
    · exact index_eq_of_page_eq a b

/-- C1 at the address `0x00ABCDEF`: indices 0, 42 and 60, page `0x00ABC000`. -/
theorem index_split_determines_page_witness :
    get_l1_index 0x00ABCDEF < 256 ∧ get_l2_index 0x00ABCDEF < 64 ∧
    get_l3_index 0x00ABCDEF < 64 ∧
    ((get_l1_index 0x00ABCDEF <<< 24) ||| (get_l2_index 0x00ABCDEF <<< 18) |||
        (get_l3_index 0x00ABCDEF <<< 12)) = 0x00ABCDEF - 0x00ABCDEF % 4096 ∧
    ∀ b, b < 2 ^ 32 →
      ((get_l1_index 0x00ABCDEF = get_l1_index b ∧ get_l2_index 0x00ABCDEF = get_l2_index b ∧
          get_l3_index 0x00ABCDEF = get_l3_index b) ↔ 0x00ABCDEF / 4096 = b / 4096) :=
  index_split_determines_page 0x00ABCDEF (by norm_num)

/-- C2: on a well-formed address space and a 32-bit address, when
`page_table_insert` returns 0 the lookup of the same address right afterwards
returns the inserted entry, whatever was there before (no Level-2 array, no
Level-3 array, or another value). -/
theorem page_table_insert_then_lookup (k : Kernel) (as : addrspace) (addr e : Nat)
    (hwf : as.wf = true) (haddr : addr < 2 ^ 32)
    (hret : (page_table_insert k as addr e).1 = 0) :
    page_table_lookup (page_table_insert k as addr e).2.2 addr = e := by
  have hl1 : get_l1_index addr < PAGE_L1_NUM := get_l1_index_lt addr haddr
  have hl2 : get_l2_index addr < PAGE_L2_L3_NUM := get_l2_index_lt addr
  have hl3 : get_l3_index addr < PAGE_L2_L3_NUM := get_l3_index_lt addr
  unfold page_table_insert at hret ⊢
  simp only at hret ⊢
  generalize hr1 : (if (l2_slot as (get_l1_index addr)).isNone then
    page_table_l2_init k as (get_l1_index addr) else (0, k, as)) = r1 at hret ⊢
  by_cases h1 : r1.1 = 0
  · have hready : l2_ready r1.2.2 (get_l1_index addr) := by
      rw [← hr1] at h1 ⊢
      exact l2_ready_of_init k as _ hwf hl1 h1
    rw [if_neg (not_not.mpr h1)] at hret ⊢
    generalize hr2 : (if (l3_slot r1.2.2 (get_l1_index addr) (get_l2_index addr)).isNone then
      page_table_l3_init r1.2.1 r1.2.2 (get_l1_index addr) (get_l2_index addr)
      else (0, r1.2.1, r1.2.2)) = r2 at hret ⊢
    by_cases h2 : r2.1 = 0
    · rw [if_neg (not_not.mpr h2)]
      have h3 : l3_ready r2.2.2 (get_l1_index addr) (get_l2_index addr) := by
        rw [← hr2] at h2 ⊢
        exact l3_ready_of_init _ _ _ _ hready hl1 hl2 h2
      obtain ⟨a, ents, ha, hlt, he, hlen⟩ := h3
      exact lookup_set_entry _ addr e a ents ha hlt he (by omega)
    · rw [if_pos h2] at hret
      exact absurd hret h2
  · rw [if_pos h1] at hret
    exact absurd hret h1

/-- C2 on the empty address space, page `0x00401000`: both arrays are created
and the entry reads back. -/
theorem page_table_insert_then_lookup_witness :
    as_empty.wf = true ∧ (page_table_insert kernel_ex as_empty 0x00401234 0x00123600).1 = 0 ∧
    page_table_lookup (page_table_insert kernel_ex as_empty 0x00401234 0x00123600).2.2
      0x00401234 = 0x00123600 :=
  ⟨as_empty_wf, by decide,
    page_table_insert_then_lookup kernel_ex as_empty 0x00401234 0x00123600
      as_empty_wf (by norm_num) (by decide)⟩

/-- C3: the list holds the single region `[0x1000, 0x2000)` and the new range is
`[0x1800, 0x2800)`. The overlap test holds for the pair (`region_checkInUse`
answers `EADDRINUSE`), yet `as_define_region` returns 0 and the list now holds
both: the loop stops before the last node, which is never checked. -/
theorem as_define_region_skips_last_node :
    region_checkInUse region_ro region_mid = EADDRINUSE ∧
    (as_define_region kernel_ex { as_empty with regions := [region_ro] }
      0x1800 0x1000 4 0 0).1 = 0 ∧
    (as_define_region kernel_ex { as_empty with regions := [region_ro] }
      0x1800 0x1000 4 0 0).2.2.regions = [region_ro, region_mid] := by
  decide

/-- C4: from the address space `as_create` returns, defining `[0x1000, 0x2000)`
and then `[0x1800, 0x2800)` returns 0 twice, and so does the other order; both
lists then hold two ranges that share `[0x1800, 0x2000)`. Besides, with
`[0x1000, 0x3000)` first and `[0x5000, 0x6000)` second, the range
`[0x1800, 0x2000)`, which lies inside the first (checked) node, is accepted
too: the test itself misses a new range inside an old one. -/
theorem as_define_region_accepts_overlap :
    (as_create kernel_ex).1 = some as_empty ∧
    (as_define_region (as_create kernel_ex).2 as_empty 0x1000 0x1000 4 0 0).1 = 0 ∧
    (as_define_region
      (as_define_region (as_create kernel_ex).2 as_empty 0x1000 0x1000 4 0 0).2.1
      (as_define_region (as_create kernel_ex).2 as_empty 0x1000 0x1000 4 0 0).2.2
      0x1800 0x1000 4 0 0).1 = 0 ∧
    (as_define_region
      (as_define_region (as_create kernel_ex).2 as_empty 0x1000 0x1000 4 0 0).2.1
      (as_define_region (as_create kernel_ex).2 as_empty 0x1000 0x1000 4 0 0).2.2
      0x1800 0x1000 4 0 0).2.2.regions = [region_ro, region_mid] ∧
    (as_define_region (as_create kernel_ex).2 as_empty 0x1800 0x1000 4 0 0).1 = 0 ∧
    (as_define_region
      (as_define_region (as_create kernel_ex).2 as_empty 0x1800 0x1000 4 0 0).2.1
      (as_define_region (as_create kernel_ex).2 as_empty 0x1800 0x1000 4 0 0).2.2
      0x1000 0x1000 4 0 0).1 = 0 ∧
    (as_define_region
      (as_define_region (as_create kernel_ex).2 as_empty 0x1800 0x1000 4 0 0).2.1
      (as_define_region (as_create kernel_ex).2 as_empty 0x1800 0x1000 4 0 0).2.2
      0x1000 0x1000 4 0 0).2.2.regions = [region_mid, region_ro] ∧
    region_checkInUse region_wide { size := 0x800, addr_start := 0x1800, permission := 4 } = 0 ∧
    (as_define_region kernel_ex
      { as_empty with regions := [region_wide, region_far] } 0x1800 0x800 4 0 0).1 = 0 := by
  decide

/-- C5: when `as_define_region` returns 0 the region list is the old list
followed by one new node carrying `vaddr`, `memsize` and the low 8 bits of
`readable | writeable | executable`; when it returns `EADDRINUSE` the list is
the old list; the page table and the `writable` flag are the old ones in every
case. -/
theorem as_define_region_appends (k : Kernel) (as : addrspace) (vaddr memsize : Nat)
    (readable writeable executable : Int) :
    ((as_define_region k as vaddr memsize readable writeable executable).1 = 0 →
      (as_define_region k as vaddr memsize readable writeable executable).2.2.regions =
        as.regions ++
          [{ size := memsize,
             addr_start := vaddr,
             permission := (Int.lor (Int.lor readable writeable) executable % 256).toNat }]) ∧
    ((as_define_region k as vaddr memsize readable writeable executable).1 = EADDRINUSE →
      (as_define_region k as vaddr memsize readable writeable executable).2.2.regions =
        as.regions) ∧
    (as_define_region k as vaddr memsize readable writeable executable).2.2.page_table =
      as.page_table ∧
    (as_define_region k as vaddr memsize readable writeable executable).2.2.writable =
      as.writable := by
  unfold as_define_region
  rw [lor_three executable readable writeable]
  cases hk : kmalloc k with
  | mk ok k1 =>
    cases ok with
    | false => simp [ENOMEM, EADDRINUSE]
    | true =>
      simp only
      cases hr : as.regions with
      | nil => simp [EADDRINUSE]
      | cons temp rest =>
        simp only
        have hw := as_define_region_walk_spec
          { size := memsize,
            addr_start := vaddr,
            permission := (Int.lor (Int.lor readable writeable) executable % 256).toNat }
          rest temp
        by_cases h0 : (as_define_region_walk
          { size := memsize,
            addr_start := vaddr,
            permission := (Int.lor (Int.lor readable writeable) executable % 256).toNat }
          temp rest).1 = 0
        · rw [if_neg (not_not.mpr h0)]
          simp only [true_implies, and_true]
          refine ⟨hw.1 h0, ?_⟩
          intro h; exact absurd h (by decide)
        · rw [if_pos h0]
          simp only [and_true]
          exact ⟨fun h => absurd h h0, fun _ => hw.2 h0⟩

/-- C5 on the list `[0x1000, 0x2000)`, `[0x5000, 0x6000)`: the range
`[0x3000, 0x4000)` is appended behind the two, the range `[0x0800, 0x1800)` is
refused and the list stays. -/
theorem as_define_region_appends_witness :
    (as_define_region kernel_ex { as_empty with regions := [region_ro, region_far] }
      0x3000 0x1000 4 2 0).2.2.regions =
      [region_ro, region_far, { size := 0x1000, addr_start := 0x3000, permission := 6 }] ∧
    (as_define_region kernel_ex { as_empty with regions := [region_ro, region_far] }
      0x0800 0x1000 4 2 0).2.2.regions = [region_ro, region_far] :=
  ⟨(as_define_region_appends kernel_ex { as_empty with regions := [region_ro, region_far] }
      0x3000 0x1000 4 2 0).1 (by decide),
   (as_define_region_appends kernel_ex { as_empty with regions := [region_ro, region_far] }
      0x0800 0x1000 4 2 0).2.1 (by decide)⟩

/-- C6: when no region's `addr_start + size` leaves the 32-bit range,
`regions_lookup` returns a node exactly when the list splits into nodes whose
half-open range `[addr_start, addr_start + size)` misses the address, then that
node, whose range contains it, then the rest; and it returns `NULL` exactly when
no node's range contains the address. -/
theorem regions_lookup_first_containing (as : addrspace) (addr : Nat)
    (hnowrap : ∀ r ∈ as.regions, r.addr_start + r.size < 2 ^ 32) :
    (∀ r, regions_lookup as addr = some r ↔
      (r.addr_start ≤ addr ∧ addr < r.addr_start + r.size) ∧
      ∃ pre post, as.regions = pre ++ r :: post ∧
        ∀ q ∈ pre, ¬ (q.addr_start ≤ addr ∧ addr < q.addr_start + q.size)) ∧
    (regions_lookup as addr = none ↔
      ∀ r ∈ as.regions, ¬ (r.addr_start ≤ addr ∧ addr < r.addr_start + r.size)) := by
  unfold regions_lookup
  rw [regions_lookup_from_eq_find as.regions addr hnowrap]
  constructor
  · intro r
    rw [List.find?_eq_some]
    simp only [decide_eq_true_eq, Bool.not_eq_true', decide_eq_false_iff_not]
  · rw [List.find?_eq_none]
    simp only [decide_eq_true_eq]

/-- C6 on the list `[0x1000, 0x2000)`, `[0x1800, 0x2800)`: the address `0x1900`
lies in both and the first is returned; the address `0x3000` lies in none. -/
theorem regions_lookup_first_containing_witness :
    (regions_lookup { as_empty with regions := [region_ro, region_mid] } 0x1900 = some region_ro ↔
      (region_ro.addr_start ≤ 0x1900 ∧ 0x1900 < region_ro.addr_start + region_ro.size) ∧
      ∃ pre post, [region_ro, region_mid] = pre ++ region_ro :: post ∧
        ∀ q ∈ pre, ¬ (q.addr_start ≤ 0x1900 ∧ 0x1900 < q.addr_start + q.size)) ∧
    (regions_lookup { as_empty with regions := [region_ro, region_mid] } 0x3000 = none ↔
      ∀ r ∈ [region_ro, region_mid],
        ¬ (r.addr_start ≤ 0x3000 ∧ 0x3000 < r.addr_start + r.size)) :=
  ⟨(regions_lookup_first_containing { as_empty with regions := [region_ro, region_mid] } 0x1900
      (by decide)).1 region_ro,
   (regions_lookup_first_containing { as_empty with regions := [region_ro, region_mid] } 0x3000
      (by decide)).2⟩

/-- C8: the rejections of `vm_fault`, in order. (1) A null address or one at or
above `0x80000000` gives `EFAULT` for every fault type. Otherwise (2) the type
`VM_FAULT_READONLY` gives `EFAULT` and a type that is none of the three gives
`EINVAL`. Otherwise (3) without a current address space the result is `ENOMEM`.
Otherwise (4) with no valid entry for the page and no region whose range
contains the address the result is `EFAULT`. In each case the collaborators
(so the frame allocator) and the address space are returned as they were. -/
theorem vm_fault_rejections (k : Kernel) (curas : Option addrspace) (faulttype : Int)
    (addr : Nat) :
    ((addr = 0 ∨ addr ≥ 0x80000000) →
      vm_fault k curas faulttype addr = (EFAULT, k, curas)) ∧
    (0 < addr → addr < 0x80000000 → faulttype = VM_FAULT_READONLY →
      vm_fault k curas faulttype addr = (EFAULT, k, curas)) ∧
    (0 < addr → addr < 0x80000000 → faulttype ≠ VM_FAULT_READ → faulttype ≠ VM_FAULT_WRITE →
      faulttype ≠ VM_FAULT_READONLY →
      vm_fault k curas faulttype addr = (EINVAL, k, curas)) ∧
    (0 < addr → addr < 0x80000000 → (faulttype = VM_FAULT_READ ∨ faulttype = VM_FAULT_WRITE) →
      vm_fault k none faulttype addr = (ENOMEM, k, none)) ∧
    (∀ as : addrspace, 0 < addr → addr < 0x80000000 →
      (faulttype = VM_FAULT_READ ∨ faulttype = VM_FAULT_WRITE) →
      page_table_lookup as addr &&& TLBLO_VALID = 0 →
      (∀ r ∈ as.regions, ¬ (r.addr_start ≤ addr ∧ addr < r.addr_start + r.size)) →
      vm_fault k (some as) faulttype addr = (EFAULT, k, some as)) := by
  refine ⟨?_, ?_, ?_, ?_, ?_⟩
  · intro h
    unfold vm_fault
    simp only [if_pos h]
  · intro h1 h2 ht
    have hrange : ¬ (addr = 0x0 ∨ addr ≥ 0x80000000) := by omega
    unfold vm_fault
    subst ht
    simp only [if_neg hrange]
    rfl
  · intro h1 h2 hr hw hro
    have hrange : ¬ (addr = 0x0 ∨ addr ≥ 0x80000000) := by omega
    have hc : check_faulttype faulttype = EINVAL := by
      unfold check_faulttype
      rw [if_neg hro, if_pos ⟨hr, hw⟩]
    unfold vm_fault
    simp only [if_neg hrange, hc]
    rfl
  · intro h1 h2 ht
    have hrange : ¬ (addr = 0x0 ∨ addr ≥ 0x80000000) := by omega
    unfold vm_fault
    simp only [if_neg hrange, check_faulttype_read_write faulttype ht, ne_eq,
      not_true_eq_false, if_false]
  · intro as h1 h2 ht hmiss hnone
    have hrange : ¬ (addr = 0x0 ∨ addr ≥ 0x80000000) := by omega
    have hl : regions_lookup as addr = none := regions_lookup_from_none as.regions addr hnone
    unfold vm_fault
    simp only [if_neg hrange, check_faulttype_read_write faulttype ht, ne_eq,
      not_true_eq_false, if_false, hmiss, hl]

/-- C8 at concrete faults: address 0 with a read, address `0x1000` with
`VM_FAULT_READONLY`, with the unknown type 7 and without an address space, and
a read at `0x1000` in an address space that has no region there. -/
theorem vm_fault_rejections_witness :
    vm_fault kernel_ex (some as_ro) VM_FAULT_READ 0 = (EFAULT, kernel_ex, some as_ro) ∧
    vm_fault kernel_ex (some as_ro) VM_FAULT_READONLY 0x1000 =
      (EFAULT, kernel_ex, some as_ro) ∧
    vm_fault kernel_ex (some as_ro) 7 0x1000 = (EINVAL, kernel_ex, some as_ro) ∧
    vm_fault kernel_ex none VM_FAULT_WRITE 0x1000 = (ENOMEM, kernel_ex, none) ∧
    vm_fault kernel_ex (some as_empty) VM_FAULT_READ 0x1000 =
      (EFAULT, kernel_ex, some as_empty) :=
  ⟨(vm_fault_rejections kernel_ex (some as_ro) VM_FAULT_READ 0).1 (Or.inl rfl),
   (vm_fault_rejections kernel_ex (some as_ro) VM_FAULT_READONLY 0x1000).2.1
      (by norm_num) (by norm_num) rfl,
   (vm_fault_rejections kernel_ex (some as_ro) 7 0x1000).2.2.1
      (by norm_num) (by norm_num) (by decide) (by decide) (by decide),
   (vm_fault_rejections kernel_ex none VM_FAULT_WRITE 0x1000).2.2.2.1
      (by norm_num) (by norm_num) (Or.inr rfl),
   (vm_fault_rejections kernel_ex none VM_FAULT_READ 0x1000).2.2.2.2 as_empty
      (by norm_num) (by norm_num) (Or.inl rfl) (by decide) (by decide)⟩

/-- C10: on the read-only region `[0x1000, 0x2000)` a read fault at `0x1000`
maps the page (entry `0x00100200`, not writable); `as_prepare_load` then
returns 0 and turns the override on; the write fault at `0x1000` that follows
returns `EFAULT`, not 0: the hit path of `vm_fault` never reads
`as->writable`. -/
theorem write_fault_ignores_override_on_mapped_page :
    (vm_fault kernel_ex (some as_ro) VM_FAULT_READ 0x1000).1 = 0 ∧
    ((vm_fault kernel_ex (some as_ro) VM_FAULT_READ 0x1000).2.2.map
      (fun a => page_table_lookup a 0x1000)) = some 0x00100200 ∧
    (as_prepare_load (vm_fault kernel_ex (some as_ro) VM_FAULT_READ 0x1000).2.2).1 = 0 ∧
    ((as_prepare_load (vm_fault kernel_ex (some as_ro) VM_FAULT_READ 0x1000).2.2).2.map
      (fun a => a.writable)) = some 1 ∧
    (vm_fault (vm_fault kernel_ex (some as_ro) VM_FAULT_READ 0x1000).2.1
      (as_prepare_load (vm_fault kernel_ex (some as_ro) VM_FAULT_READ 0x1000).2.2).2
      VM_FAULT_WRITE 0x1000).1 = EFAULT ∧
    (vm_fault (vm_fault kernel_ex (some as_ro) VM_FAULT_READ 0x1000).2.1
      (as_prepare_load (vm_fault kernel_ex (some as_ro) VM_FAULT_READ 0x1000).2.2).2
      VM_FAULT_WRITE 0x1000).1 ≠ 0 := by
  decide

/-- A page first mapped while the override is on: `as_prepare_load` has turned
the override on and the page, which had no valid entry, is then mapped by a
successful read or write fault for which `regions_lookup` returns a region with
a non-zero permission byte (with or without `WRITE`). The write fault at the
same address that follows, the override still on, returns 0 and leaves the
address space as it was. -/
theorem write_fault_on_page_mapped_under_override (k : Kernel) (as : addrspace)
    (faulttype : Int) (addr : Nat) (reg : region)
    (hwf : as.wf = true)
    (htype : faulttype = VM_FAULT_READ ∨ faulttype = VM_FAULT_WRITE)
    (hreg : regions_lookup as addr = some reg)
    (hperm : reg.permission ≠ 0)
    (hmiss : page_table_lookup as addr &&& TLBLO_VALID = 0)
    (halign : (alloc_kpages k).1 % PAGE_SIZE = 0)
    (hret : (vm_fault k (as_prepare_load (some as)).2 faulttype addr).1 = 0) :
    (vm_fault (vm_fault k (as_prepare_load (some as)).2 faulttype addr).2.1
      (vm_fault k (as_prepare_load (some as)).2 faulttype addr).2.2
      VM_FAULT_WRITE addr).1 = 0 ∧
    (vm_fault (vm_fault k (as_prepare_load (some as)).2 faulttype addr).2.1
      (vm_fault k (as_prepare_load (some as)).2 faulttype addr).2.2
      VM_FAULT_WRITE addr).2.2 =
      (vm_fault k (as_prepare_load (some as)).2 faulttype addr).2.2 ∧
    ((vm_fault k (as_prepare_load (some as)).2 faulttype addr).2.2.map
      (fun a => a.writable)) = some 1 := by
  simp only [as_prepare_load] at hret ⊢
  have hwf1 : ({ as with writable := 1 } : addrspace).wf = true := hwf
  have hreg1 : regions_lookup { as with writable := 1 } addr = some reg := hreg
  have hmiss1 : page_table_lookup { as with writable := 1 } addr &&& TLBLO_VALID = 0 := hmiss
  obtain ⟨hpos, huser, as', hs, hlook⟩ :=
    vm_fault_first_touch k { as with writable := 1 } faulttype addr reg hwf1 htype hreg1 hmiss1
      hret
  have hpa := kvaddr_to_paddr_aligned (alloc_kpages k).1 halign
  have hv : page_table_lookup as' addr &&& TLBLO_VALID ≠ 0 := by
    rw [hlook]
    exact make_pte_valid _ _ _ hperm
  have hd : page_table_lookup as' addr &&& TLBLO_DIRTY ≠ 0 := by
    rw [hlook]
    exact (make_pte_dirty reg _ _ hpa).mpr (Or.inr Nat.one_ne_zero)
  have hw : as'.writable = 1 := by
    have hrange : ¬ (addr = 0x0 ∨ addr ≥ 0x80000000) := by omega
    have hframe : (alloc_kpages k).1 ≠ 0 := by
      intro h
      unfold vm_fault at hret
      simp only [if_neg hrange, check_faulttype_read_write faulttype htype, ne_eq,
        not_true_eq_false, if_false, hmiss1, hreg1, if_pos h] at hret
      exact absurd hret (by decide)
    rw [vm_fault_miss k _ faulttype addr reg htype hpos huser hmiss1 hreg1 hframe] at hs hret
    split at hs
    · rename_i hbad
      rw [if_pos hbad] at hret
      exact absurd hret hbad
    · simp only [Option.some.injEq] at hs
      rw [← hs]
      exact page_table_insert_writable _ _ _ _
  rw [hs]
  rw [vm_fault_hit _ as' VM_FAULT_WRITE addr (Or.inr rfl) hpos huser hv]
  rw [if_neg (fun h => hd h.2)]
  exact ⟨rfl, rfl, by simp [hw]⟩

/-- On the read-only region `[0x1000, 0x2000)`: after `as_prepare_load` a read
fault at `0x1000` maps the page and the write fault that follows returns 0. -/
theorem write_fault_on_page_mapped_under_override_witness :
    (vm_fault kernel_ex (as_prepare_load (some as_ro)).2 VM_FAULT_READ 0x1000).1 = 0 ∧
    (vm_fault (vm_fault kernel_ex (as_prepare_load (some as_ro)).2 VM_FAULT_READ 0x1000).2.1
      (vm_fault kernel_ex (as_prepare_load (some as_ro)).2 VM_FAULT_READ 0x1000).2.2
      VM_FAULT_WRITE 0x1000).1 = 0 :=
  ⟨by decide,
   (write_fault_on_page_mapped_under_override kernel_ex as_ro VM_FAULT_READ 0x1000 region_ro
     as_empty_wf (Or.inl rfl) (by decide) (by decide) (by decide) (by decide) (by decide)).1⟩

/-- C11: on the read-only region `[0x1000, 0x2000)`, `as_prepare_load`, then a
read fault at `0x1000` (it maps the page with entry `0x00100600`, dirty bit
set), then `as_complete_load` (it returns 0 and clears `writable`): the entry
still has `TLBLO_DIRTY` and the write fault at `0x1000` that follows returns
0, not `EFAULT`. -/
theorem complete_load_keeps_dirty_entries :
    (vm_fault kernel_ex (as_prepare_load (some as_ro)).2 VM_FAULT_READ 0x1000).1 = 0 ∧
    (as_complete_load
      (vm_fault kernel_ex (as_prepare_load (some as_ro)).2 VM_FAULT_READ 0x1000).2.2).1 = 0 ∧
    ((as_complete_load
      (vm_fault kernel_ex (as_prepare_load (some as_ro)).2 VM_FAULT_READ 0x1000).2.2).2.map
        (fun a => a.writable)) = some 0 ∧
    ((as_complete_load
      (vm_fault kernel_ex (as_prepare_load (some as_ro)).2 VM_FAULT_READ 0x1000).2.2).2.map
        (fun a => regions_lookup a 0x1000)) = some (some region_ro) ∧
    region_ro.permission &&& WRITE = 0 ∧
    ((as_complete_load
      (vm_fault kernel_ex (as_prepare_load (some as_ro)).2 VM_FAULT_READ 0x1000).2.2).2.map
        (fun a => page_table_lookup a 0x1000 &&& TLBLO_DIRTY)) = some TLBLO_DIRTY ∧
    (vm_fault (vm_fault kernel_ex (as_prepare_load (some as_ro)).2 VM_FAULT_READ 0x1000).2.1
      (as_complete_load
        (vm_fault kernel_ex (as_prepare_load (some as_ro)).2 VM_FAULT_READ 0x1000).2.2).2
      VM_FAULT_WRITE 0x1000).1 = 0 := by
  decide

/-- C15: on an address space without regions, when the node can be allocated,
`as_define_stack` returns 0, stores `USERSTACK` in `*stackptr` and leaves
exactly one region: it starts at `0x80000000 - 16 * 4096`, is `16 * 4096` bytes
long (it ends at `USERSTACK`) and has permission `READ | WRITE`; on `NULL` it
returns `ENOMEM` and stores nothing. -/
theorem as_define_stack_spec (k : Kernel) (as : addrspace)
    (hfresh : as.regions = []) (halloc : (kmalloc k).1 = true) :
    (as_define_stack k (some as)).1 = 0 ∧
    (as_define_stack k (some as)).2.2.2 = some USERSTACK ∧
    USERSTACK = 0x80000000 ∧
    (as_define_stack k (some as)).2.2.1 =
      some { as with regions :=
        [{ size := 16 * 4096, addr_start := 0x80000000 - 16 * 4096,
           permission := READ ||| WRITE }] } ∧
    (0x80000000 - 16 * 4096) + 16 * 4096 = USERSTACK ∧
    (as_define_stack k none).1 = ENOMEM ∧
    (as_define_stack k none).2.2.2 = none := by
  cases hk : kmalloc k with
  | mk ok k1 =>
    rw [hk] at halloc
    simp only at halloc
    subst halloc
    have h : as_define_stack k (some as) =
        (0, k1, some { as with regions :=
          [{ size := 16 * 4096, addr_start := 0x80000000 - 16 * 4096,
             permission := READ ||| WRITE }] }, some USERSTACK) := by
      unfold as_define_stack as_define_region
      rw [hk]
      simp only [hfresh]
      rfl
    rw [h]
    exact ⟨rfl, rfl, rfl, rfl, rfl, rfl, rfl⟩

/-- C15 on the address space `as_create` returns. -/
theorem as_define_stack_spec_witness :
    (as_define_stack kernel_ex (some as_empty)).1 = 0 ∧
    (as_define_stack kernel_ex (some as_empty)).2.2.2 = some 0x80000000 ∧
    (as_define_stack kernel_ex (some as_empty)).2.2.1 =
      some { as_empty with regions :=
        [{ size := 0x10000, addr_start := 0x7fff0000, permission := 6 }] } :=
  ⟨(as_define_stack_spec kernel_ex as_empty rfl rfl).1,
   (as_define_stack_spec kernel_ex as_empty rfl rfl).2.1,
   (as_define_stack_spec kernel_ex as_empty rfl rfl).2.2.2.1⟩

/-- C16: at `l1 = 0`, `l2 = 64` (one past the last Level-2 slot) on the address
space `as_create` returns, the range check `l2 > PAGE_L2_L3_NUM` does not fire:
`page_table_l3_init` returns 0, has created the Level-2 array of slot 0 and has
made two allocations on the way to the store into slot 64. -/
theorem page_table_l3_init_accepts_l2_64 :
    (page_table_l3_init kernel_ex as_empty 0 64).1 = 0 ∧
    l2_slot as_empty 0 = none ∧
    l2_slot (page_table_l3_init kernel_ex as_empty 0 64).2.2 0 =
      some (List.replicate PAGE_L2_L3_NUM { entries := none }) ∧
    (page_table_l3_init kernel_ex as_empty 0 64).2.1.kmalloc_ok.length + 2 =
      kernel_ex.kmalloc_ok.length := by
  decide

/-- C17: with `*ret` holding 0 and `kmalloc` failing, `region_dup` on the node
`[0x1000, 0x2000)` returns `NULL` and `*ret` is still 0, not `ENOMEM`; and
`as_copy` of the address space with that single region, when the allocation of
the node's copy fails, does not return `ENOMEM`: it goes on with a `NULL` node
and dereferences it. -/
theorem region_dup_loses_enomem :
    (kmalloc { kernel_ex with kmalloc_ok := [false] }).1 = false ∧
    (region_dup { kernel_ex with kmalloc_ok := [false] } [region_ro] 0).1 = none ∧
    (region_dup { kernel_ex with kmalloc_ok := [false] } [region_ro] 0).2.1 = 0 ∧
    (as_copy kernel_tight as_ro).isNone = true := by
  decide

/-- C18, the claim as stated fails: with `cur = [0x1000, 0x2000)` and
`new = [0x2000, 0x3000)` (new start = old end) `region_checkInUse` returns 0,
and with `cur = [0x2000, 0x3000)` and `new = [0x1000, 0x2000)` (new end = old
start) it returns `EADDRINUSE`. -/
theorem region_checkInUse_boundary_cases :
    region_next.addr_start = region_ro.addr_start + region_ro.size ∧
    region_checkInUse region_ro region_next = 0 ∧
    region_checkInUse region_ro region_next ≠ EADDRINUSE ∧
    region_checkInUse region_next region_ro = EADDRINUSE ∧
    region_checkInUse region_next region_ro ≠ 0 := by
  decide

/-- C18, amended: when the existing region's end stays below `2 ^ 32` and the
new region starts where the existing region ends, `region_checkInUse cur new`
returns 0, whatever the sizes. -/
theorem region_checkInUse_new_after_cur (cur new : region)
    (hcw : cur.addr_start + cur.size < 2 ^ 32)
    (hadj : new.addr_start = cur.addr_start + cur.size) :
    region_checkInUse cur new = 0 := by
  unfold region_checkInUse
  simp only
  rw [Nat.mod_eq_of_lt hcw]
  rw [if_neg]
  omega

/-- C18, amended, on `[0x1000, 0x2000)` followed by `[0x2000, 0x3000)`. -/
theorem region_checkInUse_new_after_cur_witness :
    region_checkInUse region_ro region_next = 0 :=
  region_checkInUse_new_after_cur region_ro region_next (by decide) (by decide)

/-- C19: `as_copy` of the address space `as_create` returns (no regions), with
every allocation succeeding, does not return: `region_dup(NULL)` yields `NULL`
with `err = 0`, and the loop test `old_temp->next != NULL` then reads through
the `NULL` pointer `old_temp`. -/
theorem as_copy_empty_regions_null_deref :
    as_empty.regions = [] ∧
    (as_create kernel_ex).1 = some as_empty ∧
    (page_table_dup (as_create kernel_ex).2 as_empty as_empty).1 = 0 ∧
    (as_copy kernel_ex as_empty).isNone = true := by
  decide

/-- C14: on a well-formed address space whose page table holds the non-zero
entries `mapped_entries as` (N of them), `page_table_destroy` calls
`free_kpages` exactly N times, once per non-zero entry in index order; all
Level-1 slots are `NULL` afterwards, so every lookup returns 0; `as_destroy`
makes the same frame frees and then frees every node of the region list and
the record itself (one `kfree` per node, plus one), after which no address
space is left; on `NULL` it does nothing. -/
theorem page_table_destroy_frees_each_mapped_page (k : Kernel) (as : addrspace)
    (hwf : as.wf = true) :
    (page_table_destroy k as).1.freed.length = k.freed.length + (mapped_entries as).length ∧
    (page_table_destroy k as).1.freed =
      k.freed ++ (mapped_entries as).map PADDR_TO_KVADDR ∧
    (∀ x, l2_slot (page_table_destroy k as).2 x = none) ∧
    (∀ v, page_table_lookup (page_table_destroy k as).2 v = 0) ∧
    (as_destroy k (some as)).freed = (page_table_destroy k as).1.freed ∧
    (as_destroy k (some as)).kfrees =
      (page_table_destroy k as).1.kfrees + as.regions.length + 1 ∧
    as_destroy k none = k := by
  obtain ⟨hfreed, hnull, hreg, _⟩ := page_table_destroy_spec k as hwf
  refine ⟨?_, hfreed, hnull, fun v => lookup_of_all_null _ hnull v, ?_, ?_, rfl⟩
  · rw [hfreed, List.length_append, List.length_map]
  · simp only [as_destroy, (region_destroy_spec _ _).2, kfree]
  · simp only [as_destroy, (region_destroy_spec _ _).2, kfree, hreg]

/-- C14 on the address space with one mapped page and one region: one frame is
freed, the lookup of `0x1000` returns 0 afterwards, and `as_destroy` frees the
region node and the record on top of the page-table arrays. -/
theorem page_table_destroy_frees_each_mapped_page_witness :
    (mapped_entries as_mapped).length = 1 ∧
    (page_table_destroy kernel_ex as_mapped).1.freed.length = 1 ∧
    page_table_lookup as_mapped 0x1000 = 0x00100600 ∧
    page_table_lookup (page_table_destroy kernel_ex as_mapped).2 0x1000 = 0 ∧
    (as_destroy kernel_ex (some as_mapped)).kfrees =
      (page_table_destroy kernel_ex as_mapped).1.kfrees + 1 + 1 := by
  have h := page_table_destroy_frees_each_mapped_page kernel_ex as_mapped (by decide)
  have hn : (mapped_entries as_mapped).length = 1 := by decide
  have hr : as_mapped.regions.length = 1 := rfl
  refine ⟨hn, ?_, by decide, h.2.2.2.1 0x1000, ?_⟩
  · rw [h.1, hn]
    rfl
  · rw [h.2.2.2.2.2.1, hr]

/-- C20: the write fault at `0x1000` in the read+write region maps the frame
the allocator returned, `0x80100000`, with entry `0x00100600`; the flag bits
removed, `PADDR_TO_KVADDR (entry & PAGE_FRAME)` is `0x80100000` again; but
`page_table_destroy` hands `0x80100600` to `free_kpages`. -/
theorem page_table_destroy_frees_flagged_address :
    (alloc_kpages kernel_ex).1 = 0x80100000 ∧
    (vm_fault kernel_ex (some as_rw) VM_FAULT_WRITE 0x1000).2.2 = some as_mapped ∧
    page_table_lookup as_mapped 0x1000 = 0x00100600 ∧
    PADDR_TO_KVADDR (0x00100600 &&& PAGE_FRAME) = 0x80100000 ∧
    (page_table_destroy (vm_fault kernel_ex (some as_rw) VM_FAULT_WRITE 0x1000).2.1
      as_mapped).1.freed = [0x80100600] := by
  refine ⟨by decide, by decide, by decide, by decide, ?_⟩
  rw [(page_table_destroy_spec _ as_mapped (by decide)).1]
  decide

/-- C12: for a source with a well-formed page table and a destination fresh
from `as_create`, when `kmalloc` never fails and has an outcome for every array
of the source, and `alloc_kpages` has a frame for every mapped page and hands
out distinct page-aligned kernel addresses above `MIPS_KSEG0` that no source
entry refers to: `page_table_dup` returns 0 and, for every 32-bit virtual
address `v`, the destination lookup is non-zero exactly when the source lookup
is; where it is, the destination entry has the source's `TLBLO_DIRTY` and
`TLBLO_VALID` bits and another frame address, the 4096 bytes of its frame are
the bytes the source frame held when the copy started, the source frame still
holds them, and a later store to any byte of the source frame leaves every byte
of the destination frame as it is. -/
theorem page_table_dup_copies_each_mapping (k0 k : Kernel) (dst0 src : addrspace)
    (hnew : as_create k0 = (some dst0, k))
    (hwf : src.wf = true)
    (hmalloc : ∀ b ∈ k.kmalloc_ok, b = true)
    (hmroom : arrays_count src.page_table ≤ k.kmalloc_ok.length)
    (hframes : ∀ p ∈ k.kpages, p % PAGE_SIZE = 0 ∧ MIPS_KSEG0 < p ∧ p < 2 ^ 32)
    (hnodup : k.kpages.Nodup)
    (hfroom : (mapped_entries src).length ≤ k.kpages.length)
    (hunref : ∀ p ∈ k.kpages, ∀ e ∈ mapped_entries src,
      p ≠ PADDR_TO_KVADDR (e &&& PAGE_FRAME)) :
    (page_table_dup k dst0 src).1 = 0 ∧
    ∀ v, v < 2 ^ 32 →
      (page_table_lookup (page_table_dup k dst0 src).2.2 v ≠ 0 ↔
        page_table_lookup src v ≠ 0) ∧
      (page_table_lookup src v ≠ 0 →
        page_table_lookup (page_table_dup k dst0 src).2.2 v &&& TLBLO_DIRTY =
          page_table_lookup src v &&& TLBLO_DIRTY ∧
        page_table_lookup (page_table_dup k dst0 src).2.2 v &&& TLBLO_VALID =
          page_table_lookup src v &&& TLBLO_VALID ∧
        page_table_lookup (page_table_dup k dst0 src).2.2 v &&& PAGE_FRAME ≠
          page_table_lookup src v &&& PAGE_FRAME ∧
        (∀ j, j < 4096 →
          (page_table_dup k dst0 src).2.1.mem
              (PADDR_TO_KVADDR
                (page_table_lookup (page_table_dup k dst0 src).2.2 v &&& PAGE_FRAME) + j) =
            k.mem (PADDR_TO_KVADDR (page_table_lookup src v &&& PAGE_FRAME) + j)) ∧
        (∀ j, j < 4096 →
          (page_table_dup k dst0 src).2.1.mem
              (PADDR_TO_KVADDR (page_table_lookup src v &&& PAGE_FRAME) + j) =
            k.mem (PADDR_TO_KVADDR (page_table_lookup src v &&& PAGE_FRAME) + j)) ∧
        (∀ a b j, PADDR_TO_KVADDR (page_table_lookup src v &&& PAGE_FRAME) ≤ a →
          a < PADDR_TO_KVADDR (page_table_lookup src v &&& PAGE_FRAME) + 4096 → j < 4096 →
          Function.update (page_table_dup k dst0 src).2.1.mem a b
              (PADDR_TO_KVADDR
                (page_table_lookup (page_table_dup k dst0 src).2.2 v &&& PAGE_FRAME) + j) =
            (page_table_dup k dst0 src).2.1.mem
              (PADDR_TO_KVADDR
                (page_table_lookup (page_table_dup k dst0 src).2.2 v &&& PAGE_FRAME) + j))) := by
  have hfresh : dst0.page_table = List.replicate PAGE_L1_NUM none := by
    unfold as_create at hnew
    cases hk : kmalloc k0 with
    | mk ok k1 =>
      rw [hk] at hnew
      cases ok with
      | false => simp at hnew
      | true =>
        simp only [Prod.mk.injEq, Option.some.injEq] at hnew
        rw [← hnew.1]
  have env : dup_env k src := ⟨hwf, hmalloc, hframes, hnodup, hunref⟩
  have hd := page_table_dup_ok k dst0 src env 0 0 hfresh (by omega) (by omega)
  generalize page_table_dup k dst0 src = d at hd ⊢
  exact ⟨hd.1, fun v hv => dup_inv_lookup k dst0 src env (d.2.1, d.2.2) hd.2 v hv⟩

/-- C12 on the address space with the page at `0x1000` mapped to the frame at
`0x80100000`, which holds `0xC0` in every byte, with the frame at `0x80101000`
free: the copy maps `0x1000` to the other frame with the same two bits, and
that frame holds `0xC0` in every byte. -/
theorem page_table_dup_copies_each_mapping_witness :
    as_create { kernel_copy with kmalloc_ok := true :: kernel_copy.kmalloc_ok } =
      (some as_empty, kernel_copy) ∧
    page_table_lookup as_mapped 0x1000 = 0x00100600 ∧
    (page_table_dup kernel_copy as_empty as_mapped).1 = 0 ∧
    page_table_lookup (page_table_dup kernel_copy as_empty as_mapped).2.2 0x1000 ≠ 0 ∧
    page_table_lookup (page_table_dup kernel_copy as_empty as_mapped).2.2 0x1000 &&& TLBLO_DIRTY =
      TLBLO_DIRTY ∧
    page_table_lookup (page_table_dup kernel_copy as_empty as_mapped).2.2 0x1000 &&& PAGE_FRAME ≠
      0x00100000 ∧
    (∀ j, j < 4096 →
      (page_table_dup kernel_copy as_empty as_mapped).2.1.mem
        (PADDR_TO_KVADDR
          (page_table_lookup (page_table_dup kernel_copy as_empty as_mapped).2.2 0x1000 &&&
            PAGE_FRAME) + j) = 0xC0) := by
  have h := page_table_dup_copies_each_mapping
    { kernel_copy with kmalloc_ok := true :: kernel_copy.kmalloc_ok } kernel_copy as_empty
    as_mapped rfl (by decide) (by decide) (by decide) (by decide) (by decide) (by decide)
    (by decide)
  have hl : page_table_lookup as_mapped 0x1000 = 0x00100600 := by decide
  have hne : page_table_lookup as_mapped 0x1000 ≠ 0 := by rw [hl]; decide
  obtain ⟨h0, hv⟩ := h
  obtain ⟨hiff, hrest⟩ := hv 0x1000 (by norm_num)
  obtain ⟨hdirty, _, hframe, hbytes, _, _⟩ := hrest hne
  rw [hl] at hdirty hframe hbytes
  refine ⟨rfl, hl, h0, hiff.mpr hne, hdirty.trans (by decide), ?_, ?_⟩
  · intro hc
    apply hframe
    rw [hc]
    decide
  · intro j hj
    rw [hbytes j hj]
    have hf : PADDR_TO_KVADDR (0x00100600 &&& PAGE_FRAME) = 0x80100000 := by decide
    rw [hf]
    show (if 0x80100000 ≤ 0x80100000 + j ∧ 0x80100000 + j < 0x80101000 then 0xC0 else 0) = 0xC0
    rw [if_pos ⟨by omega, by omega⟩]

/-- C13: for a source with a well-formed page table and a non-empty region
list, when every allocation succeeds (`kmalloc` never fails and has an outcome
for the record, for every array of the source page table and for every region
node; `alloc_kpages` has a non-zero frame for every mapped page): `as_copy`
returns 0 and stores an address space whose `writable` flag is the source's and
whose region list equals the source's: the same length and, at every position,
a node with the same `addr_start`, `size` and `permission`. -/
theorem as_copy_copies_flag_and_regions (k : Kernel) (old : addrspace) (hwf : old.wf = true)
    (hne : old.regions ≠ [])
    (hm : ∀ b ∈ k.kmalloc_ok, b = true)
    (hmroom : 1 + arrays_count old.page_table + old.regions.length ≤ k.kmalloc_ok.length)
    (hf : ∀ p ∈ k.kpages, p ≠ 0)
    (hfroom : (mapped_entries old).length ≤ k.kpages.length) :
    ∃ k1 dst, as_copy k old = some (0, k1, some dst) ∧ dst.writable = old.writable ∧
      dst.regions = old.regions := by
  cases hk : k.kmalloc_ok with
  | nil => rw [hk] at hmroom; simp at hmroom
  | cons ok rest0 =>
    have hok : ok = true := hm ok (by rw [hk]; exact List.mem_cons_self _ _)
    subst hok
    have hcreate : as_create k =
        (some { page_table := List.replicate PAGE_L1_NUM none, regions := [], writable := 0 },
          { k with kmalloc_ok := rest0 }) := by
      simp only [as_create, kmalloc, hk]
    have env : dup_alloc_env { k with kmalloc_ok := rest0 } old :=
      ⟨hwf, fun b hb => hm b (by rw [hk]; exact List.mem_cons_of_mem _ hb), hf⟩
    have hd := page_table_dup_returns_zero { k with kmalloc_ok := rest0 }
      { page_table := List.replicate PAGE_L1_NUM none, regions := [], writable := old.writable }
      old env old.regions.length rfl
      (by
        show _ ≤ rest0.length
        rw [hk] at hmroom
        simp only [List.length_cons] at hmroom
        omega)
      hfroom
    unfold as_copy
    rw [hcreate]
    simp only
    generalize page_table_dup { k with kmalloc_ok := rest0 }
      { page_table := List.replicate PAGE_L1_NUM none, regions := [], writable := old.writable }
      old = d at hd ⊢
    obtain ⟨hd0, hdreg, hdwr, hdm, hdlen⟩ := hd
    rw [if_neg (not_not.mpr hd0)]
    cases hregs : old.regions with
    | nil => exact absurd hregs hne
    | cons node tl =>
      rw [hregs] at hdlen
      simp only [List.length_cons] at hdlen
      obtain ⟨r, hr, hdup⟩ := region_dup_ok d.2.1 node tl d.1 hdm (by omega)
      have hm1 : ∀ b ∈ r, b = true :=
        fun b hb => hdm b (by rw [hr]; exact List.mem_cons_of_mem _ hb)
      have hlen1 : tl.length ≤ r.length := by
        rw [hr] at hdlen
        simp only [List.length_cons] at hdlen
        omega
      obtain ⟨k1, hk1⟩ := as_copy_walk_ok tl node [] node { d.2.1 with kmalloc_ok := r } 0
        hm1 hlen1
      simp only [hdup, ne_eq, not_true_eq_false, if_false, hk1]
      exact ⟨k1, _, rfl, hdwr, rfl⟩

/-- C13 on the address space with one mapped page, the regions
`[0x1000, 0x2000)` and `[0x2000, 0x3000)` and the override flag set: the copy
carries the flag and both regions, in order. -/
theorem as_copy_copies_flag_and_regions_witness :
    ∃ k1 dst,
      as_copy { kernel_copy with kmalloc_ok := [true, true, true, true, true] }
        { as_mapped with regions := [region_rw, region_next], writable := 1 } =
        some (0, k1, some dst) ∧
      dst.writable = 1 ∧ dst.regions = [region_rw, region_next] :=
  as_copy_copies_flag_and_regions
    { kernel_copy with kmalloc_ok := [true, true, true, true, true] }
    { as_mapped with regions := [region_rw, region_next], writable := 1 }
    (by decide) (by decide) (by decide) (by decide) (by decide) (by decide)

/-- C21: on a well-formed address space, if `page_table_insert as addr e`
returns 0, then for every address `other` in another 4096-byte page than `addr`
the lookup of `other` returns after the insert what it returned before it, and
the region list and the `writable` flag are as before. -/
theorem page_table_insert_keeps_other_pages (k : Kernel) (as : addrspace) (addr other e : Nat)
    (hwf : as.wf = true) (hpage : addr / 4096 ≠ other / 4096)
    (hret : (page_table_insert k as addr e).1 = 0) :
    page_table_lookup (page_table_insert k as addr e).2.2 other = page_table_lookup as other ∧
    (page_table_insert k as addr e).2.2.regions = as.regions ∧
    (page_table_insert k as addr e).2.2.writable = as.writable := by
  refine ⟨?_, page_table_insert_regions k as addr e, page_table_insert_writable k as addr e⟩
  rw [page_table_lookup_eq_entry_at, page_table_lookup_eq_entry_at,
    entry_at_after_insert k as addr e hwf hret, if_neg]
  intro h
  exact hpage (page_eq_of_index_eq addr other h.1.symm h.2.1.symm h.2.2.symm)

/-- C21 on the address space with the page at `0x1000` mapped: an insert at
`0x2000` returns 0 and is read back, and the lookup of `0x1000` still returns
`0x00100600`. -/
theorem page_table_insert_keeps_other_pages_witness :
    (page_table_insert kernel_ex as_mapped 0x2000 0x00101200).1 = 0 ∧
    page_table_lookup (page_table_insert kernel_ex as_mapped 0x2000 0x00101200).2.2 0x2000 =
      0x00101200 ∧
    page_table_lookup (page_table_insert kernel_ex as_mapped 0x2000 0x00101200).2.2 0x1000 =
      0x00100600 ∧
    (page_table_insert kernel_ex as_mapped 0x2000 0x00101200).2.2.regions = [region_rw] := by
  have hret : (page_table_insert kernel_ex as_mapped 0x2000 0x00101200).1 = 0 := by decide
  have h := page_table_insert_keeps_other_pages kernel_ex as_mapped 0x2000 0x1000 0x00101200
    (by decide) (by decide) hret
  refine ⟨hret, by decide, ?_, h.2.1⟩
  rw [h.1]
  decide

/-- C22 fails for a region without permission bits: `as_define_region` with
`readable = writeable = executable = 0` builds the region of `as_none`; the
read fault at `0x1000` returns 0 and takes the frame at `0x80100000`, but the
entry it leaves has no `TLBLO_VALID` bit; the same fault again returns 0 and
takes the next frame, `0x80101000`. -/
theorem vm_fault_no_permission_entry_not_valid :
    (as_define_region kernel_ex as_empty 0x1000 0x1000 0 0 0).2.2 = as_none ∧
    (vm_fault kernel_ex (some as_none) VM_FAULT_READ 0x1000).1 = 0 ∧
    (vm_fault kernel_ex (some as_none) VM_FAULT_READ 0x1000).2.1.kpages = [0x80101000] ∧
    (vm_fault kernel_ex (some as_none) VM_FAULT_READ 0x1000).2.2.map
      (fun a => page_table_lookup a 0x1000 &&& TLBLO_VALID) = some 0 ∧
    (vm_fault (vm_fault kernel_ex (some as_none) VM_FAULT_READ 0x1000).2.1
      (vm_fault kernel_ex (some as_none) VM_FAULT_READ 0x1000).2.2 VM_FAULT_READ 0x1000).1 = 0 ∧
    (vm_fault (vm_fault kernel_ex (some as_none) VM_FAULT_READ 0x1000).2.1
      (vm_fault kernel_ex (some as_none) VM_FAULT_READ 0x1000).2.2 VM_FAULT_READ
        0x1000).2.1.kpages = [] := by
  refine ⟨by decide, by decide, by decide, by decide, by decide, by decide⟩

/-- C22 as amended: when `vm_fault` returns 0 for `addr` on a well-formed
address space and either the page already had a valid entry or the region
found for `addr` has a non-zero permission byte, the lookup of `addr`
afterwards has `TLBLO_VALID` set; then every later fault at an address of the
same page finds the valid entry, takes no frame from the allocator and leaves
the address space as it is, and a read or write fault at a non-zero address of
the page is settled by the hit path. -/
theorem vm_fault_installs_valid_entry (k : Kernel) (as : addrspace) (faulttype : Int)
    (addr : Nat) (hwf : as.wf = true)
    (hperm : page_table_lookup as addr &&& TLBLO_VALID = 0 →
      ∀ reg, regions_lookup as addr = some reg → reg.permission ≠ 0)
    (hret : (vm_fault k (some as) faulttype addr).1 = 0) :
    ∃ as1, (vm_fault k (some as) faulttype addr).2.2 = some as1 ∧
      page_table_lookup as1 addr &&& TLBLO_VALID ≠ 0 ∧
      ∀ (k2 : Kernel) (ft2 : Int) (addr2 : Nat), addr2 / 4096 = addr / 4096 →
        page_table_lookup as1 addr2 &&& TLBLO_VALID ≠ 0 ∧
        (vm_fault k2 (some as1) ft2 addr2).2.1.kpages = k2.kpages ∧
        (vm_fault k2 (some as1) ft2 addr2).2.2 = some as1 ∧
        (addr2 ≠ 0 → (ft2 = VM_FAULT_READ ∨ ft2 = VM_FAULT_WRITE) →
          vm_fault k2 (some as1) ft2 addr2 =
            if ft2 = VM_FAULT_WRITE ∧ page_table_lookup as1 addr2 &&& TLBLO_DIRTY = 0 then
              (EFAULT, k2, some as1)
            else (0, tlb_random k2 (addr2 &&& TLBHI_VPAGE) (page_table_lookup as1 addr2),
              some as1)) := by
  obtain ⟨hpos, huser, htype⟩ := vm_fault_zero_args k as faulttype addr hret
  have hafter : ∃ as1, (vm_fault k (some as) faulttype addr).2.2 = some as1 ∧
      page_table_lookup as1 addr &&& TLBLO_VALID ≠ 0 := by
    by_cases hvalid : page_table_lookup as addr &&& TLBLO_VALID ≠ 0
    · exact ⟨as, (vm_fault_valid_no_alloc k as faulttype addr hvalid).2, hvalid⟩
    · have hmiss : page_table_lookup as addr &&& TLBLO_VALID = 0 := not_not.mp hvalid
      cases hreg : regions_lookup as addr with
      | none =>
        have hrange : ¬ (addr = 0x0 ∨ addr ≥ 0x80000000) := by omega
        unfold vm_fault at hret
        simp only [if_neg hrange, check_faulttype_read_write faulttype htype, ne_eq,
          not_true_eq_false, if_false, hmiss, hreg] at hret
        exact absurd hret (by decide)
      | some reg =>
        obtain ⟨_, _, as1, has1, hlook⟩ :=
          vm_fault_first_touch k as faulttype addr reg hwf htype hreg hmiss hret
        refine ⟨as1, has1, ?_⟩
        rw [hlook]
        exact make_pte_valid reg _ _ (hperm hmiss reg hreg)
  obtain ⟨as1, has1, hvalid1⟩ := hafter
  refine ⟨as1, has1, hvalid1, ?_⟩
  intro k2 ft2 addr2 hpage
  obtain ⟨i1, i2, i3⟩ := index_eq_of_page_eq addr2 addr hpage
  have hvalid2 : page_table_lookup as1 addr2 &&& TLBLO_VALID ≠ 0 := by
    rw [page_table_lookup_congr as1 addr2 addr i1 i2 i3]
    exact hvalid1
  refine ⟨hvalid2, (vm_fault_valid_no_alloc k2 as1 ft2 addr2 hvalid2).1,
    (vm_fault_valid_no_alloc k2 as1 ft2 addr2 hvalid2).2, ?_⟩
  intro hpos2 htype2
  exact vm_fault_hit k2 as1 ft2 addr2 htype2 hpos2 (by omega) hvalid2

/-- C22 as amended on the read+write region `[0x1000, 0x2000)`: the write fault
at `0x1000` returns 0 and leaves the address space `as_mapped`, whose entry for
the page is valid; a read fault at `0x1ffc` afterwards takes no frame. -/
theorem vm_fault_installs_valid_entry_witness :
    (vm_fault kernel_ex (some as_rw) VM_FAULT_WRITE 0x1000).1 = 0 ∧
    (vm_fault kernel_ex (some as_rw) VM_FAULT_WRITE 0x1000).2.2 = some as_mapped ∧
    page_table_lookup as_mapped 0x1000 &&& TLBLO_VALID ≠ 0 ∧
    (vm_fault (vm_fault kernel_ex (some as_rw) VM_FAULT_WRITE 0x1000).2.1 (some as_mapped)
      VM_FAULT_READ 0x1ffc).2.1.kpages =
      (vm_fault kernel_ex (some as_rw) VM_FAULT_WRITE 0x1000).2.1.kpages := by
  have hret : (vm_fault kernel_ex (some as_rw) VM_FAULT_WRITE 0x1000).1 = 0 := by decide
  have hres : (vm_fault kernel_ex (some as_rw) VM_FAULT_WRITE 0x1000).2.2 = some as_mapped := by
    decide
  have hperm : page_table_lookup as_rw 0x1000 &&& TLBLO_VALID = 0 →
      ∀ reg, regions_lookup as_rw 0x1000 = some reg → reg.permission ≠ 0 := by
    intro _ reg hreg
    have hfound : regions_lookup as_rw 0x1000 = some region_rw := by decide
    rw [hfound] at hreg
    rw [← Option.some.inj hreg]
    decide
  obtain ⟨as1, has1, hvalid, hlater⟩ :=
    vm_fault_installs_valid_entry kernel_ex as_rw VM_FAULT_WRITE 0x1000 (by decide) hperm hret
  rw [hres] at has1
  rw [← Option.some.inj has1] at hvalid hlater
  exact ⟨hret, hres, hvalid,
    (hlater (vm_fault kernel_ex (some as_rw) VM_FAULT_WRITE 0x1000).2.1 VM_FAULT_READ 0x1ffc
      (by decide)).2.1⟩

end OS161
